import Mathlib

/-!
Verification development for the vehicle/liability PDF extraction core:
a shallow embedding of the per-insurer extractors
(`gjensidige.py`, `if_skadeforsikring.py`, `tryg.py`, `ly.py`),
the vehicle orchestrator (`insurers/shared/vehicle_mapping.py`) and the
general-liability mapping (`insurers/shared/general_liability_mapping.py`).

Python strings are modelled as `List Char`; `re` patterns are modelled by a
small backtracking regex engine (`Rx`) with Python semantics for the
constructs the code uses (greedy/lazy quantifiers, alternation order,
leftmost search, capture groups, IGNORECASE/DOTALL, word boundaries).
Streamlit calls (`st.write` and friends) are pure logging and are dropped.
-/

namespace PyStr

/-- Python `str.lower` restricted to the ASCII and Latin-1 letter ranges
(the only case-carrying characters the corpus needs). -/
def pyLower (c : Char) : Char :=
  if 65 ≤ c.toNat ∧ c.toNat ≤ 90 then Char.ofNat (c.toNat + 32)
  else if 192 ≤ c.toNat ∧ c.toNat ≤ 222 ∧ c.toNat ≠ 215 then Char.ofNat (c.toNat + 32)
  else c

/-- Python `str.upper` restricted to the same ranges. -/
def pyUpper (c : Char) : Char :=
  if 97 ≤ c.toNat ∧ c.toNat ≤ 122 then Char.ofNat (c.toNat - 32)
  else if 224 ≤ c.toNat ∧ c.toNat ≤ 254 ∧ c.toNat ≠ 247 then Char.ofNat (c.toNat - 32)
  else c

/-- Python regex `\s` / `str.strip` whitespace for `str` patterns. -/
def pySpace (c : Char) : Bool :=
  c = ' ' ∨ c = '\t' ∨ c = '\n' ∨ c = '\r' ∨ c.toNat = 11 ∨ c.toNat = 12 ∨
  c.toNat = 28 ∨ c.toNat = 29 ∨ c.toNat = 30 ∨ c.toNat = 31 ∨
  c.toNat = 133 ∨ c.toNat = 160 ∨ c.toNat = 0x2028 ∨ c.toNat = 0x2029 ∨
  (0x2000 ≤ c.toNat ∧ c.toNat ≤ 0x200a) ∨ c.toNat = 0x202f ∨ c.toNat = 0x205f ∨
  c.toNat = 0x3000 ∨ c.toNat = 0x1680 ∨ c.toNat = 0x85

/-- Python regex `\d` (ASCII digits suffice for this corpus). -/
def pyDigit (c : Char) : Bool := c.isDigit

/-- Python regex `\w`: alphanumerics, underscore, and Latin letters
(covers the Norwegian characters the documents contain). -/
def pyWord (c : Char) : Bool :=
  c.isAlphanum ∨ c = '_' ∨
  (0xC0 ≤ c.toNat ∧ c.toNat ≤ 0x24F ∧ c.toNat ≠ 0xD7 ∧ c.toNat ≠ 0xF7)

/-- Python `str.lower` over a whole string. -/
def lowerL (s : List Char) : List Char := s.map pyLower

/-- Python `str.upper` over a whole string. -/
def upperL (s : List Char) : List Char := s.map pyUpper

/-- Python `s.replace(p, r)` for a one-character pattern `p = [x]`. -/
def replace1 (x : Char) (r : List Char) : List Char → List Char
  | [] => []
  | c :: s => if c = x then r ++ replace1 x r s else c :: replace1 x r s

/-- Python `s.replace(p, r)` for a two-character pattern `p = [x, y]`
(leftmost, non-overlapping, like `str.replace`). -/
def replace2 (x y : Char) (r : List Char) : List Char → List Char
  | [] => []
  | [c] => [c]
  | c1 :: c2 :: s =>
      if c1 = x ∧ c2 = y then r ++ replace2 x y r s
      else c1 :: replace2 x y r (c2 :: s)

/-- Python `re.sub(r"\s+", " ", s)`: collapse every whitespace run to one space. -/
def collapseWS : List Char → List Char
  | [] => []
  | [c] => if pySpace c then [' '] else [c]
  | c1 :: c2 :: s =>
      if pySpace c1 ∧ pySpace c2 then collapseWS (c2 :: s)
      else (if pySpace c1 then ' ' else c1) :: collapseWS (c2 :: s)

/-- Drop whitespace from the end of a string. -/
def dropEndWS (s : List Char) : List Char := ((s.reverse).dropWhile pySpace).reverse

/-- Python `str.strip()`. -/
def stripWS (s : List Char) : List Char := dropEndWS (s.dropWhile pySpace)

/-- Python `str.strip(chars)` for an explicit character set. -/
def stripChars (cs : List Char) (s : List Char) : List Char :=
  (((s.dropWhile (cs.contains ·)).reverse).dropWhile (cs.contains ·)).reverse

/-- Python `re.sub(r"\D", "", s)`: keep digit characters only. -/
def digitsOnly (s : List Char) : List Char := s.filter pyDigit

/-- Numeric value of a digit string, `int(s)` for an all-digit `s`. -/
def natOfDigits (s : List Char) : Nat :=
  s.foldl (fun acc c => acc * 10 + (c.toNat - 48)) 0

/-- Decimal digit list of a natural number, `str(n)`. -/
def digitsOfNat (n : Nat) : List Char := (Nat.repr n).toList

/-- Test whether `pat` occurs at position `i` of `s` (`s[i:].startswith(pat)`). -/
def occursAt (pat s : List Char) (i : Nat) : Bool :=
  pat.isPrefixOf (s.drop i)

/-- Python `pat in s` substring test. -/
def containsSub (pat s : List Char) : Bool :=
  (List.range (s.length + 1)).any (occursAt pat s)

/-- Python `s.find(pat)`: index of the leftmost occurrence, or `none`. -/
def findSub (pat s : List Char) : Option Nat :=
  (List.range (s.length + 1)).find? (occursAt pat s)

/-- Python `s.find(pat, start)` restricted to positions at or after `start`. -/
def findSubFrom (pat s : List Char) (start : Nat) : Option Nat :=
  ((List.range (s.length + 1)).filter (start ≤ ·)).find? (occursAt pat s)

/-- Python `s.rfind(pat, 0, stop)`: rightmost occurrence before `stop`, or `none`. -/
def rfindSubBefore (pat s : List Char) (stop : Nat) : Option Nat :=
  (((List.range (s.length + 1)).filter (fun i => i + pat.length ≤ stop)).filter
    (occursAt pat s)).getLast?

/-- Python slice `s[a:b]` (for the non-negative indices this code uses). -/
def pySlice (s : List Char) (a b : Nat) : List Char := (s.take b).drop a

/-- Python `s[a:]`. -/
def pySliceFrom (s : List Char) (a : Nat) : List Char := s.drop a

/-- Python `str.splitlines()` (the line-break set Python recognises). -/
def isLineBreak (c : Char) : Bool :=
  c = '\n' ∨ c = '\r' ∨ c.toNat = 11 ∨ c.toNat = 12 ∨ c.toNat = 28 ∨
  c.toNat = 29 ∨ c.toNat = 30 ∨ c.toNat = 133 ∨ c.toNat = 0x2028 ∨ c.toNat = 0x2029

/-- Helper for `splitlines`: accumulated current line, then the rest. -/
def splitLinesAux : List Char → List Char → List (List Char)
  | [], acc => if acc = [] then [] else [acc.reverse]
  | '\r' :: '\n' :: s, acc => acc.reverse :: splitLinesAux s []
  | c :: s, acc =>
      if isLineBreak c then acc.reverse :: splitLinesAux s []
      else splitLinesAux s (c :: acc)

/-- Python `str.splitlines()`. -/
def splitLines (s : List Char) : List (List Char) := splitLinesAux s []

end PyStr

namespace Rx

open PyStr

/-- Abstract syntax of the regex fragment the Python modules use. -/
inductive Pat where
  | eps : Pat
  | cls (p : Char → Bool) : Pat
  | cat (a b : Pat) : Pat
  | alt (a b : Pat) : Pat
  | star (lazy : Bool) (r : Pat) : Pat
  | bound (lo hi : Nat) (lazy : Bool) (r : Pat) : Pat
  | grp (i : Nat) (r : Pat) : Pat
  | bol : Pat
  | eol : Pat
  | wordB : Pat

/-- Capture list: group index with start and end positions (later entries shadow). -/
def Caps := List (Nat × Nat × Nat)

/-- Record a capture for group `i` spanning positions `a` to `b`. -/
def capSet (i a b : Nat) (cs : Caps) : Caps := (i, a, b) :: cs

/-- Span of group `i`, if it participated in the match. -/
def capGet (cs : Caps) (i : Nat) : Option (Nat × Nat) :=
  match cs.find? (fun t => t.1 = i) with
  | some (_, a, b) => some (a, b)
  | none => none

/-- Match result: end position of the whole match plus captures. -/
def MRes := Nat × Caps

/-- Word-boundary test at position `p` of `subj` (Python `\b`). -/
def isWordBoundary (subj : List Char) (p : Nat) : Bool :=
  let before := match subj.get? (p - 1) with
    | some c => if p = 0 then false else pyWord c
    | none => false
  let here := match subj.get? p with
    | some c => pyWord c
    | none => false
  before ≠ here

/-- Backtracking matcher in continuation-passing style with Python semantics:
first-alternative preference, greedy and lazy quantifiers, leftmost bias.
`fuel` bounds the recursion and is chosen generously by the wrappers. -/
def mat (subj : List Char) : Nat → Pat → Nat → Caps → (Nat → Caps → Option MRes) → Option MRes
  | 0, _, _, _, _ => none
  | _ + 1, .eps, p, cs, k => k p cs
  | _ + 1, .cls q, p, cs, k =>
      match subj.get? p with
      | some c => if q c then k (p + 1) cs else none
      | none => none
  | f + 1, .cat a b, p, cs, k =>
      mat subj f a p cs (fun p2 cs2 => mat subj f b p2 cs2 k)
  | f + 1, .alt a b, p, cs, k =>
      (mat subj f a p cs k).orElse (fun _ => mat subj f b p cs k)
  | f + 1, .star lz r, p, cs, k =>
      let step := fun (_ : Unit) => mat subj f r p cs (fun p2 cs2 =>
        if p < p2 then mat subj f (.star lz r) p2 cs2 k else none)
      if lz then (k p cs).orElse step else (step ()).orElse (fun _ => k p cs)
  | f + 1, .bound lo hi lz r, p, cs, k =>
      match lo, hi with
      | 0, 0 => k p cs
      | 0, h + 1 =>
          let step := fun (_ : Unit) => mat subj f r p cs (fun p2 cs2 =>
            mat subj f (.bound 0 h lz r) p2 cs2 k)
          if lz then (k p cs).orElse step else (step ()).orElse (fun _ => k p cs)
      | _ + 1, 0 => none
      | l + 1, h + 1 =>
          mat subj f r p cs (fun p2 cs2 => mat subj f (.bound l h lz r) p2 cs2 k)
  | f + 1, .grp i r, p, cs, k =>
      mat subj f r p cs (fun p2 cs2 => k p2 (capSet i p p2 cs2))
  | _ + 1, .bol, p, cs, k => if p = 0 then k p cs else none
  | _ + 1, .eol, p, cs, k =>
      if p = subj.length ∨ (p + 1 = subj.length ∧ subj.get? p = some '\n') then k p cs else none
  | _ + 1, .wordB, p, cs, k => if isWordBoundary subj p then k p cs else none

/-- Structural size of a pattern, used to budget matcher fuel. -/
def psize : Pat → Nat
  | .eps | .bol | .eol | .wordB | .cls _ => 1
  | .cat a b | .alt a b => psize a + psize b + 1
  | .star _ r => psize r + 1
  | .bound _ hi _ r => (psize r + 1) * (hi + 1)
  | .grp _ r => psize r + 1

/-- Fuel budget: ample for the recursion depth any pattern here can need. -/
def fuelFor (r : Pat) (subj : List Char) : Nat :=
  (psize r + 2) * (subj.length + 2) + 1000

/-- Full match information: start, end, captures. -/
structure M where
  s : Nat
  e : Nat
  caps : Caps

/-- Try to match `r` at exactly position `p` (used by `re.match`-style anchoring). -/
def matchAt (r : Pat) (subj : List Char) (p : Nat) : Option M :=
  match mat subj (fuelFor r subj) r p [] (fun e cs => some (e, cs)) with
  | some (e, cs) => some ⟨p, e, cs⟩
  | none => none

/-- Python `re.search`: leftmost position at which the pattern matches. -/
def searchFrom (r : Pat) (subj : List Char) : Nat → Nat → Option M
  | 0, _ => none
  | n + 1, p =>
      match matchAt r subj p with
      | some m => some m
      | none => if p < subj.length then searchFrom r subj n (p + 1) else none

/-- Python `re.search(r, subj)`. -/
def search (r : Pat) (subj : List Char) : Option M :=
  searchFrom r subj (subj.length + 1) 0

/-- Python `re.match(r, subj)` (anchored at position 0). -/
def matchStart (r : Pat) (subj : List Char) : Option M := matchAt r subj 0

/-- Python `re.fullmatch(r, subj)`. -/
def fullmatch (r : Pat) (subj : List Char) : Option M :=
  match mat subj (fuelFor r subj) r 0 [] (fun e cs =>
      if e = subj.length then some (e, cs) else none) with
  | some (e, cs) => some ⟨0, e, cs⟩
  | none => none

/-- Matched text of a whole match, `m.group(0)`. -/
def group0 (subj : List Char) (m : M) : List Char := pySlice subj m.s m.e

/-- Captured text of group `i`, `m.group(i)`, `none` when the group did not participate. -/
def group (subj : List Char) (m : M) (i : Nat) : Option (List Char) :=
  match capGet m.caps i with
  | some (a, b) => some (pySlice subj a b)
  | none => none

/-- Captured text of group `i` with Python `or ""` defaulting. -/
def groupD (subj : List Char) (m : M) (i : Nat) : List Char :=
  (group subj m i).getD []

/-- Python `re.finditer`: successive non-overlapping leftmost matches. -/
def findIterFrom (r : Pat) (subj : List Char) : Nat → Nat → List M
  | 0, _ => []
  | n + 1, p =>
      match (searchFrom r subj (subj.length + 1 - p) p : Option M) with
      | some m =>
          m :: findIterFrom r subj n (if m.s < m.e then m.e else m.e + 1)
      | none => []

/-- Python `re.finditer(r, subj)` as a list. -/
def findIter (r : Pat) (subj : List Char) : List M :=
  findIterFrom r subj (subj.length + 2) 0

/-- Literal character, with optional IGNORECASE folding. -/
def lit (ic : Bool) (c : Char) : Pat :=
  .cls (fun d => d = c ∨ (ic ∧ pyLower d = pyLower c))

/-- Literal string, with optional IGNORECASE folding. -/
def str (ic : Bool) (s : String) : Pat :=
  s.toList.foldr (fun c r => .cat (lit ic c) r) .eps

/-- Character class from a predicate, with optional IGNORECASE widening. -/
def cls (ic : Bool) (p : Char → Bool) : Pat :=
  .cls (fun c => p c ∨ (ic ∧ (p (pyLower c) ∨ p (pyUpper c))))

/-- Pattern that never matches; identity of `alts`. -/
def fail : Pat := .cls (fun _ => false)

/-- Ordered alternation of a list of patterns. -/
def alts : List Pat → Pat
  | [] => fail
  | [r] => r
  | r :: rest => .alt r (alts rest)

/-- Greedy option, `r?`. -/
def opt (r : Pat) : Pat := .bound 0 1 false r

/-- Greedy star, `r*`. -/
def star (r : Pat) : Pat := .star false r

/-- Lazy star, `r*?`. -/
def starL (r : Pat) : Pat := .star true r

/-- Greedy plus, `r+`. -/
def plus (r : Pat) : Pat := .cat r (.star false r)

/-- Lazy plus, `r+?`. -/
def plusL (r : Pat) : Pat := .cat r (.star true r)

/-- Greedy counted repetition, `r{lo,hi}`. -/
def rep (lo hi : Nat) (r : Pat) : Pat := .bound lo hi false r

/-- Lazy counted repetition, `r{lo,hi}?`. -/
def repL (lo hi : Nat) (r : Pat) : Pat := .bound lo hi true r

/-- Greedy open repetition, `r{lo,}`. -/
def atLeast (lo : Nat) (r : Pat) : Pat := .cat (.bound lo lo false r) (.star false r)

/-- Lazy open repetition, `r{lo,}?`. -/
def atLeastL (lo : Nat) (r : Pat) : Pat := .cat (.bound lo lo true r) (.star true r)

/-- Concatenation of a pattern list. -/
def seq (rs : List Pat) : Pat := rs.foldr .cat .eps

/-- Python `.` with or without DOTALL. -/
def dot (dotall : Bool) : Pat :=
  if dotall then .cls (fun _ => true) else .cls (fun c => c ≠ '\n')

/-- Class `\d`. -/
def dcls : Pat := .cls pyDigit

/-- Class `\s`. -/
def scls : Pat := .cls pySpace

/-- Class `\S`. -/
def nscls : Pat := .cls (fun c => ¬ pySpace c)

/-- Class `\D`. -/
def ndcls : Pat := .cls (fun c => ¬ pyDigit c)

/-- Class `\w`. -/
def wcls : Pat := .cls pyWord

/-- Python `re.split(pat, s, maxsplit=1)[0]`: text before the first match. -/
def splitFirstBefore (r : Pat) (s : List Char) : List Char :=
  match search r s with
  | some m => pySlice s 0 m.s
  | none => s

/-- Python `re.findall` when the pattern has no groups: whole-match texts. -/
def findAll0 (r : Pat) (subj : List Char) : List (List Char) :=
  (findIter r subj).map (group0 subj)

/-- Python `re.findall` when the pattern has one group: group-1 texts. -/
def findAll1 (r : Pat) (subj : List Char) : List (List Char) :=
  (findIter r subj).map (fun m => groupD subj m 1)

end Rx

namespace Rx

open PyStr

/-- Python `re.sub(pat, rep, s)`: splice `rep` over every non-overlapping match. -/
def subAllGo (subj rep : List Char) : List M → Nat → List Char
  | [], pos => pySliceFrom subj pos
  | m :: ms, pos => pySlice subj pos m.s ++ rep ++ subAllGo subj rep ms m.e

/-- Python `re.sub` for the patterns used by the extractors. -/
def subAll (r : Pat) (rep : List Char) (subj : List Char) : List Char :=
  subAllGo subj rep (findIter r subj) 0

end Rx

namespace PyStr

/-- Python `str.rstrip(chars)`. -/
def rstripChars (cs : List Char) (s : List Char) : List Char :=
  ((s.reverse).dropWhile (cs.contains ·)).reverse

/-- Python `re.sub(r"\s+", "", s)` (remove all whitespace). -/
def removeWS (s : List Char) : List Char := s.filter (fun c => ¬ pySpace c)

/-- Apply an ordered list of `str.replace` steps (patterns of length one or two),
the way the extractors iterate over their replacement dicts. -/
def replaceSeq (rs : List (List Char × List Char)) (s : List Char) : List Char :=
  rs.foldl (fun acc pr =>
    match pr.1 with
    | [x] => replace1 x pr.2 acc
    | [x, y] => replace2 x y pr.2 acc
    | _ => acc) s

/-- Python truthiness `a or b` on strings. -/
def orStr (a b : List Char) : List Char := if a = [] then b else a

end PyStr

/-- A vehicle record, the dict shape shared by the four extractors
(`year`, `type_raw` and `source` are the extra keys the Tryg extractor carries). -/
structure Vehicle where
  registration : List Char := []
  vehicle_type : List Char := []
  make_model_year : List Char := []
  coverage : List Char := []
  leasing : List Char := []
  annual_mileage : List Char := []
  bonus : List Char := []
  deductible : List Char := []
  sum_insured : List Char := []
  premium : List Char := []
  year : List Char := []
  type_raw : List Char := []
  source : List Char := []
deriving DecidableEq, Repr

namespace Gjensidige

open PyStr Rx

/-- Character class `[A-Z]`. -/
def ucAZ (c : Char) : Bool := 'A' ≤ c ∧ c ≤ 'Z'

/-- Character class `[a-z]`. -/
def lcaz (c : Char) : Bool := 'a' ≤ c ∧ c ≤ 'z'

/-- Character class `[\s\.,]` (thousands separators). -/
def sepChar (c : Char) : Bool := pySpace c ∨ c = '.' ∨ c = ','

/-- Character class `[0-9\s\.,]`. -/
def digitSep (c : Char) : Bool := pyDigit c ∨ pySpace c ∨ c = '.' ∨ c = ','

/-- Character class `[A-Za-z0-9\s\-().]` from `pattern1`. -/
def modelChar (c : Char) : Bool :=
  ucAZ c ∨ lcaz c ∨ pyDigit c ∨ pySpace c ∨ c = '-' ∨ c = '(' ∨ c = ')' ∨ c = '.'

/-- Character class `[\w\s]`. -/
def wordOrSpace (c : Char) : Bool := pyWord c ∨ pySpace c

/-- Source constant `MACHINE_BRANDS`. -/
def MACHINE_BRANDS : List String :=
  ["Doosan", "Hitachi", "Caterpillar", "Liebherr", "Sennebogen", "Komatsu",
   "Volvo", "JCB", "Bobcat", "Case", "John Deere", "New Holland", "Kubota"]

/-- Source pattern `REG_TOKEN`, compiled under a caller-chosen IGNORECASE flag. -/
def regToken (ic : Bool) : Pat :=
  seq [rep 2 2 (cls ic ucAZ), star scls, dcls, rep 3 4 (seq [opt scls, dcls])]

/-- Source pattern `REG_WITH_SPACES_RE` (IGNORECASE). -/
def REG_WITH_SPACES_RE : Pat := seq [.wordB, .grp 1 (regToken true), .wordB]

/-- Source pattern `LABEL_RE` (IGNORECASE). -/
def LABEL_RE : Pat :=
  seq [.wordB,
    .grp 1 (alts [str true "kjennemerke",
      seq [str true "reg", opt (lit false '.'), star scls, str true "nr"],
      str true "regnr", str true "registreringsnummer"]),
    .wordB]

/-- Source pattern `YEAR_20XX_RE`. -/
def YEAR_20XX_RE : Pat :=
  seq [.wordB, .grp 1 (seq [str false "20", rep 2 2 dcls]), .wordB]

/-- Source pattern `NUMBER_TOKEN_RE`. -/
def NUMBER_TOKEN_RE : Pat :=
  seq [.wordB,
    .grp 1 (.alt
      (seq [rep 1 3 dcls, plus (seq [.cls sepChar, rep 3 3 dcls])])
      (rep 5 6 dcls)),
    .wordB]

/-- Source pattern `MASKINLOSORE_RE` (IGNORECASE): `maskinl(ø|o|0|@|?|Ã¸)s(ø|o|0|@|?|Ã¸)re`. -/
def MASKINLOSORE_RE : Pat :=
  let oAlt := alts [str true "ø", str true "o", str true "0", str true "@",
    str true "?", str true "Ã¸"]
  seq [str true "maskinl", oAlt, str true "s", oAlt, str true "re"]

/-- Source constant `OCR_TEXT_REPLACEMENTS`, in dict insertion order. -/
def OCR_TEXT_REPLACEMENTS : List (List Char × List Char) :=
  [("Ã¸".toList, "o".toList),
   ("Ã\u0098".toList, "o".toList),
   ("Ã¥".toList, "a".toList),
   ("Ã\u0085".toList, "a".toList),
   ("Ã¦".toList, "ae".toList),
   ("Ã\u0086".toList, "ae".toList),
   ("ø".toList, "o".toList),
   ("Ø".toList, "o".toList),
   ("å".toList, "a".toList),
   ("Å".toList, "a".toList),
   ("æ".toList, "ae".toList),
   ("Æ".toList, "ae".toList)]

/-- Source `_looks_like_gjensidige_pdf`. -/
def looks_like_gjensidige_pdf (pdf_text : List Char) : Bool :=
  let text := lowerL pdf_text
  if ¬ containsSub "gjensidige".toList text then false
  else
    ["gjensidige forsikring asa", "forsikringsnummer", "forsikringsoversikt",
     "næringsbil minigruppe", "ureg. arbeidsmaskin"].any
      (fun m => containsSub m.toList text)

/-- Source `_slice_context`. -/
def slice_context (text : List Char) (center before after : Nat) : List Char :=
  pySlice text (center - before) (center + after)

/-- Source `_normalize_digits`. -/
def normalize_digits (value : List Char) : List Char := stripWS (digitsOnly value)

/-- Source `_normalize_ocr_text`. -/
def normalize_ocr_text (text : List Char) : List Char :=
  if text = [] then []
  else collapseWS (replaceSeq OCR_TEXT_REPLACEMENTS text)

/-- Source `_extract_premium_after_position`. -/
def extract_premium_after_position (text : List Char) (start_pos : Nat) : List Char :=
  if text = [] then []
  else
    let tail := pySlice text start_pos (start_pos + 100)
    match search NUMBER_TOKEN_RE tail with
    | none => []
    | some m =>
        let value := normalize_digits (groupD tail m 1)
        if value = [] then []
        else if 1900 ≤ natOfDigits value ∧ natOfDigits value ≤ 2100 then []
        else value

/-- Candidate filter of `_extract_premium_from_window`: one window hit. -/
def premiumWindowStep (acc : List (List Char)) (hit : List Char) :
    List (List Char) :=
  let value := normalize_digits hit
  if value = [] then acc
  else if 1900 ≤ natOfDigits value ∧ natOfDigits value ≤ 2100 then acc
  else acc ++ [value]

/-- Source `_extract_premium_from_window`. -/
def extract_premium_from_window (text : List Char) : List Char :=
  if text = [] then []
  else
    let candidates := (findAll1 NUMBER_TOKEN_RE text).foldl premiumWindowStep []
    match candidates.getLast? with
    | some v => v
    | none => []

/-- Source `_extract_sum_insured`, first labelled pattern. -/
def sumInsuredLabelled : Pat :=
  seq [str true "forsikringssum",
    opt (seq [star scls, lit false '(', str true "kr", lit false ')']),
    star scls, opt (str true "kr"), star scls,
    opt (.cls (fun c => c = ':' ∨ c = '-')), star scls,
    .grp 1 (seq [rep 1 3 dcls, plus (seq [opt (.cls sepChar), rep 3 3 dcls])])]

/-- Source `_extract_sum_insured`, table-header fallback pattern (IGNORECASE, DOTALL). -/
def sumInsuredHeaderBlock : Pat :=
  seq [str true "hva", plus scls, str true "er", plus scls, str true "forsikret",
    plus scls, str true "forsikringssum", plus scls, str true "egenandel",
    .grp 1 (repL 0 700 (dot true)),
    .alt (seq [str true "forsikringen", plus scls, str true "dekker"]) .eol]

/-- Bare number token used by the fallback row scan in `_extract_sum_insured`. -/
def rowNumberToken : Pat :=
  seq [.wordB, rep 1 3 dcls, plus (seq [.cls sepChar, rep 3 3 dcls]), .wordB]

/-- Source `_extract_sum_insured`. -/
def extract_sum_insured (text : List Char) : List Char :=
  if text = [] then []
  else
    let normalized := normalize_ocr_text text
    match search sumInsuredLabelled normalized with
    | some m => normalize_digits (groupD normalized m 1)
    | none =>
      match search sumInsuredHeaderBlock normalized with
      | some hb =>
          let row_text := groupD normalized hb 1
          let hits := (findAll0 rowNumberToken row_text).foldl
            (fun acc cand =>
              let value := normalize_digits cand
              if value = [] then acc
              else if 1900 ≤ natOfDigits value ∧ natOfDigits value ≤ 2100 then acc
              else acc ++ [value]) []
          match hits.head? with
          | some v => v
          | none => []
      | none => []

/-- Source `_extract_annual_mileage`, first pattern. -/
def mileagePat1 : Pat :=
  seq [opt (seq [str true "arlig", plus scls]),
    .alt (str true "kjorelengde") (str true "kjoretid"),
    star scls, opt (.alt (str true "inntil") (seq [str true "opp", star scls, str true "til"])),
    star scls, .grp 1 (seq [dcls, atLeast 2 (.cls digitSep)]),
    star scls, opt (alts [str true "km", str true "kilometer", str true "timer"])]

/-- Source `_extract_annual_mileage`, second pattern. -/
def mileagePat2 : Pat :=
  seq [opt (seq [str true "arlig", plus scls]),
    str true "kj", rep 0 3 (cls true lcaz), str true "re",
    .alt (str true "lengde") (str true "tid"),
    star scls, opt (.alt (str true "inntil") (seq [str true "opp", star scls, str true "til"])),
    star scls, .grp 1 (seq [dcls, atLeast 2 (.cls digitSep)]),
    star scls, opt (alts [str true "km", str true "kilometer", str true "timer"])]

/-- Source `_extract_annual_mileage`. -/
def extract_annual_mileage (text : List Char) : List Char :=
  if text = [] then []
  else
    let normalized := lowerL (normalize_ocr_text text)
    match search mileagePat1 normalized with
    | some m => normalize_digits (groupD normalized m 1)
    | none =>
      match search mileagePat2 normalized with
      | some m => normalize_digits (groupD normalized m 1)
      | none => []

/-- Source `_extract_leasing` company probes (IGNORECASE). -/
def leasingProbes : List (Pat × List Char) :=
  [(seq [str true "sparebank", star scls, lit false '1'], "Sparebank 1".toList),
   (seq [str true "nordea", star scls, str true "finans"], "Nordea Finans".toList),
   (str true "santander", "Santander".toList),
   (seq [str true "dnb", star scls, str true "finans"], "DNB Finans".toList),
   (seq [str true "brage", star scls, str true "finans"], "BRAGE FINANS".toList)]

/-- First leasing company whose probe pattern matches `text`. -/
def firstLeasingHit (text : List Char) : List Char :=
  match leasingProbes.find? (fun pr => (search pr.1 text).isSome) with
  | some pr => pr.2
  | none => []

/-- Source `_extract_leasing`. -/
def extract_leasing (sec full_text reg : List Char) : List Char :=
  let hit := firstLeasingHit sec
  if hit ≠ [] then hit
  else
    let reg_pattern :=
      seq [str true (String.mk reg), starL (dot true),
        alts [str true "Sparebank 1", str true "Nordea Finans", str true "Santander",
          str true "DNB Finans", str true "BRAGE FINANS"]]
    match search reg_pattern full_text with
    | none => []
    | some m => firstLeasingHit (group0 full_text m)

/-- Source `_extract_bonus`. -/
def extract_bonus (full_text reg : List Char) : List Char :=
  let pat := seq [str true (String.mk reg), lit false ':', star scls,
    .grp 1 (plus dcls), lit false '%', star scls, str true "bonus"]
  match search pat full_text with
  | some m => groupD full_text m 1 ++ "%".toList
  | none => []

/-- Scoring patterns of `_find_best_vehicle_context`. -/
def hvaErForsikretPat : Pat := seq [str true "Hva", plus scls, str true "er", plus scls, str true "forsikret"]

/-- Source pattern `Første gang registrert | Ferste gang registrert` (IGNORECASE). -/
def foersteGangPat : Pat :=
  .alt (seq [lit true 'F', .alt (lit true 'ø') (lit true 'o'), str true "rste",
          plus scls, str true "gang", plus scls, str true "registrert"])
       (seq [str true "Ferste", plus scls, str true "gang", plus scls, str true "registrert"])

/-- Source pattern `Forsikringen dekker` (IGNORECASE). -/
def forsikringenDekkerPat : Pat := seq [str true "Forsikringen", plus scls, str true "dekker"]

/-- Source pattern `kj[a-z]{0,3}re(lengde|tid)\s*(inntil|opp til)?\s*[0-9]` (IGNORECASE). -/
def kjoreDigitPat : Pat :=
  seq [str true "kj", rep 0 3 (cls true lcaz), str true "re",
    .alt (str true "lengde") (str true "tid"),
    star scls, opt (.alt (str true "inntil") (seq [str true "opp", star scls, str true "til"])),
    star scls, dcls]

/-- Score of one candidate window in `_find_best_vehicle_context`. -/
def contextScore (full_text : List Char) (ms me : Nat) : Nat :=
  let before_hint := pySlice full_text (ms - 500) ms
  let after_hint := pySlice full_text me (me + 1400)
  (if (search hvaErForsikretPat before_hint).isSome then 3 else 0) +
  (if (search foersteGangPat after_hint).isSome then 3 else 0) +
  (if (search forsikringenDekkerPat after_hint).isSome then 2 else 0) +
  (if (search kjoreDigitPat after_hint).isSome then 2 else 0)

/-- Source `_find_best_vehicle_context` (Python `max` keeps the first maximum). -/
def find_best_vehicle_context (full_text vehicle_hint : List Char) (fallback_pos : Nat) : List Char :=
  let default_context := slice_context full_text fallback_pos 800 1200
  if vehicle_hint = [] then default_context
  else
    let hint_re := str true (String.mk vehicle_hint)
    let candidates := (findIter hint_re full_text).map (fun m =>
      (contextScore full_text m.s m.e, slice_context full_text m.s 400 2200))
    match candidates with
    | [] => default_context
    | c0 :: rest =>
        let best := rest.foldl (fun acc c => if acc.1 < c.1 then c else acc) c0
        if 0 < best.1 then best.2 else default_context

/-- Source constant `brands` from `_extract_registered_cars`. -/
def carBrands : List String :=
  ["VOLKSWAGEN", "FORD", "TOYOTA", "MERCEDES-BENZ", "MERCEDES", "LAND ROVER",
   "CITROEN", "PEUGEOT", "VOLVO", "BMW", "AUDI", "NISSAN", "RENAULT", "OPEL",
   "FIAT", "IVECO", "MAN", "SCANIA", "SKODA", "HYUNDAI", "KIA", "MAZDA",
   "MITSUBISHI", "SUZUKI", "ISUZU", "TESLA", "POLESTAR", "BYD", "MG", "SEAT", "MINI"]

/-- Source `pattern1`: brand, model, year, registration on one line (IGNORECASE). -/
def pattern1 : Pat :=
  seq [.grp 1 (alts (carBrands.map (str true))), plus scls,
    .grp 2 (plusL (cls true modelChar)), plus scls,
    .grp 3 (seq [str false "20", rep 2 2 dcls]), plus scls,
    .grp 4 (regToken true)]

/-- Build the vehicle dict appended by the `pattern1` loop. -/
def mkPattern1Vehicle (pdf_text : List Char) (make model yr reg : List Char)
    (ms me : Nat) : Vehicle :=
  let sec := slice_context pdf_text ms 200 500
  let premium := extract_premium_after_position pdf_text me
  { registration := reg, vehicle_type := "bil".toList,
    make_model_year := make ++ " ".toList ++ model ++ " ".toList ++ yr,
    coverage := "kasko".toList,
    leasing := extract_leasing sec pdf_text reg,
    annual_mileage := extract_annual_mileage sec,
    bonus := extract_bonus pdf_text reg,
    deductible := [],
    sum_insured := extract_sum_insured sec,
    premium := premium }

/-- First loop of `_extract_registered_cars` over `pattern1` matches. -/
def registeredCarsPhase1 (pdf_text : List Char) :
    List M → List (List Char) → List Vehicle × List (List Char)
  | [], seen => ([], seen)
  | m :: ms, seen =>
      let make := stripWS (groupD pdf_text m 1)
      let model := stripWS (groupD pdf_text m 2)
      let yr := stripWS (groupD pdf_text m 3)
      let reg := removeWS (stripWS (groupD pdf_text m 4))
      if reg ∈ seen then registeredCarsPhase1 pdf_text ms seen
      else
        let rest := registeredCarsPhase1 pdf_text ms (reg :: seen)
        (mkPattern1Vehicle pdf_text make model yr reg m.s m.e :: rest.1, rest.2)

/-- Pattern `\b{brand}\b` used by the window brand probe (IGNORECASE). -/
def brandProbe (brand : String) : Pat := seq [.wordB, str true brand, .wordB]

/-- Pattern `\b{brand}\b\s+([A-Za-z0-9\s\-().]+?)(?:\s+20\d{2}|\s*\n|$)` (IGNORECASE). -/
def brandModelPat (brand : String) : Pat :=
  seq [.wordB, str true brand, .wordB, plus scls,
    .grp 1 (plusL (cls true modelChar)),
    alts [seq [plus scls, str false "20", rep 2 2 dcls],
      seq [star scls, lit false '\n'], .eol]]

/-- Source `re.sub(r"\s+(Reg\.\w+|TFA|\w*rspremie).*$", "", found_model)`. -/
def modelTrimPat : Pat :=
  seq [plus scls,
    .grp 1 (alts [seq [str false "Reg", lit false '.', plus wcls],
      str false "TFA", seq [star wcls, str false "rspremie"]]),
    star (dot false), .eol]

/-- Brand scan inside the `REG_WITH_SPACES_RE` loop: first listed brand found in
the window, with its trimmed model text. -/
def scanBrands (window : List Char) : List Char × List Char :=
  match carBrands.find? (fun b => (search (brandProbe b) window).isSome) with
  | none => ([], [])
  | some brand =>
      match search (brandModelPat brand) window with
      | none => (brand.toList, [])
      | some bm =>
          let found_model := stripWS (groupD window bm 1)
          (brand.toList, stripWS (subAll modelTrimPat [] found_model))

/-- Build the vehicle dict appended by the `REG_WITH_SPACES_RE` loop. -/
def mkPhase2Vehicle (pdf_text window : List Char) (reg mmYear premium : List Char) : Vehicle :=
  { registration := reg, vehicle_type := "bil".toList,
    make_model_year := mmYear,
    coverage := "kasko".toList,
    leasing := extract_leasing window pdf_text reg,
    annual_mileage := extract_annual_mileage window,
    bonus := extract_bonus pdf_text reg,
    deductible := [],
    sum_insured := extract_sum_insured window,
    premium := premium }

/-- Second loop of `_extract_registered_cars` over `REG_WITH_SPACES_RE` matches. -/
def registeredCarsPhase2 (pdf_text : List Char) :
    List M → List (List Char) → List Vehicle
  | [], _ => []
  | m :: ms, seen =>
      let reg := replace1 ' ' [] (groupD pdf_text m 1)
      let digits := digitsOnly reg
      if digits.length = 4 ∧
          ("19".toList.isPrefixOf digits ∨ "20".toList.isPrefixOf digits) then
        registeredCarsPhase2 pdf_text ms seen
      else if reg ∈ seen then registeredCarsPhase2 pdf_text ms seen
      else
        let window := slice_context pdf_text m.s 500 500
        let context_window := slice_context pdf_text m.s 120 120
        let premium := extract_premium_after_position pdf_text m.e
        let bm := scanBrands window
        let found_year := match search YEAR_20XX_RE window with
          | some ym => groupD window ym 1
          | none => []
        let label_hit := (search LABEL_RE context_window).isSome
        if bm.1 = [] ∧ ¬ label_hit then registeredCarsPhase2 pdf_text ms seen
        else
          let make_model := stripWS (bm.1 ++ " ".toList ++ bm.2)
          let make_model_year := stripWS (make_model ++ " ".toList ++ found_year)
          mkPhase2Vehicle pdf_text window reg make_model_year premium ::
            registeredCarsPhase2 pdf_text ms (reg :: seen)

/-- Source `_extract_registered_cars`. -/
def extract_registered_cars (pdf_text : List Char) (seen : List (List Char)) : List Vehicle :=
  let ph1 := registeredCarsPhase1 pdf_text (findIter pattern1 pdf_text) seen
  ph1.1 ++ registeredCarsPhase2 pdf_text (findIter REG_WITH_SPACES_RE pdf_text) ph1.2

/-- Source `tractor_re`, parameterized by the brand alternation (IGNORECASE). -/
def tractorPat (brands_alt : List String) : Pat :=
  seq [cls true (fun c => c = 'U' ∨ c = 'u'), str true "registrert", plus scls,
    str true "traktor", plus scls, str true "og", plus scls,
    str true "arb", opt (lit false '.'), str true "maskin", star scls,
    lit false '-', star scls,
    .grp 1 (alts (brands_alt.map (str true))), plus scls,
    .grp 2 (plusL (cls true wordOrSpace)), star scls,
    opt (seq [.grp 3 (seq [str false "20", rep 2 2 dcls]), star scls]),
    lit false '-', star scls,
    .grp 4 (seq [dcls, atLeast 2 (.cls digitSep)])]

/-- Build one tractor vehicle dict from a `tractor_re` match. -/
def mkTractorVehicle (pdf_text : List Char) (brand model yr premium : List Char)
    (ms : Nat) : Vehicle :=
  let label := stripWS (brand ++ " ".toList ++ model ++ " ".toList ++ yr)
  let context := find_best_vehicle_context pdf_text (brand ++ " ".toList ++ model) ms
  { registration := "Uregistrert".toList, vehicle_type := "traktor".toList,
    make_model_year := label, coverage := "kasko".toList, leasing := [],
    annual_mileage := extract_annual_mileage context, bonus := [], deductible := [],
    sum_insured := extract_sum_insured context, premium := premium }

/-- Tractor loop of `_extract_unregistered_tractors`. -/
def tractorLoop (pdf_text : List Char) :
    List M → List (List Char) → List Vehicle × List (List Char)
  | [], seen => ([], seen)
  | m :: ms, seen =>
      let brand := stripWS (groupD pdf_text m 1)
      let model := stripWS (rstripChars "-".toList (stripWS (groupD pdf_text m 2)))
      let yr := groupD pdf_text m 3
      let premium := normalize_digits (groupD pdf_text m 4)
      let key := lowerL (brand ++ "_".toList ++ model)
      if key ∈ seen then tractorLoop pdf_text ms seen
      else
        let rest := tractorLoop pdf_text ms (key :: seen)
        (mkTractorVehicle pdf_text brand model yr premium m.s :: rest.1, rest.2)

/-- Build one `MASKINLOSORE` vehicle dict from a `MASKINLOSORE_RE` match. -/
def mkMaskinVehicle (pdf_text : List Char) (ms : Nat) : Vehicle :=
  let window := slice_context pdf_text ms 150 150
  let yr := match search YEAR_20XX_RE window with
    | some ym => groupD window ym 1
    | none => []
  let line_start := match rfindSubBefore "\n".toList pdf_text ms with
    | some i => i + 1
    | none => 0
  let line_end := match findSubFrom "\n".toList pdf_text ms with
    | some i => i
    | none => pdf_text.length
  let line_text := pySlice pdf_text line_start line_end
  let premium := orStr (extract_premium_from_window line_text)
    (extract_premium_from_window window)
  let context := slice_context pdf_text ms 800 1200
  let label := stripWS ("MASKINLOSORE ".toList ++ yr)
  { registration := "Uregistrert".toList, vehicle_type := "other".toList,
    make_model_year := label, coverage := "kasko".toList, leasing := [],
    annual_mileage := [], bonus := [], deductible := [],
    sum_insured := extract_sum_insured context, premium := premium }

/-- MASKINLOSORE loop of `_extract_unregistered_tractors` (dedup key is constant). -/
def maskinLoop (pdf_text : List Char) : List M → List (List Char) → List Vehicle
  | [], _ => []
  | m :: ms, seen =>
      if "maskinlosore".toList ∈ seen then maskinLoop pdf_text ms seen
      else mkMaskinVehicle pdf_text m.s ::
        maskinLoop pdf_text ms ("maskinlosore".toList :: seen)

/-- Source `_extract_unregistered_tractors`. -/
def extract_unregistered_tractors (pdf_text : List Char) : List Vehicle :=
  let text_lower := lowerL pdf_text
  let found_brands := MACHINE_BRANDS.filter
    (fun b => containsSub (lowerL b.toList) text_lower)
  let brands_alt := if found_brands = [] then MACHINE_BRANDS else found_brands
  let tr := tractorLoop pdf_text (findIter (tractorPat brands_alt) pdf_text) []
  tr.1 ++ maskinLoop pdf_text (findIter MASKINLOSORE_RE pdf_text) tr.2

/-- Source `extract_gjensidige_vehicles`. -/
def extract_gjensidige_vehicles (pdf_text : List Char) : List Vehicle :=
  if ¬ looks_like_gjensidige_pdf pdf_text then []
  else extract_registered_cars pdf_text [] ++ extract_unregistered_tractors pdf_text

end Gjensidige

namespace IfSkade

open PyStr Rx

/-- Character class `[A-Z]`. -/
def ucAZ (c : Char) : Bool := 'A' ≤ c ∧ c ≤ 'Z'

/-- Character class `[\d\s]`. -/
def digitWS (c : Char) : Bool := pyDigit c ∨ pySpace c

/-- Source `VEHICLE_TYPE_PATTERN` alternatives (the third spelling of the boat
word is the mojibake sequence the source file literally contains). -/
def vehicleTypes : List String :=
  ["Varebil", "Personbil", "Lastebil", "Moped", "Traktor", "BÃ¥t", "Båt", "Tilhenger"]

/-- Source `VEHICLE_TYPE_PATTERN` as a capture group, case-sensitive by default. -/
def vehicleTypeGrp (i : Nat) : Pat := .grp i (alts (vehicleTypes.map (str false)))

/-- Source `ANCHOR_RE`: `Registreringsnummer:\s*([A-Z]{2}\d{5})`. -/
def ANCHOR_RE : Pat :=
  seq [str false "Registreringsnummer:", star scls,
    .grp 1 (seq [rep 2 2 (.cls ucAZ), rep 5 5 dcls])]

/-- Source `DEDUCTIBLE_RE` (IGNORECASE). -/
def DEDUCTIBLE_RE : Pat :=
  seq [str true "Egenandel", star scls, lit false '-', star scls,
    str true "Skader p", plus nscls, str true " eget kj", plus nscls,
    str true "ret", plus nscls, str true "y:", star scls,
    .grp 1 (plusL (.cls digitWS)), star scls, str true "kr"]

/-- Source `SUM_INSURED_RE` (IGNORECASE): `Forsikringssum[^0-9]{0,40}([\d\s]{4,})\s*kr`. -/
def SUM_INSURED_RE : Pat :=
  seq [str true "Forsikringssum", rep 0 40 (.cls (fun c => ¬ pyDigit c)),
    .grp 1 (atLeast 4 (.cls digitWS)), star scls, str true "kr"]

/-- Source `LEASING_MARK_RE` (IGNORECASE). -/
def LEASING_MARK_RE : Pat := str true "Tredjemannsinteresse/leasing"

/-- Source `KNOWN_LEASING_COMPANIES`. -/
def KNOWN_LEASING_COMPANIES : List String :=
  ["Sparebank 1", "Nordea Finans", "Santander", "DNB Finans", "BRAGE FINANS",
   "Handelsbanken", "BN Bank"]

/-- Character class of the make capture `[A-Za-zÃ†Ã˜Ã…Ã¦Ã¸Ã¥\-\.\s]` (the classes
in the source file carry the mojibake spellings of the Norwegian letters). -/
def makeChar (c : Char) : Bool :=
  ucAZ c ∨ ('a' ≤ c ∧ c ≤ 'z') ∨ c = 'Ã' ∨ c = '†' ∨ c = '˜' ∨ c = '…' ∨
  c = '¦' ∨ c = '¸' ∨ c = '¥' ∨ c = '-' ∨ c = '.' ∨ pySpace c

/-- Source make/model pattern anchored on the registration:
`{reg}\s*,\s*TYPE\s*,\s*([...]+?)(?:\s+Pris|\s+\d|\s*\n)`. -/
def makePat (reg : List Char) : Pat :=
  seq [str false (String.mk reg), star scls, lit false ',', star scls,
    vehicleTypeGrp 1, star scls, lit false ',', star scls,
    .grp 2 (plusL (.cls makeChar)),
    alts [seq [plus scls, str false "Pris"], seq [plus scls, dcls],
      seq [star scls, lit false '\n']]]

/-- Source `_extract_year`: `(?:Årsmodell|Ã…rsmodell):\s*(\d{4})`. -/
def extract_year (text : List Char) : List Char :=
  let pat := seq [.alt (str false "Årsmodell") (str false "Ã…rsmodell"),
    lit false ':', star scls, .grp 1 (rep 4 4 dcls)]
  match search pat text with
  | some m => groupD text m 1
  | none => []

/-- Source `_extract_mileage`: `(?:Kjørelengde|KjÃ¸relengde):\s*([\d\s]+?)\s*km`. -/
def extract_mileage (text : List Char) : List Char :=
  let pat := seq [.alt (str false "Kjørelengde") (str false "KjÃ¸relengde"),
    lit false ':', star scls, .grp 1 (plusL (.cls digitWS)), star scls, str false "km"]
  match search pat text with
  | some m => stripWS (groupD text m 1)
  | none => []

/-- Source `_extract_deductible`. -/
def extract_deductible (text : List Char) : List Char :=
  match search DEDUCTIBLE_RE text with
  | some m => stripWS (groupD text m 1)
  | none => []

/-- Source `_extract_premium`:
`{reg}\s*,\s*TYPE\s*,\s*.+?\s+Pris per \S*r\s+NOK\s*([\d\s]+)` (IGNORECASE). -/
def extract_premium (text reg : List Char) : List Char :=
  let pat := seq [str true (String.mk reg), star scls, lit false ',', star scls,
    .grp 1 (alts (vehicleTypes.map (str true))), star scls, lit false ',', star scls,
    plusL (dot false), plus scls, str true "Pris per ", star nscls, str true "r",
    plus scls, str true "NOK", star scls, .grp 2 (plus (.cls digitWS))]
  match search pat text with
  | some m => stripWS (groupD text m 2)
  | none => []

/-- Source `_extract_sum_insured`. -/
def extract_sum_insured (text : List Char) : List Char :=
  match search SUM_INSURED_RE text with
  | some m => stripWS (groupD text m 1)
  | none => []

/-- Source `_extract_leasing`. -/
def extract_leasing (text : List Char) : List Char :=
  match KNOWN_LEASING_COMPANIES.find? (fun c => containsSub c.toList text) with
  | some c => c.toList
  | none =>
      if (search LEASING_MARK_RE text).isSome then
        "Leasing (ukjent selskap/tredjepartsleasing)".toList
      else []

/-- Source `type_map` lookup with default `"bil"`. -/
def typeMap (raw : List Char) : List Char :=
  if raw = "varebil".toList ∨ raw = "personbil".toList ∨ raw = "lastebil".toList then "bil".toList
  else if raw = "tilhenger".toList then "trailer".toList
  else if raw = "moped".toList then "moped".toList
  else if raw = "traktor".toList then "traktor".toList
  else if raw = "bÃ¥t".toList ∨ raw = "båt".toList then "boat".toList
  else "bil".toList

/-- Per-anchor body of the `extract_if_vehicles` loop. -/
def vehicleAtAnchor (pdf_text : List Char) (anchor : M) (next_anchor_start : Nat) :
    Option Vehicle :=
  let reg := groupD pdf_text anchor 1
  let block_start := anchor.s - 350
  let sec := pySlice pdf_text block_start next_anchor_start
  let after_anchor := pySlice pdf_text anchor.e next_anchor_start
  match search (makePat reg) sec with
  | none => none
  | some make_m =>
      let raw_type := lowerL (stripWS (groupD sec make_m 1))
      let make := stripWS (groupD sec make_m 2)
      let yr := extract_year after_anchor
      let mileage := extract_mileage after_anchor
      let deductible := extract_deductible after_anchor
      let leasing0 := extract_leasing after_anchor
      let leasing := if leasing0 = [] then
          extract_leasing (pySlice pdf_text (anchor.s - 240) anchor.s)
        else leasing0
      let premium := extract_premium sec reg
      let sum_insured := extract_sum_insured after_anchor
      let model_with_year := stripWS (make ++ " ".toList ++ yr)
      some ({ registration := reg, vehicle_type := typeMap raw_type,
              make_model_year := model_with_year, coverage := "kasko".toList,
              leasing := leasing, annual_mileage := mileage, bonus := [],
              deductible := deductible, premium := premium,
              sum_insured := sum_insured } : Vehicle)

/-- Anchor loop of `extract_if_vehicles`: the rest of the anchor list supplies
`anchors[idx + 1]`, and the `seen` set is threaded through. -/
def anchorLoop (pdf_text : List Char) :
    List M → List (List Char) → List Vehicle
  | [], _ => []
  | a :: rest, seen =>
      let reg := groupD pdf_text a 1
      if reg ∈ seen then anchorLoop pdf_text rest seen
      else
        let next_start := match rest.head? with
          | some nxt => nxt.s
          | none => min pdf_text.length (a.e + 2200)
        match vehicleAtAnchor pdf_text a next_start with
        | some v => v :: anchorLoop pdf_text rest (reg :: seen)
        | none => anchorLoop pdf_text rest (reg :: seen)

/-- Source `extract_if_vehicles`. -/
def extract_if_vehicles (pdf_text : List Char) : List Vehicle :=
  anchorLoop pdf_text (findIter ANCHOR_RE pdf_text) []

end IfSkade

namespace Ly

open PyStr Rx

/-- Character class `[A-Z]`. -/
def ucAZ (c : Char) : Bool := 'A' ≤ c ∧ c ≤ 'Z'

/-- Character class `[0-9\s\.,]`. -/
def digitSep (c : Char) : Bool := pyDigit c ∨ pySpace c ∨ c = '.' ∨ c = ','

/-- Source `TABLE_ROW_RE` (anchored with `^...$`, used through `re.match`). -/
def TABLE_ROW_RE : Pat :=
  seq [.bol,
    .grp 1 (seq [rep 2 2 (.cls ucAZ), opt scls, rep 4 5 dcls]), plus scls,
    .grp 2 (plusL (dot false)), plus scls,
    .grp 3 (.alt (seq [str false "19", rep 2 2 dcls]) (seq [str false "20", rep 2 2 dcls])),
    plus scls,
    rep 2 2 dcls, lit false '.', rep 2 2 dcls, lit false '.', rep 4 4 dcls,
    opt (seq [plus scls, rep 2 2 dcls, lit false '.', rep 2 2 dcls, lit false '.', rep 4 4 dcls]),
    plus scls,
    .grp 4 (seq [dcls, rep 0 15 (.cls digitSep)]), plus scls,
    .grp 5 (seq [dcls, rep 0 15 (.cls digitSep)]), .eol]

/-- Source `_normalize_text` replacement dict, in insertion order. -/
def lyReplacements : List (List Char × List Char) :=
  [("ø".toList, "o".toList),
   ("å".toList, "a".toList),
   ("æ".toList, "ae".toList),
   ("ö".toList, "o".toList),
   ("ü".toList, "u".toList),
   ("Ã¸".toList, "o".toList),
   ("Ã¥".toList, "a".toList),
   ("Ã¦".toList, "ae".toList)]

/-- Source `_normalize_text`. -/
def normalize_text (value : List Char) : List Char :=
  stripWS (collapseWS (replaceSeq lyReplacements (lowerL value)))

/-- Source `_normalize_amount`: keep digits, then regroup them in blocks of
three from the right, joined by single spaces. -/
def groupThrees (digits : List Char) : List (List Char) :=
  if digits.length ≤ 3 then [digits]
  else groupThrees (digits.take (digits.length - 3)) ++ [digits.drop (digits.length - 3)]
termination_by digits.length
decreasing_by
  simp only [List.length_take]
  omega

/-- Source `_normalize_amount`. -/
def normalize_amount (value : List Char) : List Char :=
  let digits := digitsOnly value
  if digits = [] then []
  else if digits = "0".toList then "0".toList
  else List.intercalate " ".toList (groupThrees digits)

/-- Source `_compact_spaces`. -/
def compact_spaces (value : List Char) : List Char := collapseWS (stripWS value)

/-- Source `_normalize_registration`. -/
def normalize_registration (value : List Char) : List Char := upperL (removeWS value)

/-- Source `_slice_context`. -/
def slice_context (text : List Char) (center before after : Nat) : List Char :=
  pySlice text (center - before) (center + after)

/-- Source `_section_between`. -/
def section_between (text : List Char) (startPat endPat : Pat) : List Char :=
  match search startPat text with
  | none => []
  | some s =>
      match search endPat (pySliceFrom text s.e) with
      | none => pySlice text s.s (s.s + 2500)
      | some e => pySlice text s.s (s.e + e.s)

/-- Source pattern `Kundevalgte tilleggsdekninger som er valgt(.{0,700})` (IGNORECASE, DOTALL). -/
def selectedLeasingPat : Pat :=
  seq [str true "Kundevalgte", plus scls, str true "tilleggsdekninger", plus scls,
    str true "som", plus scls, str true "er", plus scls, str true "valgt",
    .grp 1 (rep 0 700 (dot true))]

/-- Source pattern `M01\s+Leasingavtale` (IGNORECASE). -/
def m01Pat : Pat := seq [str true "M01", plus scls, str true "Leasingavtale"]

/-- Source `_extract_selected_leasing`. -/
def extract_selected_leasing (sec : List Char) : List Char :=
  if sec = [] then []
  else
    match search selectedLeasingPat sec with
    | none => []
    | some m =>
        if (search m01Pat (groupD sec m 1)).isSome then "Leasingavtale".toList else []

/-- Source `_extract_amount`. -/
def extract_amount (text : List Char) (pat : Pat) : List Char :=
  if text = [] then []
  else
    match search pat text with
    | none => []
    | some m => normalize_amount (groupD text m 1)

/-- Source `_extract_line_value`. -/
def extract_line_value (text : List Char) (pat : Pat) : List Char :=
  match search pat text with
  | none => []
  | some m => compact_spaces (groupD text m 1)

/-- Source pattern `\bKasko\s+([0-9][0-9\s\.,]*)` (IGNORECASE). -/
def kaskoAmountPat : Pat :=
  seq [.wordB, str true "Kasko", plus scls,
    .grp 1 (seq [dcls, star (.cls digitSep)])]

/-- Source pattern `Avtalt\s+kj[øo]relengde\s+([0-9][0-9\s\.,]*)` (IGNORECASE). -/
def avtaltPat : Pat :=
  seq [str true "Avtalt", plus scls, str true "kj",
    .cls (fun c => c = 'ø' ∨ c = 'o' ∨ c = 'Ø' ∨ c = 'O'), str true "relengde",
    plus scls, .grp 1 (seq [dcls, star (.cls digitSep)])]

/-- Source pattern `Gruppenavn\s+Firmabiler` (IGNORECASE). -/
def gruppeFirmabilerPat : Pat := seq [str true "Gruppenavn", plus scls, str true "Firmabiler"]

/-- Source pattern `Kj[øo]ret[øo]y\s+som\s+inng[åa]r\s+i\s+gruppen` (IGNORECASE). -/
def kjoretoyInngaarPat : Pat :=
  seq [str true "Kj", .cls (fun c => c = 'ø' ∨ c = 'o' ∨ c = 'Ø' ∨ c = 'O'),
    str true "ret", .cls (fun c => c = 'ø' ∨ c = 'o' ∨ c = 'Ø' ∨ c = 'O'),
    str true "y", plus scls, str true "som", plus scls, str true "inng",
    .cls (fun c => c = 'å' ∨ c = 'a' ∨ c = 'Å' ∨ c = 'A'), str true "r",
    plus scls, str true "i", plus scls, str true "gruppen"]

/-- Source pattern `Gruppenavn\s+Tilhengere` (IGNORECASE). -/
def gruppeTilhengerePat : Pat := seq [str true "Gruppenavn", plus scls, str true "Tilhengere"]

/-- Source pattern `Tilhengere\s+som\s+inng[åa]r\s+i\s+gruppen` (IGNORECASE). -/
def tilhengereInngaarPat : Pat :=
  seq [str true "Tilhengere", plus scls, str true "som", plus scls, str true "inng",
    .cls (fun c => c = 'å' ∨ c = 'a' ∨ c = 'Å' ∨ c = 'A'), str true "r",
    plus scls, str true "i", plus scls, str true "gruppen"]

/-- Per-group defaults, the dict produced by `_extract_group_defaults`. -/
structure GroupDefaults where
  coverage : List Char := []
  deductible : List Char := []
  annual_mileage : List Char := []
  leasing : List Char := []
deriving DecidableEq, Repr

/-- Source `_extract_group_defaults`. -/
def extract_group_defaults (text : List Char) : GroupDefaults × GroupDefaults :=
  let car_section := section_between text gruppeFirmabilerPat kjoretoyInngaarPat
  let trailer_section := section_between text gruppeTilhengerePat tilhengereInngaarPat
  let carKasko := extract_amount car_section kaskoAmountPat
  let trailerKasko := extract_amount trailer_section kaskoAmountPat
  ({ coverage := if carKasko ≠ [] then "kasko".toList else [],
     deductible := carKasko,
     annual_mileage := extract_amount car_section avtaltPat,
     leasing := extract_selected_leasing car_section },
   { coverage := if trailerKasko ≠ [] then "kasko".toList else [],
     deductible := trailerKasko,
     annual_mileage := [],
     leasing := extract_selected_leasing trailer_section })

/-- Section state of the group-table scan: none, cars, or trailers. -/
inductive Section where
  | none
  | car
  | trailer
deriving DecidableEq, Repr

/-- Line scan of `_extract_group_table_vehicles`, threading section state and
the shared `seen_keys` set. -/
def groupTableLoop (defaults : GroupDefaults × GroupDefaults) :
    List (List Char) → Section → List (List Char) →
    List Vehicle × List (List Char)
  | [], _, seen => ([], seen)
  | raw_line :: rest, current, seen =>
      let line := stripWS raw_line
      if line = [] then groupTableLoop defaults rest current seen
      else
        let normalized := normalize_text line
        if containsSub "kjoretoy som inngar i gruppen".toList normalized then
          groupTableLoop defaults rest Section.car seen
        else if containsSub "tilhengere som inngar i gruppen".toList normalized then
          groupTableLoop defaults rest Section.trailer seen
        else if current = Section.none then
          groupTableLoop defaults rest current seen
        else
          match matchStart TABLE_ROW_RE line with
          | none => groupTableLoop defaults rest current seen
          | some m =>
              let reg := normalize_registration (groupD line m 1)
              let model := compact_spaces (groupD line m 2)
              let yr := groupD line m 3
              let premium := normalize_amount (groupD line m 4)
              if reg ∈ seen then groupTableLoop defaults rest current seen
              else
                let sd := if current = Section.car then defaults.1 else defaults.2
                let vt := if current = Section.car then "car".toList else "trailer".toList
                let v : Vehicle :=
                  { registration := reg, vehicle_type := vt,
                    make_model_year := stripWS (model ++ " ".toList ++ yr),
                    coverage := orStr sd.coverage "kasko".toList,
                    leasing := sd.leasing, annual_mileage := sd.annual_mileage,
                    bonus := [], deductible := sd.deductible, sum_insured := [],
                    premium := premium }
                let restRes := groupTableLoop defaults rest current (reg :: seen)
                (v :: restRes.1, restRes.2)

/-- Source `_extract_group_table_vehicles`. -/
def extract_group_table_vehicles (pdf_text : List Char)
    (defaults : GroupDefaults × GroupDefaults) (seen : List (List Char)) :
    List Vehicle × List (List Char) :=
  groupTableLoop defaults (splitLines pdf_text) Section.none seen

/-- Source pattern `Registreringsnummer\s+UREG` (IGNORECASE). -/
def uregAnchorPat : Pat := seq [str true "Registreringsnummer", plus scls, str true "UREG"]

/-- Source pattern `Merke\s*/\s*modell\s*([^\n\r]*)` (IGNORECASE). -/
def merkeModellPat : Pat :=
  seq [str true "Merke", star scls, lit false '/', star scls, str true "modell",
    star scls, .grp 1 (star (.cls (fun c => c ≠ '\n' ∧ c ≠ '\r')))]

/-- Source pattern `(?:Å|A)rsmodell\s+(19\d{2}|20\d{2})` (IGNORECASE). -/
def arsmodellPat : Pat :=
  seq [.alt (lit true 'Å') (lit true 'A'), str true "rsmodell", plus scls,
    .grp 1 (.alt (seq [str false "19", rep 2 2 dcls]) (seq [str false "20", rep 2 2 dcls]))]

/-- Source pattern `Maskintype\s+([^\n\r]+)` (IGNORECASE). -/
def maskintypePat : Pat :=
  seq [str true "Maskintype", plus scls, .grp 1 (plus (.cls (fun c => c ≠ '\n' ∧ c ≠ '\r')))]

/-- Source pattern `Markedsverdi\s+([0-9][0-9\s\.,]*)` (IGNORECASE). -/
def markedsverdiPat : Pat :=
  seq [str true "Markedsverdi", plus scls, .grp 1 (seq [dcls, star (.cls digitSep)])]

/-- Source pattern `Pris\s+for\s+forsikringsperioden\s+([0-9][0-9\s\.,]*)` (IGNORECASE). -/
def prisPeriodenPat : Pat :=
  seq [str true "Pris", plus scls, str true "for", plus scls,
    str true "forsikringsperioden", plus scls, .grp 1 (seq [dcls, star (.cls digitSep)])]

/-- Per-anchor body plus loop of `_extract_unregistered_machines`. -/
def unregisteredLoop (pdf_text : List Char) :
    List M → List (List Char) → List Vehicle
  | [], _ => []
  | m :: rest, seen =>
      let sec := slice_context pdf_text m.s 120 2200
      let model := extract_line_value sec merkeModellPat
      let yr := extract_line_value sec arsmodellPat
      let machine_type := extract_line_value sec maskintypePat
      if model = [] ∧ machine_type = [] then unregisteredLoop pdf_text rest seen
      else
        let display_base := orStr (compact_spaces model) (compact_spaces machine_type)
        let display_name := stripWS (display_base ++ " ".toList ++ yr)
        let key := lowerL ("Uregistrert_".toList ++ display_name)
        if key ∈ seen then unregisteredLoop pdf_text rest seen
        else
          let type_norm := normalize_text machine_type
          let vt := if containsSub "traktor".toList type_norm then "tractor".toList
            else "other".toList
          let kasko := extract_amount sec kaskoAmountPat
          let v : Vehicle :=
            { registration := "Uregistrert".toList, vehicle_type := vt,
              make_model_year := display_name,
              coverage := if kasko ≠ [] then "kasko".toList else [],
              leasing := extract_selected_leasing sec, annual_mileage := [],
              bonus := [], deductible := kasko,
              sum_insured := extract_amount sec markedsverdiPat,
              premium := extract_amount sec prisPeriodenPat }
          v :: unregisteredLoop pdf_text rest (key :: seen)

/-- Source `_extract_unregistered_machines`. -/
def extract_unregistered_machines (pdf_text : List Char) (seen : List (List Char)) :
    List Vehicle :=
  unregisteredLoop pdf_text (findIter uregAnchorPat pdf_text) seen

/-- Source `extract_ly_vehicles`. -/
def extract_ly_vehicles (pdf_text : List Char) : List Vehicle :=
  if pdf_text = [] then []
  else
    let normalized_all := normalize_text pdf_text
    let markers := ["ly forsikring", "firmabil flate", "tilhenger flate",
      "registreringsnummer ureg"]
    if ¬ markers.any (fun mk => containsSub mk.toList normalized_all) then []
    else
      let defaults := extract_group_defaults pdf_text
      let grp := extract_group_table_vehicles pdf_text defaults []
      grp.1 ++ extract_unregistered_machines pdf_text grp.2

end Ly

namespace PyStr

/-- Python `str.replace` for arbitrary pattern length (fueled, leftmost,
non-overlapping); used where patterns are longer than two characters. -/
def replaceAllFuel : Nat → List Char → List Char → List Char → List Char
  | 0, _, _, s => s
  | f + 1, p, r, s =>
      if p ≠ [] ∧ p.isPrefixOf s then r ++ replaceAllFuel f p r (s.drop p.length)
      else
        match s with
        | [] => []
        | c :: t => c :: replaceAllFuel f p r t

/-- Python `str.replace` wrapper choosing ample fuel. -/
def replaceAllL (p r s : List Char) : List Char := replaceAllFuel (s.length + 1) p r s

/-- Python dict update `d[k] = v`: in-place update of an existing key, else append. -/
def dput (d : List (List Char × List Char)) (k v : List Char) :
    List (List Char × List Char) :=
  if d.any (fun kv => kv.1 = k) then
    d.map (fun kv => if kv.1 = k then (k, v) else kv)
  else d ++ [(k, v)]

/-- Python dict lookup `d.get(k)`. -/
def dget (d : List (List Char × List Char)) (k : List Char) : Option (List Char) :=
  match d.find? (fun kv => kv.1 = k) with
  | some kv => some kv.2
  | none => none

/-- Python dict lookup `d.get(k, "")`. -/
def dgetD (d : List (List Char × List Char)) (k : List Char) : List Char :=
  (dget d k).getD []

end PyStr

namespace Rx

open PyStr

/-- Python `re.sub` with a function of the match (models backreference templates). -/
def subAllFGo (subj : List Char) (f : M → List Char) : List M → Nat → List Char
  | [], pos => pySliceFrom subj pos
  | m :: ms, pos => pySlice subj pos m.s ++ f m ++ subAllFGo subj f ms m.e

/-- Python `re.sub(pat, f, s)` over all non-overlapping matches. -/
def subAllF (r : Pat) (f : M → List Char) (subj : List Char) : List Char :=
  subAllFGo subj f (findIter r subj) 0

end Rx

namespace Tryg

open PyStr Rx

/-- Character class `[A-Z]`. -/
def ucAZ (c : Char) : Bool := 'A' ≤ c ∧ c ≤ 'Z'

/-- Character class `[a-z]`. -/
def lcaz (c : Char) : Bool := 'a' ≤ c ∧ c ≤ 'z'

/-- Source `COVERAGE_WORDS`. -/
def COVERAGE_WORDS : List String :=
  ["Kasko", "Delkasko", "Ansvar", "Brann", "Tyveri", "Glass", "Redning"]

/-- Source `COVERAGE_RE` (IGNORECASE). -/
def COVERAGE_RE : Pat :=
  seq [.wordB,
    .grp 1 (alts (["kasko", "delkasko", "ansvar", "brann", "tyveri", "glass",
      "redning"].map (str true))),
    .wordB]

/-- Mojibake-garbled name characters of the source classes
`[A-Za-z√Ü√ò√Ö√¶√∏√•0-9\s\-]` (the file itself is double-encoded). -/
def nameChar (c : Char) : Bool :=
  ucAZ c ∨ lcaz c ∨ c = '√' ∨ c = 'Ü' ∨ c = 'ò' ∨ c = 'Ö' ∨ c = '¶' ∨
  c = '∏' ∨ c = '•' ∨ pyDigit c ∨ pySpace c ∨ c = '-'

/-- Same class without digits, `[A-Za-z√Ü√ò√Ö√¶√∏√•\s\-]`. -/
def nameCharNoDigit (c : Char) : Bool :=
  ucAZ c ∨ lcaz c ∨ c = '√' ∨ c = 'Ü' ∨ c = 'ò' ∨ c = 'Ö' ∨ c = '¶' ∨
  c = '∏' ∨ c = '•' ∨ pySpace c ∨ c = '-'

/-- Source `_normalize_key` replacement table, in order. -/
def keyReplacements : List (List Char × List Char) :=
  [("√É¬•".toList, "a".toList), ("√É¬∏".toList, "o".toList), ("√É¬¶".toList, "ae".toList),
   ("√•".toList, "a".toList), ("√∏".toList, "o".toList), ("√¶".toList, "ae".toList)]

/-- Source `_normalize_key`. -/
def normalize_key (s : List Char) : List Char :=
  if s = [] then []
  else
    let s1 := lowerL (stripWS s)
    let s2 := keyReplacements.foldl (fun acc pr => replaceAllL pr.1 pr.2 acc) s1
    s2.filter (fun c => lcaz c ∨ pyDigit c)

/-- Source number pattern `\d{1,3}(?:[ .]\d{3})+|\d{3,6}` of `_normalize_number`. -/
def normNumPat : Pat :=
  .alt (seq [rep 1 3 dcls, plus (seq [.cls (fun c => c = ' ' ∨ c = '.'), rep 3 3 dcls])])
       (rep 3 6 dcls)

/-- Source letter-check class `[a-z√¶√∏√•]` of `_normalize_number`. -/
def letterish (c : Char) : Bool :=
  lcaz c ∨ c = '√' ∨ c = '¶' ∨ c = '∏' ∨ c = '•'

/-- Source `_normalize_number`. -/
def normalize_number (val : List Char) : List Char :=
  if val = [] then []
  else
    let tmp := stripWS (replace2 'k' 'r' [] (lowerL val))
    if tmp.any letterish then []
    else
      match search normNumPat tmp with
      | none => []
      | some m =>
          let num := stripWS (collapseWS (replace1 '.' " ".toList (group0 tmp m)))
          if (removeWS num ≠ [] ∧ (removeWS num).all (· = '0')) then [] else num

/-- Source `_is_valid_coverage`. -/
def is_valid_coverage (val : List Char) : Bool :=
  val ≠ [] ∧ (search COVERAGE_RE val).isSome

/-- Source `NUMERIC_FIELDS`. -/
def NUMERIC_FIELDS : List (List Char) :=
  ["sum_insured".toList, "deductible".toList, "premium".toList]

/-- Source coverage header-word exclusion pattern
`vilk√•r|vilk√É¬•r|vilkar|forsikringssum|egenandel|pris` (IGNORECASE). -/
def coverageHeaderPat : Pat :=
  alts [str true "vilk√•r", str true "vilk√É¬•r", str true "vilkar",
    str true "forsikringssum", str true "egenandel", str true "pris"]

/-- Source `label_patterns` of `_extract_key_values`, in order. The pattern text
is embedded as the regex it denotes (several entries carry `\s*` or escaped
question marks inside the label). -/
def labelPatterns : List (Pat × List Char) :=
  [(str true "Kjennemerke", "registration".toList),
   (str true "Registreringsnummer", "registration".toList),
   (str true "Fabrikat/√•rsmodell/Type", "make_model_year".toList),
   (str true "Fabrikat/arsmodell/Type", "make_model_year".toList),
   (seq [str true "Fabrikat/", lit false '?', str true "rsmodell/Type"], "make_model_year".toList),
   (str true "Fabrikat/√•rsmodell", "make_model_year".toList),
   (str true "Fabrikat/arsmodell", "make_model_year".toList),
   (seq [str true "Fabrikat/", lit false '?', str true "rsmodell"], "make_model_year".toList),
   (str true "Type", "type".toList),
   (seq [str true "Forsikringssum", star scls, str true "kr"], "sum_insured".toList),
   (str true "Forsikringssum", "sum_insured".toList),
   (str true "Dekning", "coverage".toList),
   (str true "Egenandel", "deductible".toList),
   (str true "Pris", "premium".toList),
   (str true "√Örlig kj√∏relengde", "annual_mileage".toList),
   (str true "Arlig kjorelengde", "annual_mileage".toList),
   (seq [lit false '?', str true "rlig kj", lit false '?', str true "relengde"], "annual_mileage".toList),
   (str true "Bonus", "bonus".toList),
   (str true "Leasing", "leasing".toList)]

/-- Source `key_map` of `_extract_key_values`. -/
def keyMap : List (List Char × List Char) :=
  [("kjennemerke".toList, "registration".toList),
   ("registreringsnummer".toList, "registration".toList),
   ("fabrikatarsmodell".toList, "make_model_year".toList),
   ("fabrikatarsmodelltype".toList, "make_model_year".toList),
   ("type".toList, "type".toList),
   ("forsikringssumkr".toList, "sum_insured".toList),
   ("forsikringssum".toList, "sum_insured".toList),
   ("dekning".toList, "coverage".toList),
   ("egenandel".toList, "deductible".toList),
   ("pris".toList, "premium".toList),
   ("arligkjorelengde".toList, "annual_mileage".toList),
   ("bonus".toList, "bonus".toList),
   ("leasing".toList, "leasing".toList)]

/-- Shared value admission of `_extract_key_values` and `_extract_table_fields`:
normalize numeric fields and reject invalid coverage values. Returns the value
to store, or `none` when the entry is skipped. -/
def admitValue (key val : List Char) : Option (List Char) :=
  let val2 := if key ∈ NUMERIC_FIELDS then normalize_number val else val
  if key ∈ NUMERIC_FIELDS ∧ val2 = [] then none
  else if key = "coverage".toList ∧ ¬ is_valid_coverage val2 then none
  else if key = "coverage".toList ∧ (search coverageHeaderPat val2).isSome then none
  else some val2

/-- One line of the first phase of `_extract_key_values`: try every label
pattern (`re.match` of `^LABEL\s*[:\-]?\s*(.+)$`) and fold the hits into `out`. -/
def keyValuesPhase1Line (line : List Char)
    (out : List (List Char × List Char)) : List (List Char × List Char) :=
  labelPatterns.foldl (fun acc pk =>
    let pat := seq [.bol, pk.1, star scls, opt (.cls (fun c => c = ':' ∨ c = '-')),
      star scls, .grp 1 (plus (dot false)), .eol]
    match matchStart pat line with
    | none => acc
    | some m =>
        let val := stripWS (groupD line m 1)
        if val = [] then acc
        else
          match admitValue pk.2 val with
          | some v => dput acc pk.2 v
          | none => acc) out

/-- Second phase of `_extract_key_values`: inline `Key: Value` pairs and
label lines whose value is on the following line. -/
def keyValuesPhase2 (lines : List (List Char)) :
    List (List Char) → List (List Char × List Char) → List (List Char × List Char)
  | [], out => out
  | line :: rest, out =>
      if line.contains ':' then
        let k := normalize_key (line.takeWhile (· ≠ ':'))
        let v := stripWS ((line.dropWhile (· ≠ ':')).tail)
        match dget keyMap k with
        | some mapped =>
            if v = [] then keyValuesPhase2 lines rest out
            else
              (match admitValue mapped v with
               | some v2 => keyValuesPhase2 lines rest (dput out mapped v2)
               | none => keyValuesPhase2 lines rest out)
        | none => keyValuesPhase2 lines rest out
      else
        match dget keyMap (normalize_key line) with
        | some mapped =>
            let idx := lines.length - (line :: rest).length
            match lines.get? (idx + 1) with
            | some nxt =>
                let v := stripWS nxt
                if v = [] then keyValuesPhase2 lines rest out
                else
                  (match admitValue mapped v with
                   | some v2 => keyValuesPhase2 lines rest (dput out mapped v2)
                   | none => keyValuesPhase2 lines rest out)
            | none => keyValuesPhase2 lines rest out
        | none => keyValuesPhase2 lines rest out

/-- Source `_extract_key_values`. -/
def extract_key_values (sec : List Char) : List (List Char × List Char) :=
  let lines := ((splitLines sec).map stripWS).filter (· ≠ [])
  let out1 := lines.foldl (fun acc line => keyValuesPhase1Line line acc) []
  keyValuesPhase2 lines lines out1

/-- Source detailed-format anchor `Kjennemerke\s*\n\s*([A-Z]{2}\d{4,5})` (IGNORECASE). -/
def kjennemerkeAnchorPat : Pat :=
  seq [str true "Kjennemerke", star scls, lit false '\n', star scls,
    .grp 1 (seq [rep 2 2 (cls true ucAZ), rep 4 5 dcls])]

/-- Source detailed make pattern
`Fabrikat/(?:√•rsmodell|arsmodell|√É¬•rsmodell|\?rsmodell)\s*\n\s*([...]+?)(?:\n|Type:)`. -/
def detailedMakePat : Pat :=
  seq [str true "Fabrikat/",
    alts [str true "√•rsmodell", str true "arsmodell", str true "√É¬•rsmodell",
      seq [lit false '?', str true "rsmodell"]],
    star scls, lit false '\n', star scls,
    .grp 1 (plusL (cls true nameChar)),
    .alt (lit false '\n') (str true "Type:")]

/-- Source year probe `\b(19\d{2}|20\d{2})\b`. -/
def yearProbePat : Pat :=
  seq [.wordB,
    .grp 1 (.alt (seq [str false "19", rep 2 2 dcls]) (seq [str false "20", rep 2 2 dcls])),
    .wordB]

/-- Source detailed type pattern `Type:\s*\n\s*([...]+?)(?:\n|Forsikringssum)`. -/
def detailedTypePat : Pat :=
  seq [str true "Type:", star scls, lit false '\n', star scls,
    .grp 1 (plusL (cls true nameCharNoDigit)),
    .alt (lit false '\n') (str true "Forsikringssum")]

/-- Source detailed sum pattern `Forsikringssum\s+kr:\s*\n?\s*([\d\s]+)`. -/
def detailedSumPat : Pat :=
  seq [str true "Forsikringssum", plus scls, str true "kr:", star scls,
    opt (lit false '\n'), star scls,
    .grp 1 (plus (.cls (fun c => pyDigit c ∨ pySpace c)))]

/-- Source detailed table pattern
`Kasko\s*\n\s*PAU\d+\s*\n\s*([\d\s]+?)\s*\n\s*([\d\s]+?)\s*\n\s*(\d+)` (no flags). -/
def detailedTablePat : Pat :=
  seq [str false "Kasko", star scls, lit false '\n', star scls,
    str false "PAU", plus dcls, star scls, lit false '\n', star scls,
    .grp 1 (plusL (.cls (fun c => pyDigit c ∨ pySpace c))), star scls, lit false '\n',
    star scls,
    .grp 2 (plusL (.cls (fun c => pyDigit c ∨ pySpace c))), star scls, lit false '\n',
    star scls, .grp 3 (plus dcls)]

/-- Source `_extract_detailed_format` loop. -/
def detailedLoop (pdf_text : List Char) :
    List M → List (List Char) → List Vehicle × List (List Char)
  | [], seen => ([], seen)
  | m :: rest, seen =>
      let registration := stripWS (groupD pdf_text m 1)
      if registration ∈ seen then detailedLoop pdf_text rest seen
      else
        let sec := pySlice pdf_text (m.s - 500) (m.e + 800)
        let mm := match search detailedMakePat sec with
          | some mk => stripWS (groupD sec mk 1)
          | none => []
        let yr := match search yearProbePat mm with
          | some ym => groupD mm ym 1
          | none => []
        let vtype := match search detailedTypePat sec with
          | some tm => stripWS (groupD sec tm 1)
          | none => []
        let sum_insured := match search detailedSumPat sec with
          | some sm => replace1 ' ' [] (stripWS (groupD sec sm 1))
          | none => []
        let dedprem := match search detailedTablePat sec with
          | some tb => (replace1 ' ' [] (stripWS (groupD sec tb 2)),
              replace1 ' ' [] (stripWS (groupD sec tb 3)))
          | none => ([], [])
        let v : Vehicle :=
          { registration := registration, make_model_year := mm, year := yr,
            type_raw := vtype, sum_insured := sum_insured, deductible := dedprem.1,
            premium := dedprem.2, source := "detailed".toList }
        let restRes := detailedLoop pdf_text rest (registration :: seen)
        (v :: restRes.1, restRes.2)

/-- Source `_extract_detailed_format`. -/
def extract_detailed_format (pdf_text : List Char) (seen : List (List Char)) :
    List Vehicle × List (List Char) :=
  detailedLoop pdf_text (findIter kjennemerkeAnchorPat pdf_text) seen

/-- Source table-row number pattern `\d{1,3}(?:\s\d{3})+|\d{3,6}`. -/
def tableNumPat : Pat :=
  .alt (seq [rep 1 3 dcls, plus (seq [scls, rep 3 3 dcls])]) (rep 3 6 dcls)

/-- Source `_try_row` pattern:
`(COV)\s+(?:[A-Z]{2,5}\d+\s+)?(NUM)\s+(NUM)\s+(NUM)` (IGNORECASE). -/
def tryRowPat : Pat :=
  seq [.grp 1 (alts (COVERAGE_WORDS.map (str true))), plus scls,
    opt (seq [rep 2 5 (cls true ucAZ), plus dcls, plus scls]),
    .grp 2 tableNumPat, plus scls, .grp 3 tableNumPat, plus scls, .grp 4 tableNumPat]

/-- Source `_try_row`. -/
def tryRow (text : List Char) : List (List Char × List Char) :=
  match search tryRowPat text with
  | none => []
  | some row =>
      let coverage := stripWS (groupD text row 1)
      let sum_insured := normalize_number (groupD text row 2)
      let deductible := normalize_number (groupD text row 3)
      let premium := normalize_number (groupD text row 4)
      if ¬ is_valid_coverage coverage then []
      else if sum_insured = [] ∨ deductible = [] then []
      else [("coverage".toList, coverage), ("sum_insured".toList, sum_insured),
        ("deductible".toList, deductible), ("premium".toList, premium)]

/-- Source thousands-rejoin `re.sub(r"(\d)\s*[\r\n]+\s*(\d{3})", r"\1 \2", section)`. -/
def rejoinPat : Pat :=
  seq [.grp 1 dcls, star scls, plus (.cls (fun c => c = '\r' ∨ c = '\n')), star scls,
    .grp 2 (rep 3 3 dcls)]

/-- Flattened section text used by `_extract_table_fields`. -/
def flatten (sec : List Char) : List Char :=
  collapseWS (subAllF rejoinPat
    (fun m => groupD sec m 1 ++ " ".toList ++ groupD sec m 2) sec)

/-- Source table-header probe on the flattened text (IGNORECASE). -/
def tableHeaderFlatPat : Pat :=
  seq [str true "Dekning", plus scls, str true "Vilk",
    alts [str true "√•r", str true "√É¬•r", str true "ar"], plus scls,
    str true "Forsikringssum", plus scls, str true "Egenandel", plus scls, str true "Pris"]

/-- Source line-based table-header probe `Dekning.*Vilk.*Forsikringssum.*Egenandel.*Pris`. -/
def tableHeaderLinePat : Pat :=
  seq [str true "Dekning", star (dot false), str true "Vilk", star (dot false),
    str true "Forsikringssum", star (dot false), str true "Egenandel",
    star (dot false), str true "Pris"]

/-- Source `labels` of fallback A. -/
def fallbackLabels : List (List Char × List Char) :=
  [("dekning".toList, "coverage".toList),
   ("forsikringssum".toList, "sum_insured".toList),
   ("egenandel".toList, "deductible".toList),
   ("pris".toList, "premium".toList)]

/-- Inner value hunt of fallback A: first acceptable value line after a label. -/
def fallbackValueAt (lines : List (List Char)) (i : Nat) (mapped : List Char) :
    Option (List Char) :=
  let found := ((List.range 3).map (fun d => i + 1 + d)).foldl
    (fun acc j => match acc with
      | some r => some r
      | none =>
          match lines.get? j with
          | none => some none
          | some nxtRaw =>
              let nxt := stripWS nxtRaw
              if nxt ≠ [] ∧ (dget fallbackLabels (normalize_key nxt)).isNone then
                some (some nxt)
              else none) none
  match found with
  | some (some nxt) =>
      if mapped ∈ NUMERIC_FIELDS then
        let v := normalize_number nxt
        if v = [] then none else some v
      else if mapped = "coverage".toList ∧ ¬ is_valid_coverage nxt then none
      else if mapped = "coverage".toList ∧ (search coverageHeaderPat nxt).isSome then none
      else some nxt
  | _ => none

/-- Fallback A of `_extract_table_fields`: label lines with values below them
(fueled index walk over the line list). -/
def fallbackALoop (lines : List (List Char)) :
    Nat → Nat → List (List Char × List Char) → List (List Char × List Char)
  | 0, _, found => found
  | fuel + 1, i, found =>
      match lines.get? i with
      | none => found
      | some line =>
          let found2 := match dget fallbackLabels (normalize_key line) with
            | some mapped =>
                (match fallbackValueAt lines i mapped with
                 | some v => dput found mapped v
                 | none => found)
            | none => found
          fallbackALoop lines fuel (i + 1) found2

/-- Source `_extract_table_fields`. -/
def extract_table_fields (sec : List Char) : List (List Char × List Char) :=
  let flat := flatten sec
  let lines := ((splitLines sec).map stripWS).filter (· ≠ [])
  let first := match search tableHeaderFlatPat flat with
    | some header =>
        tryRow (pySlice flat header.e (header.e + 200))
    | none => []
  if first ≠ [] then first
  else
    let lineIdx := (List.range lines.length).find?
      (fun i => match lines.get? i with
        | some line => (search tableHeaderLinePat line).isSome
        | none => false)
    let second := match lineIdx with
      | some i =>
          ((List.range 5).map (fun d => i + 1 + d)).foldl
            (fun acc j => if acc ≠ [] then acc
              else
                if j < min (i + 6) lines.length then
                  let combo := List.intercalate " ".toList
                    ((lines.drop j).take 3)
                  tryRow combo
                else acc) []
      | none => []
    if second ≠ [] then second
    else
      let third := match search COVERAGE_RE flat with
        | some cov => tryRow (pySlice flat cov.s (cov.s + 200))
        | none => []
      if third ≠ [] then third
      else
        let found0 := fallbackALoop lines lines.length 0 []
        let found := if (dget found0 "coverage".toList).isNone then
            match search (.grp 1 (alts (COVERAGE_WORDS.map (str true)))) sec with
            | some cov => dput found0 "coverage".toList (stripWS (groupD sec cov 1))
            | none => found0
          else found0
        if dgetD found "coverage".toList ≠ [] ∧
            (dgetD found "sum_insured".toList ≠ [] ∨ dgetD found "deductible".toList ≠ [] ∨
             dgetD found "premium".toList ≠ []) then found
        else
          match search (.grp 1 (alts (COVERAGE_WORDS.map (str true)))) flat with
          | some cov =>
              let tail := pySlice flat cov.e (cov.e + 200)
              let nums := findAll0 tableNumPat tail
              (match nums with
               | n0 :: n1 :: restNums =>
                   let sum_insured := normalize_number n0
                   let deductible := normalize_number n1
                   let premium := match restNums.head? with
                     | some n2 => normalize_number n2
                     | none => []
                   if sum_insured ≠ [] ∧ deductible ≠ [] then
                     [("coverage".toList, stripWS (groupD flat cov 1)),
                      ("sum_insured".toList, sum_insured),
                      ("deductible".toList, deductible),
                      ("premium".toList, premium)]
                   else found
               | _ => found)
          | none => found

/-- Source specification header pattern (IGNORECASE):
`(?P<header>(WORDS)[^\n]*?)\s*-\s*Vilk(√•r|ar|√É¬•r|\?r)\s+[A-Z]{2,4}\d+`. -/
def specHeaderPat : Pat :=
  seq [.grp 1 (seq [alts (["Motorvogn", "Personbil", "Varebil", "Lastebil",
      "Campingvogn og tilhenger", "Tilhenger", "Traktor", "Moped", "Motorsykkel",
      "Sn√∏scooter", "B√•t"].map (str true)),
      starL (.cls (fun c => c ≠ '\n'))]),
    star scls, lit false '-', star scls, str true "Vilk",
    alts [str true "√•r", str true "ar", str true "√É¬•r",
      seq [lit false '?', str true "r"]],
    plus scls, rep 2 4 (cls true ucAZ), plus dcls]

/-- Source section-boundary pattern of `_extract_specification_format` (IGNORECASE). -/
def specEndMarkPat : Pat :=
  alts [seq [str true "Forsikringsbevis", star scls, lit false '|', star scls,
      str true "Spesifikasjon"],
    str true "Avtalenummer",
    seq [str true "Side", plus scls, plus dcls, plus scls, str true "av", plus scls, plus dcls]]

/-- Source registration fallback `(?:Kjennemerke|Registreringsnummer)\s*[:\-]?\s*([A-Z]{2}\s?\d{4,5})`. -/
def specRegFallbackPat : Pat :=
  seq [.alt (str true "Kjennemerke") (str true "Registreringsnummer"),
    star scls, opt (.cls (fun c => c = ':' ∨ c = '-')), star scls,
    .grp 1 (seq [rep 2 2 (cls true ucAZ), opt scls, rep 4 5 dcls])]

/-- Source make fallback `Fabrikat[^\n]*(√•rsmodell|arsmodell|√É¬•rsmodell|\?rsmodell)\s*[:\-]?\s*([...]{3,80})`. -/
def specMakeFallbackPat : Pat :=
  seq [str true "Fabrikat", star (.cls (fun c => c ≠ '\n')),
    alts [str true "√•rsmodell", str true "arsmodell", str true "√É¬•rsmodell",
      seq [lit false '?', str true "rsmodell"]],
    star scls, opt (.cls (fun c => c = ':' ∨ c = '-')), star scls,
    .grp 1 (rep 3 80 (cls true nameChar))]

/-- Source inline make fallback `{reg}\s+([...]{3,60}?)\s+((?:19|20)\d{2})` (no flags). -/
def specInlineMakePat (reg : List Char) : Pat :=
  seq [str false (String.mk reg), plus scls,
    .grp 1 (repL 3 60 (.cls nameChar)), plus scls,
    .grp 2 (seq [.alt (str false "19") (str false "20"), rep 2 2 dcls])]

/-- Source type fallback `Type\s*[:\-]?\s*([A-Za-z√Ü√ò√Ö√¶√∏√•\s\-]+)` (IGNORECASE). -/
def specTypeFallbackPat : Pat :=
  seq [str true "Type", star scls, opt (.cls (fun c => c = ':' ∨ c = '-')), star scls,
    .grp 1 (plus (cls true nameCharNoDigit))]

/-- Source sum fallback `Forsikringssum\s*(?:kr)?\s*[:\-]?\s*([\d\s]+)` (IGNORECASE). -/
def specSumFallbackPat : Pat :=
  seq [str true "Forsikringssum", star scls, opt (str true "kr"), star scls,
    opt (.cls (fun c => c = ':' ∨ c = '-')), star scls,
    .grp 1 (plus (.cls (fun c => pyDigit c ∨ pySpace c)))]

/-- Source bare registration fallback `\b([A-Z]{2}\s?\d{4,5})\b` (no flags). -/
def specBareRegPat : Pat :=
  seq [.wordB, .grp 1 (seq [rep 2 2 (.cls ucAZ), opt scls, rep 4 5 dcls]), .wordB]

/-- Source anchor `Kjennemerke\s*[:\-]?\s*{reg}` (IGNORECASE). -/
def specKjAnchorPat (reg : List Char) : Pat :=
  seq [str true "Kjennemerke", star scls, opt (.cls (fun c => c = ':' ∨ c = '-')),
    star scls, str true (String.mk reg)]

/-- Merge the table dict into `kv`: table wins on the numeric and coverage keys,
otherwise only fills gaps. -/
def mergeTable (kv table : List (List Char × List Char)) :
    List (List Char × List Char) :=
  table.foldl (fun acc entry =>
    if entry.1 = "sum_insured".toList ∨ entry.1 = "deductible".toList ∨
        entry.1 = "premium".toList ∨ entry.1 = "coverage".toList then
      dput acc entry.1 entry.2
    else if dgetD acc entry.1 = [] then dput acc entry.1 entry.2
    else acc) kv

/-- Body of the `_extract_specification_format` loop for one header match. -/
def specVehicleAt (pdf_text : List Char) (m : M) (secEnd : Nat)
    (seen : List (List Char)) : Option (Vehicle × List Char) :=
  let section0 := pySlice pdf_text m.s secEnd
  let tail := pySliceFrom section0 200
  let sec := match search specEndMarkPat tail with
    | some em => pySlice section0 0 (200 + em.s)
    | none => section0
  let kv0 := extract_key_values sec
  let kv1 := if dgetD kv0 "registration".toList = [] then
      match search specRegFallbackPat sec with
      | some rm => dput kv0 "registration".toList (replace1 ' ' [] (groupD sec rm 1))
      | none => kv0
    else kv0
  let kv2 := if dgetD kv1 "make_model_year".toList = [] then
      match search specMakeFallbackPat sec with
      | some mm => dput kv1 "make_model_year".toList (stripWS (groupD sec mm 1))
      | none => kv1
    else kv1
  let kv3 := if dgetD kv2 "make_model_year".toList = [] ∧
      dgetD kv2 "registration".toList ≠ [] then
      let reg := dgetD kv2 "registration".toList
      match search (specInlineMakePat reg) sec with
      | some im => dput kv2 "make_model_year".toList
          (stripWS (groupD sec im 1) ++ " ".toList ++ stripWS (groupD sec im 2))
      | none => kv2
    else kv2
  let kv4 := if dgetD kv3 "type".toList = [] then
      match search specTypeFallbackPat sec with
      | some tm => dput kv3 "type".toList (stripWS (groupD sec tm 1))
      | none => kv3
    else kv3
  let kv5 := if dgetD kv4 "sum_insured".toList = [] then
      match search specSumFallbackPat sec with
      | some sm => dput kv4 "sum_insured".toList (stripWS (groupD sec sm 1))
      | none => kv4
    else kv4
  let reg0 := dgetD kv5 "registration".toList
  let reg1 := if reg0 = [] then
      match search specBareRegPat sec with
      | some rm => replace1 ' ' [] (groupD sec rm 1)
      | none => []
    else reg0
  if reg1 = [] then none
  else
    let reg := replace1 ' ' [] reg1
    if reg ∈ seen then none
    else
      let table_context := match search (specKjAnchorPat reg) sec with
        | some anchor => pySlice sec anchor.s (anchor.s + 1200)
        | none =>
            match findSub reg sec with
            | some reg_pos => pySlice sec reg_pos (reg_pos + 1200)
            | none => sec
      let table := extract_table_fields table_context
      let kv := if table ≠ [] then mergeTable kv5 table else kv5
      let make_model_year := dgetD kv "make_model_year".toList
      let vtype := orStr (dgetD kv "type".toList) (groupD pdf_text m 1)
      let v : Vehicle :=
        { registration := reg, make_model_year := make_model_year,
          type_raw := vtype, sum_insured := dgetD kv "sum_insured".toList,
          coverage := dgetD kv "coverage".toList,
          leasing := dgetD kv "leasing".toList,
          annual_mileage := dgetD kv "annual_mileage".toList,
          bonus := dgetD kv "bonus".toList,
          deductible := dgetD kv "deductible".toList,
          premium := dgetD kv "premium".toList,
          source := "specification".toList }
      some (v, reg)

/-- Loop of `_extract_specification_format` (the rest of the match list supplies
the next section start). -/
def specLoop (pdf_text : List Char) :
    List M → List (List Char) → List Vehicle × List (List Char)
  | [], seen => ([], seen)
  | m :: rest, seen =>
      let secEnd := match rest.head? with
        | some nxt => nxt.s
        | none => min pdf_text.length (m.s + 8000)
      match specVehicleAt pdf_text m secEnd seen with
      | some vr =>
          let restRes := specLoop pdf_text rest (vr.2 :: seen)
          (vr.1 :: restRes.1, restRes.2)
      | none => specLoop pdf_text rest seen

/-- Source `_extract_specification_format`. -/
def extract_specification_format (pdf_text : List Char) (seen : List (List Char)) :
    List Vehicle × List (List Char) :=
  specLoop pdf_text (findIter specHeaderPat pdf_text) seen

/-- Source `product_patterns` of `_extract_overview_format`:
`(WORDS)\s*\n\s*([A-Z]{2}\d{4,5})` (IGNORECASE), one pattern per group. -/
def overviewPat (words : List String) : Pat :=
  seq [.grp 1 (alts (words.map (str true))), star scls, lit false '\n', star scls,
    .grp 2 (seq [rep 2 2 (cls true ucAZ), rep 4 5 dcls])]

/-- Source price probe `\n\s*(\d{1,6})\s*\n` of `_extract_overview_format`. -/
def overviewPricePat : Pat :=
  seq [lit false '\n', star scls, .grp 1 (rep 1 6 dcls), star scls, lit false '\n']

/-- Per-pattern loop of `_extract_overview_format`. -/
def overviewLoop (pdf_text : List Char) :
    List M → List (List Char) → List Vehicle × List (List Char)
  | [], seen => ([], seen)
  | m :: rest, seen =>
      let product_type := stripWS (groupD pdf_text m 1)
      let registration := stripWS (groupD pdf_text m 2)
      if registration ∈ seen then overviewLoop pdf_text rest seen
      else
        let sec := pySlice pdf_text m.s (m.e + 200)
        let premium := match search overviewPricePat sec with
          | some pm => groupD sec pm 1
          | none => []
        let v : Vehicle :=
          { registration := registration, make_model_year := [], year := [],
            type_raw := lowerL product_type, sum_insured := [], deductible := [],
            premium := premium, source := "overview".toList }
        let restRes := overviewLoop pdf_text rest (registration :: seen)
        (v :: restRes.1, restRes.2)

/-- Source `_extract_overview_format`. -/
def extract_overview_format (pdf_text : List Char) (seen : List (List Char)) :
    List Vehicle × List (List Char) :=
  let groups := [["Motorvogn", "Personbil", "Varebil", "Lastebil"],
    ["Campingvogn og tilhenger", "Tilhenger"],
    ["Motorsykkel", "Moped", "Sn√∏scooter"],
    ["Traktor", "Arbeidsmaskiner", "Arbeidsmaskine"]]
  groups.foldl (fun acc words =>
    let res := overviewLoop pdf_text (findIter (overviewPat words) pdf_text) acc.2
    (acc.1 ++ res.1, res.2)) ([], seen)

/-- Source header pattern of `_extract_from_headers` (IGNORECASE). -/
def fromHeadersPat : Pat :=
  seq [.grp 1 (alts (["Motorvogn", "Campingvogn og tilhenger", "Tilhenger",
      "Traktor", "Moped", "Motorsykkel", "Sn√∏scooter", "B√•t", "Personbil",
      "Varebil", "Lastebil"].map (str true))),
    star scls, lit false '-', star scls, str true "Vilk",
    alts [str true "√•r", str true "ar", str true "√É¬•r",
      seq [lit false '?', str true "r"]],
    plus scls, .grp 2 (seq [plus (cls true ucAZ), plus dcls])]

/-- Source bare registration probe `\b([A-Z]{2}\d{4,5})\b` (no flags). -/
def headerRegPat : Pat :=
  seq [.wordB, .grp 1 (seq [rep 2 2 (.cls ucAZ), rep 4 5 dcls]), .wordB]

/-- Source loop of `_extract_from_headers`. -/
def fromHeadersLoop (pdf_text : List Char) :
    List M → List (List Char) → List Vehicle × List (List Char)
  | [], seen => ([], seen)
  | m :: rest, seen =>
      let product_type := stripWS (groupD pdf_text m 1)
      let sec := pySlice pdf_text m.e (m.e + 1000)
      let reg_match := match search kjennemerkeAnchorPat sec with
        | some rm => some (groupD sec rm 1)
        | none =>
            match search headerRegPat sec with
            | some rm => some (groupD sec rm 1)
            | none => none
      match reg_match with
      | none => fromHeadersLoop pdf_text rest seen
      | some reg0 =>
          let registration := stripWS reg0
          if registration ∈ seen then fromHeadersLoop pdf_text rest seen
          else
            let v : Vehicle :=
              { registration := registration, make_model_year := [], year := [],
                type_raw := lowerL product_type, sum_insured := [], deductible := [],
                premium := [], source := "header".toList }
            let restRes := fromHeadersLoop pdf_text rest (registration :: seen)
            (v :: restRes.1, restRes.2)

/-- Source `_extract_from_headers`. -/
def extract_from_headers (pdf_text : List Char) (seen : List (List Char)) :
    List Vehicle × List (List Char) :=
  fromHeadersLoop pdf_text (findIter fromHeadersPat pdf_text) seen

/-- Source `_standardize_vehicle` category chain. -/
def standardCategory (vtype : List Char) : List Char :=
  if ["tilhenger", "henger", "campingvogn"].any
      (fun w => containsSub w.toList vtype) then "trailer".toList
  else if ["personbil", "varebil", "lastebil", "motorvogn", "bil"].any
      (fun w => containsSub w.toList vtype) then "car".toList
  else if ["traktor", "arbeid", "redskap"].any
      (fun w => containsSub w.toList vtype) then "tractor".toList
  else if ["moped", "motorsykkel", "sn√∏scooter"].any
      (fun w => containsSub w.toList vtype) then "moped".toList
  else if containsSub "b√•t".toList vtype then "boat".toList
  else "other".toList

/-- Source `_standardize_vehicle`. -/
def standardize_vehicle (v : Vehicle) : Vehicle :=
  let vtype := lowerL v.type_raw
  { registration := v.registration, make_model_year := v.make_model_year,
    year := v.year, vehicle_type := standardCategory vtype, type_raw := vtype,
    coverage := v.coverage, leasing := v.leasing,
    annual_mileage := v.annual_mileage, bonus := v.bonus,
    deductible := v.deductible, sum_insured := v.sum_insured,
    premium := v.premium, source := v.source }

/-- Source `extract_tryg_vehicles`. -/
def extract_tryg_vehicles (pdf_text : List Char) : List Vehicle :=
  let p0 := extract_specification_format pdf_text []
  let p1 := extract_detailed_format pdf_text p0.2
  let p2 := extract_overview_format pdf_text p1.2
  let p3 := extract_from_headers pdf_text p2.2
  (p0.1 ++ p1.1 ++ p2.1 ++ p3.1).map standardize_vehicle

end Tryg

namespace VehicleMapping

open PyStr Rx

/-- Excel cell value: either text or a number produced by `_to_excel_number`. -/
inductive ExcelVal where
  | s (v : List Char)
  | n (v : Nat)
deriving DecidableEq, Repr

/-- Cell style dict (`NUMERIC_CELL_STYLE`, optionally with `font_color`). -/
structure CellStyle where
  number_format : List Char := "0".toList
  align_horizontal : List Char := "right".toList
  font_bold : Bool := false
  font_color : Option (List Char) := none
deriving DecidableEq, Repr

/-- Source `PREMIUM_FONT_COLOR`. -/
def PREMIUM_FONT_COLOR : List Char := "0129F6".toList

/-- Source `NUMERIC_CELL_STYLE`. -/
def NUMERIC_CELL_STYLE : CellStyle := {}

/-- Source `VEHICLE_ROWS`: per-category row bands, in dict order. -/
def VEHICLE_ROWS : List (List Char × Nat × Nat × List Char) :=
  [("car".toList, 3, 22, "Cars".toList),
   ("trailer".toList, 26, 34, "Trailers".toList),
   ("moped".toList, 38, 46, "Mopeds".toList),
   ("tractor".toList, 50, 60, "Tractors".toList),
   ("boat".toList, 64, 72, "Boats".toList),
   ("other".toList, 76, 84, "Øvrig (Other)".toList)]

/-- Source `VEHICLE_COLUMNS`, in dict order. -/
def VEHICLE_COLUMNS : List (List Char × List Char) :=
  [("registration".toList, "B".toList),
   ("make_model_year".toList, "C".toList),
   ("sum_insured".toList, "D".toList),
   ("coverage".toList, "E".toList),
   ("leasing".toList, "F".toList),
   ("annual_mileage".toList, "G".toList),
   ("bonus".toList, "H".toList),
   ("deductible".toList, "I".toList)]

/-- Character class `[0-9\s.,]` of `_to_excel_number`. -/
def numTextChar (c : Char) : Bool := pyDigit c ∨ pySpace c ∨ c = '.' ∨ c = ','

/-- Source `_to_excel_number`, string branch (`None` maps to `""` and numbers
pass through before this code runs; the extractors only produce strings). -/
def to_excel_number (value : List Char) : ExcelVal :=
  let raw := replace1 ' ' " ".toList (stripWS value)
  if raw = [] then .s []
  else if raw.contains '/' ∨ raw.contains '%' then .s value
  else if raw.any (fun c => ¬ numTextChar c) then .s value
  else if (fullmatch (seq [dcls, star (.cls numTextChar)]) raw).isNone then .s value
  else
    let digits := digitsOnly raw
    if digits = [] then .s value
    else .n (natOfDigits digits)

/-- Source `_looks_like_ly_document`. -/
def looks_like_ly_document (pdf_text : List Char) : Bool :=
  let text := lowerL pdf_text
  if ¬ containsSub "ly forsikring".toList text then false
  else
    ["firmabil flåte", "firmabil flate", "tilhenger flåte", "tilhenger flate",
     "registreringsnummer ureg", "kjøretøy som inngår i gruppen",
     "kjoretoy som inngar i gruppen"].any (fun m => containsSub m.toList text)

/-- Dedup key of the orchestrator: registration, or registration plus label for
the `Uregistrert` sentinel. -/
def vkey (v : Vehicle) : List Char :=
  if lowerL v.registration = "uregistrert".toList then
    v.registration ++ "_".toList ++ v.make_model_year
  else v.registration

/-- The `unique` dict loop of `extract_vehicles_from_pdf`: keep the first
vehicle for each dedup key, in encounter order. -/
def dedupVehicles : List Vehicle → List (List Char) → List Vehicle
  | [], _ => []
  | v :: vs, seen =>
      if vkey v ∈ seen then dedupVehicles vs seen
      else v :: dedupVehicles vs (vkey v :: seen)

/-- Category buckets, the dict built by `_categorize_vehicles`. -/
structure Categorized where
  car : List Vehicle := []
  trailer : List Vehicle := []
  moped : List Vehicle := []
  tractor : List Vehicle := []
  boat : List Vehicle := []
  other : List Vehicle := []
deriving DecidableEq, Repr

/-- Source category decision chain of `_categorize_vehicles`. -/
def categoryOf (v : Vehicle) : List Char :=
  let vtype := lowerL v.vehicle_type
  let reg := lowerL v.registration
  if vtype = "other".toList then "other".toList
  else if vtype = "trailer".toList then "trailer".toList
  else if vtype = "tractor".toList then "tractor".toList
  else if vtype = "boat".toList then "boat".toList
  else if vtype = "car".toList then "car".toList
  else if containsSub "tilhenger".toList vtype ∨ containsSub "henger".toList vtype then
    "trailer".toList
  else if containsSub "moped".toList vtype then "moped".toList
  else if containsSub "traktor".toList vtype then "tractor".toList
  else if containsSub "båt".toList vtype then "boat".toList
  else if containsSub "bil".toList vtype ∨ containsSub "varebil".toList vtype ∨
      containsSub "personbil".toList vtype then "car".toList
  else if containsSub "uregistrert".toList reg then "tractor".toList
  else "other".toList

/-- Source `_categorize_vehicles`. -/
def categorize_vehicles (vehicles : List Vehicle) : Categorized :=
  vehicles.foldl (fun acc v =>
    let cat := categoryOf v
    if cat = "trailer".toList then { acc with trailer := acc.trailer ++ [v] }
    else if cat = "moped".toList then { acc with moped := acc.moped ++ [v] }
    else if cat = "tractor".toList then { acc with tractor := acc.tractor ++ [v] }
    else if cat = "boat".toList then { acc with boat := acc.boat ++ [v] }
    else if cat = "car".toList then { acc with car := acc.car ++ [v] }
    else { acc with other := acc.other ++ [v] }) {}

/-- Result of one guarded extractor call: the vehicle list, or the message of
the exception the `try`/`except` block caught. -/
def PyResult := Except (List Char) (List Vehicle)

/-- The `try`/`except` wrapper of the orchestrator: an extractor fault is
logged and treated as zero results. -/
def runGuarded (r : PyResult) : List Vehicle :=
  match r with
  | .ok vs => vs
  | .error _ => []

/-- Source `extract_vehicles_from_pdf` control flow, parameterized by the four
extractor outcomes so that extractor faults are representable (`Except` models
the `try`/`except` blocks; `none` models the `return {}` branches). -/
def orchestrate (ifR gjR trygR lyR : PyResult) (pdf_text : List Char)
    (provider : Option (List Char)) : Option Categorized :=
  if pdf_text = [] then none
  else
    let provider_norm := lowerL (stripWS (provider.getD []))
    let ly_priority0 := provider_norm = "ly".toList ∨ provider_norm = "ly forsikring".toList
    let ly_priority := if ¬ ly_priority0 ∧
        (provider_norm = [] ∨ provider_norm = "auto-detect".toList) then
        looks_like_ly_document pdf_text
      else ly_priority0
    let lyFirst := if ly_priority then runGuarded lyR else []
    let run_broad := ¬ (ly_priority ∧ lyFirst ≠ [])
    let all_vehicles := lyFirst ++ (if run_broad then
        runGuarded ifR ++ runGuarded gjR ++ runGuarded trygR ++ runGuarded lyR
      else [])
    if all_vehicles = [] then none
    else some (categorize_vehicles (dedupVehicles all_vehicles []))

/-- Source `extract_vehicles_from_pdf`, with the real extractors (which are
total functions in this embedding, so every call is an `Except.ok`). -/
def extract_vehicles_from_pdf (pdf_text : List Char) (provider : Option (List Char)) :
    Option Categorized :=
  orchestrate (.ok (IfSkade.extract_if_vehicles pdf_text))
    (.ok (Gjensidige.extract_gjensidige_vehicles pdf_text))
    (.ok (Tryg.extract_tryg_vehicles pdf_text))
    (.ok (Ly.extract_ly_vehicles pdf_text))
    pdf_text provider

/-- A produced cell before stringification: column letter, row, value. -/
structure CellEntry where
  col : List Char
  row : Nat
  val : ExcelVal
deriving DecidableEq, Repr

/-- Spreadsheet cell reference `f"{column}{row}"`. -/
def cellRef (col : List Char) (row : Nat) : List Char := col ++ digitsOfNat row

/-- One step of the `VEHICLE_COLUMNS` loop of `transform_data`: the cell and
style contribution of a single field column. -/
def vehicleCellStep (v : Vehicle) (row : Nat)
    (acc : List CellEntry × List (List Char × CellStyle))
    (fc : List Char × List Char) :
    List CellEntry × List (List Char × CellStyle) :=
  let field := fc.1
    let column := fc.2
    let ref := cellRef column row
    if field = "sum_insured".toList then
      if v.sum_insured ≠ [] then
        let ev := to_excel_number v.sum_insured
        (acc.1 ++ [⟨column, row, ev⟩],
         if ev ≠ .s [] then acc.2 ++ [(ref, NUMERIC_CELL_STYLE)] else acc.2)
      else if v.premium ≠ [] then
        let ev := to_excel_number v.premium
        (acc.1 ++ [⟨column, row, ev⟩],
         acc.2 ++ [(ref, { NUMERIC_CELL_STYLE with font_color := some PREMIUM_FONT_COLOR })])
      else (acc.1 ++ [⟨column, row, .s []⟩], acc.2)
    else if field = "annual_mileage".toList ∨ field = "deductible".toList then
      let fv := if field = "annual_mileage".toList then v.annual_mileage else v.deductible
      let ev := to_excel_number fv
      (acc.1 ++ [⟨column, row, ev⟩],
       if ev ≠ .s [] then acc.2 ++ [(ref, NUMERIC_CELL_STYLE)] else acc.2)
    else
      let fv := if field = "registration".toList then v.registration
        else if field = "make_model_year".toList then v.make_model_year
        else if field = "coverage".toList then v.coverage
        else if field = "leasing".toList then v.leasing
        else v.bonus
      (acc.1 ++ [⟨column, row, .s fv⟩], acc.2)

/-- Cells and styles produced for a single vehicle on a single row, following
the `VEHICLE_COLUMNS` loop of `transform_data`. -/
def vehicleCells (v : Vehicle) (row : Nat) :
    List CellEntry × List (List Char × CellStyle) :=
  VEHICLE_COLUMNS.foldl (vehicleCellStep v row) ([], [])

/-- Row loop for one category: `row = start + idx`, stopping at `row > end`. -/
def catLoop (endRow : Nat) : Nat → List Vehicle →
    List CellEntry × List (List Char × CellStyle)
  | _, [] => ([], [])
  | row, v :: vs =>
      if endRow < row then ([], [])
      else
        let cells := vehicleCells v row
        let rest := catLoop endRow (row + 1) vs
        (cells.1 ++ rest.1, cells.2 ++ rest.2)

/-- Vehicles of a category bucket by category name. -/
def bucketOf (c : Categorized) (cat : List Char) : List Vehicle :=
  if cat = "car".toList then c.car
  else if cat = "trailer".toList then c.trailer
  else if cat = "moped".toList then c.moped
  else if cat = "tractor".toList then c.tractor
  else if cat = "boat".toList then c.boat
  else c.other

/-- All cell entries of `transform_data` for a categorized result, in the
iteration order of the source loops. -/
def transformEntries (c : Categorized) :
    List CellEntry × List (List Char × CellStyle) :=
  VEHICLE_ROWS.foldl (fun acc rowBand =>
    let vehicles := bucketOf c rowBand.1
    let res := catLoop rowBand.2.2.1 rowBand.2.1 vehicles
    (acc.1 ++ res.1, acc.2 ++ res.2)) ([], [])

/-- Input dict of `transform_data` (`pdf_text` and `vehicle_provider` keys). -/
structure TransformInput where
  pdf_text : List Char := []
  vehicle_provider : Option (List Char) := none
deriving Repr

/-- Known provider overrides accepted by `transform_data`. -/
def knownProviders : List (List Char) :=
  ["tryg".toList, "gjensidige".toList, "if".toList, "if skadeforsikring".toList,
   "ly".toList, "ly forsikring".toList]

/-- Provider-selected extractor dispatch of `transform_data`. -/
def selectedExtractor (provider pdf_text : List Char) : List Vehicle :=
  if provider = "if".toList ∨ provider = "if skadeforsikring".toList then
    IfSkade.extract_if_vehicles pdf_text
  else if provider = "gjensidige".toList then
    Gjensidige.extract_gjensidige_vehicles pdf_text
  else if provider = "ly".toList ∨ provider = "ly forsikring".toList then
    Ly.extract_ly_vehicles pdf_text
  else Tryg.extract_tryg_vehicles pdf_text

/-- The categorized vehicles `transform_data` maps to cells: the provider
override runs exactly one extractor, otherwise the full orchestrator runs. -/
def transformCategorized (inp : TransformInput) : Option Categorized :=
  let provider := lowerL (stripWS (inp.vehicle_provider.getD []))
  if provider ∈ knownProviders then
    some (categorize_vehicles (selectedExtractor provider inp.pdf_text))
  else extract_vehicles_from_pdf inp.pdf_text none

/-- Source `transform_data` of the vehicle mapping: the produced cell dict
(as reference/value pairs) and the `_cell_styles` dict it attaches. -/
def transform_data (inp : TransformInput) :
    List (List Char × ExcelVal) × List (List Char × CellStyle) :=
  if inp.pdf_text = [] then ([], [])
  else
    match transformCategorized inp with
    | none => ([], [])
    | some c =>
        let es := transformEntries c
        (es.1.map (fun e => (cellRef e.col e.row, e.val)), es.2)

/-- Provider-selected extractor outcome, for the fault model: `transform_data`
invokes the chosen extractor directly, with no `try`/`except` around it. -/
def selectedResult (provider : List Char) (ifR gjR trygR lyR : PyResult) : PyResult :=
  if provider = "if".toList ∨ provider = "if skadeforsikring".toList then ifR
  else if provider = "gjensidige".toList then gjR
  else if provider = "ly".toList ∨ provider = "ly forsikring".toList then lyR
  else trygR

/-- Cell construction shared by both `transform_data` paths. -/
def buildCells (c : Option Categorized) :
    List (List Char × ExcelVal) × List (List Char × CellStyle) :=
  match c with
  | none => ([], [])
  | some cat =>
      let es := transformEntries cat
      (es.1.map (fun e => (cellRef e.col e.row, e.val)), es.2)

/-- Source `transform_data` control flow, parameterized by the four extractor
outcomes: the provider-override branch calls the selected extractor without a
guard, so its fault propagates; the orchestrated branch never faults. -/
def transform_dataE (ifR gjR trygR lyR : PyResult) (inp : TransformInput) :
    Except (List Char) (List (List Char × ExcelVal) × List (List Char × CellStyle)) :=
  if inp.pdf_text = [] then .ok ([], [])
  else
    let provider := lowerL (stripWS (inp.vehicle_provider.getD []))
    if provider ∈ knownProviders then
      match selectedResult provider ifR gjR trygR lyR with
      | .error e => .error e
      | .ok vs => .ok (buildCells (some (categorize_vehicles vs)))
    else .ok (buildCells (orchestrate ifR gjR trygR lyR inp.pdf_text none))

end VehicleMapping

namespace GenLiab

open PyStr Rx

/-- Character class `[a-z]`. -/
def lcaz (c : Char) : Bool := 'a' ≤ c ∧ c ≤ 'z'

/-- Character class `[0-9\s.,]`. -/
def numSep (c : Char) : Bool := pyDigit c ∨ pySpace c ∨ c = '.' ∨ c = ','

/-- Source amount pattern `[0-9][0-9\s.,]{3,}`. -/
def amountPat : Pat := seq [dcls, atLeast 3 (.cls numSep)]

/-- Source pattern `[0-9]+\s*g` (IGNORECASE). -/
def gUnitPat : Pat := seq [plus dcls, star scls, lit true 'g']

/-- Source `_normalize_text` replacement dict, in insertion order. -/
def glReplacements : List (List Char × List Char) :=
  [("ø".toList, "o".toList), ("å".toList, "a".toList), ("æ".toList, "ae".toList),
   ("Ø".toList, "o".toList), ("Å".toList, "a".toList), ("Æ".toList, "ae".toList),
   ("Ã¸".toList, "o".toList), ("Ã¥".toList, "a".toList), ("Ã¦".toList, "ae".toList)]

/-- Source `_normalize_text` of the general-liability mapping. -/
def normalize_text (text : List Char) : List Char :=
  if text = [] then []
  else
    stripWS (collapseWS (lowerL (replaceSeq glReplacements
      (replace1 ' ' " ".toList text))))

/-- Source `_to_int_or_blank` (`""` is the empty-string value). -/
def to_int_or_blank (value : List Char) : VehicleMapping.ExcelVal :=
  let digits := digitsOnly value
  if digits = [] then .s [] else .n (natOfDigits digits)

/-- Source `_normalize_sum_value`. -/
def normalize_sum_value (value : List Char) : VehicleMapping.ExcelVal :=
  let text := stripWS value
  if text = [] then .s []
  else if (search (seq [.wordB, lit true 'g', .wordB]) text).isSome then
    let digits := digitsOnly text
    if digits ≠ [] then .s (digits ++ " G".toList) else .s text
  else
    let digits := digitsOnly text
    if digits = [] then .s [] else .n (natOfDigits digits)

/-- Source `_first_match`: first pattern of the list that matches. -/
def first_match (pats : List Pat) (text : List Char) : Option M :=
  pats.foldl (fun acc p => match acc with
    | some m => some m
    | none => search p text) none

/-- Source `_clean_label`. -/
def clean_label (label : List Char) : List Char :=
  collapseWS (stripChars " .,:;|-".toList label)

/-- Source stop markers of `_clean_virksomhet` (IGNORECASE; `krigsomr` has no
trailing word boundary in the source). -/
def stopMarkers : List Pat :=
  [seq [.wordB, str true "brannalarm", .wordB],
   seq [.wordB, str true "krigsomr"],
   seq [.wordB, str true "tyverisikring", .wordB],
   seq [.wordB, str true "forsikrede", .wordB],
   seq [.wordB, str true "dekning", .wordB],
   seq [.wordB, str true "erstatningsgrunnlag", .wordB],
   seq [.wordB, str true "forsikringssum", .wordB],
   seq [.wordB, str true "egenandel", .wordB]]

/-- Source `_clean_virksomhet`. -/
def clean_virksomhet (label : List Char) : List Char :=
  let value := clean_label label
  if value = [] then []
  else
    let trimmed := stopMarkers.foldl
      (fun acc marker => stripWS (splitFirstBefore marker acc)) value
    stripChars " .,:;|-".toList trimmed

/-- Entry dict of the general-liability mapping (`DEFAULT_ENTRY` shape). -/
structure GLEntry where
  virksomhet : List Char := []
  annual_turnover_2024 : List Char := []
  bedriftsansvar : List Char := []
  egenandel_ansvar : List Char := []
  produktansvar : List Char := []
  rettshjelp_sum : List Char := []
  tilbud_pris : List Char := []
  tilbud_kommentar : List Char := []
deriving DecidableEq, Repr

/-- Python `any(entry.values())`. -/
def anyValue (e : GLEntry) : Bool :=
  e.virksomhet ≠ [] ∨ e.annual_turnover_2024 ≠ [] ∨ e.bedriftsansvar ≠ [] ∨
  e.egenandel_ansvar ≠ [] ∨ e.produktansvar ≠ [] ∨ e.rettshjelp_sum ≠ [] ∨
  e.tilbud_pris ≠ [] ∨ e.tilbud_kommentar ≠ []

/-- Class `[^\r\n]`. -/
def notCRLF (c : Char) : Bool := c ≠ '\r' ∧ c ≠ '\n'

/-- Pattern `\s*[:\-]?\s*`. -/
def sepOpt : Pat := seq [star scls, opt (.cls (fun c => c = ':' ∨ c = '-')), star scls]

/-- Source `_extract_if_entry`. -/
def extract_if_entry (pdf_text normalized : List Char) : GLEntry :=
  let virksomhet0 := match first_match
      [seq [str true "virksomhet", sepOpt, .grp 1 (plus (.cls notCRLF))],
       seq [str true "omsetning", plus scls, str true "forsikret", plus scls,
         str true "virksomhet", sepOpt, str true "virksomhet", plus scls,
         .grp 1 (plus (.cls notCRLF))]] pdf_text with
    | some m => clean_virksomhet (groupD pdf_text m 1)
    | none => []
  let virksomhet := if virksomhet0 = [] then
      match first_match
        [seq [str true "virksomhet", plus scls, str true "omsetning", plus scls,
          .grp 1 (plusL (dot true)), plus scls, dcls, atLeast 3 (.cls numSep),
          star scls, str true "kr"]] normalized with
      | some m => clean_virksomhet (groupD normalized m 1)
      | none => []
    else virksomhet0
  let omsetning := match first_match
      [seq [str true "arsomsetning", rep 0 40 (.cls (fun c => ¬ pyDigit c)),
        .grp 1 amountPat],
       seq [str true "omsetning", plus scls, str true "forsikret", plus scls,
        str true "virksomhet", rep 0 60 (.cls (fun c => ¬ pyDigit c)),
        .grp 1 amountPat]] normalized with
    | some m => groupD normalized m 1
    | none => []
  let ansvar_section := match findSub "ansvarsforsikring".toList normalized with
    | some i => pySlice normalized i (i + 7000)
    | none => normalized
  let bedrift := match first_match
      [seq [str true "bedriftsansvar", repL 0 220 (dot true), str true "forsikringssum",
        star scls, opt (lit false ':'), star scls, .grp 1 (.alt gUnitPat amountPat)],
       seq [str true "bedriftsansvar", plus scls, .grp 1 gUnitPat]] ansvar_section with
    | some m => groupD ansvar_section m 1
    | none => []
  let produkt := match first_match
      [seq [str true "produktansvar", repL 0 220 (dot true), str true "forsikringssum",
        star scls, opt (lit false ':'), star scls, .grp 1 (.alt gUnitPat amountPat)],
       seq [str true "produktansvar", plus scls, .grp 1 gUnitPat]] ansvar_section with
    | some m => groupD ansvar_section m 1
    | none => []
  let egenandel := match first_match
      [seq [str true "egenandel", plus scls, str true "per", plus scls,
        str true "skade", sepOpt, .grp 1 amountPat]] ansvar_section with
    | some m => groupD ansvar_section m 1
    | none => []
  let rettshjelp := match first_match
      [seq [str true "rettshjelp", rep 0 30 (.cls (fun c => ¬ pyDigit c)),
        .grp 1 amountPat]] normalized with
    | some m => groupD normalized m 1
    | none => []
  let price := match first_match
      [seq [str true "ansvarsforsikring", plus scls, str true "pris", plus scls,
        str true "per", plus scls, str true "ar", plus scls, str true "nok",
        star scls, .grp 1 amountPat],
       seq [str true "ansvarsforsikring", plus scls, .grp 1 amountPat]] normalized with
    | some m => groupD normalized m 1
    | none => []
  { virksomhet := virksomhet, annual_turnover_2024 := omsetning,
    bedriftsansvar := bedrift, egenandel_ansvar := egenandel,
    produktansvar := produkt, rettshjelp_sum := rettshjelp,
    tilbud_pris := price, tilbud_kommentar := [] }

/-- Source `_extract_gjensidige_entry`. -/
def extract_gjensidige_entry (normalized : List Char) : GLEntry :=
  let head := match findSub "forsikringsbevis".toList normalized with
    | some i => if 0 < i then pySlice normalized 0 i else pySlice normalized 0 9000
    | none => pySlice normalized 0 9000
  let price := match first_match
      [seq [str true "ansvarsforsikring", plus scls, .grp 1 amountPat]] head with
    | some m => groupD head m 1
    | none => []
  let omsetning := match first_match
      [seq [str true "sist", plus scls, str true "kjente", plus scls,
        str true "omsetning", plus scls, .grp 1 amountPat]] head with
    | some m => groupD head m 1
    | none => []
  { tilbud_pris := price, annual_turnover_2024 := omsetning }

/-- Source `_extract_tryg_entry`. -/
def extract_tryg_entry (pdf_text normalized : List Char) : GLEntry :=
  let sec := match findSub "alminnelig ansvarsforsikring".toList normalized with
    | some i => pySlice pdf_text i (i + 8000)
    | none => pySlice pdf_text 0 12000
  let virksomhet := match first_match
      [seq [str true "virksomhet", sepOpt, .grp 1 (plus (.cls notCRLF))]] sec with
    | some m =>
        let raw_value := clean_label (groupD sec m 1)
        if lowerL raw_value ∈ ["virksomhet".toList, "dekning".toList, "vilkar".toList] then []
        else raw_value
    | none => []
  let omsetning := match first_match
      [seq [str true "driftsinntekter", star scls, str true "kr", star scls,
        .grp 1 amountPat]] normalized with
    | some m => groupD normalized m 1
    | none => []
  let bedrift_row := first_match
    [seq [str true "ansvar", plus scls, str true "for", plus scls,
      str true "virksomheten", star scls, opt (lit false '*'), plus scls,
      .grp 1 amountPat, plus scls, .grp 2 amountPat, plus scls, .grp 3 amountPat]] sec
  let bedriftsansvar := match bedrift_row with
    | some m => groupD sec m 1
    | none => []
  let egenandel := match bedrift_row with
    | some m => groupD sec m 2
    | none => []
  let tilbud0 := match bedrift_row with
    | some m => groupD sec m 3
    | none => []
  let rettshjelp := match first_match
      [seq [str true "rettshjelp",
        opt (seq [plus scls, rep 4 4 (.cls (fun c => lcaz c ∨ pyDigit c)),
          star (.cls (fun c => lcaz c ∨ pyDigit c))]),
        plus scls, .grp 1 amountPat]] sec with
    | some m => groupD sec m 1
    | none => []
  let tilbud := if tilbud0 = [] then
      let prices := findAll1 (seq [.wordB, str true "pris", plus scls,
        .grp 1 amountPat, .wordB]) sec
      match prices.getLast? with
      | some p => p
      | none => []
    else tilbud0
  { virksomhet := virksomhet, annual_turnover_2024 := omsetning,
    bedriftsansvar := bedriftsansvar, egenandel_ansvar := egenandel,
    rettshjelp_sum := rettshjelp, tilbud_pris := tilbud }

/-- Source `_extract_ly_entry`. -/
def extract_ly_entry (normalized : List Char) : GLEntry :=
  let virksomhet := match first_match
      [seq [str true "naeringskode", plus scls, .grp 1 (plusL (dot true)),
        plus scls, str true "sist", plus scls, str true "kjente", plus scls,
        str true "omsetning"]] normalized with
    | some m => clean_label (groupD normalized m 1)
    | none => []
  let omsetning := match first_match
      [seq [str true "sist", plus scls, str true "kjente", plus scls,
        str true "omsetning", plus scls, .grp 1 amountPat]] normalized with
    | some m => groupD normalized m 1
    | none => []
  let bedrift_row := first_match
    [seq [str true "bedriftsansvar", plus scls, .grp 1 (.alt gUnitPat amountPat),
      plus scls, .grp 2 amountPat, plus scls, .grp 3 amountPat]] normalized
  let produkt_row := first_match
    [seq [str true "produktansvar", plus scls, .grp 1 (.alt gUnitPat amountPat),
      plus scls, .grp 2 amountPat, plus scls, .grp 3 amountPat]] normalized
  let bedriftsansvar := match bedrift_row with
    | some m => groupD normalized m 1
    | none => []
  let egenandel := match bedrift_row with
    | some m => groupD normalized m 2
    | none => []
  let bedrift_price := match bedrift_row with
    | some m => groupD normalized m 3
    | none => []
  let produktansvar := match produkt_row with
    | some m => groupD normalized m 1
    | none => []
  let produkt_price := match produkt_row with
    | some m => groupD normalized m 3
    | none => []
  let rettshjelp := match first_match
      [seq [str true "kundevalgte", plus scls, str true "tilleggsdekninger",
        plus scls, str true "som", plus scls, str true "er", plus scls,
        str true "valgt", repL 0 400 (dot true), str true "rettshjelp",
        plus scls, .grp 1 amountPat]] normalized with
    | some m => groupD normalized m 1
    | none => []
  let price := match first_match
      [seq [str true "ansvarsforsikring", plus scls, .grp 1 amountPat]] normalized with
    | some m => groupD normalized m 1
    | none =>
        if bedrift_price ≠ [] ∧ produkt_price ≠ [] then
          digitsOfNat (natOfDigits (digitsOnly bedrift_price) +
            natOfDigits (digitsOnly produkt_price))
        else if bedrift_price ≠ [] then bedrift_price
        else []
  { virksomhet := virksomhet, annual_turnover_2024 := omsetning,
    bedriftsansvar := bedriftsansvar, egenandel_ansvar := egenandel,
    produktansvar := produktansvar, rettshjelp_sum := rettshjelp,
    tilbud_pris := price }

/-- Source `_detect_provider`. -/
def detect_provider (pdf_text : List Char) : List Char :=
  let normalized := normalize_text pdf_text
  if containsSub "ly forsikring".toList normalized then "ly".toList
  else if containsSub "gjensidige".toList normalized then "gjensidige".toList
  else if containsSub "tryg".toList normalized then "tryg".toList
  else if containsSub "if skadeforsikring".toList normalized ∨
      (search (seq [.wordB, str false "if", .wordB]) normalized).isSome then "if".toList
  else []

/-- Source `_extract_entry_by_provider`. -/
def extract_entry_by_provider (pdf_text : List Char) (provider : Option (List Char)) :
    GLEntry :=
  let normalized := normalize_text pdf_text
  let selected0 := lowerL (stripWS (provider.getD []))
  let selected := if selected0 = [] ∨ selected0 = "auto-detect".toList then
      detect_provider pdf_text
    else selected0
  if selected = "if".toList ∨ selected = "if skadeforsikring".toList then
    extract_if_entry pdf_text normalized
  else if selected = "gjensidige".toList then
    extract_gjensidige_entry normalized
  else if selected = "tryg".toList then
    extract_tryg_entry pdf_text normalized
  else if selected = "ly".toList ∨ selected = "ly forsikring".toList then
    extract_ly_entry normalized
  else {}

/-- Source `FIELD_COLUMNS` with `ROW_START = 3`; field to cell value mapping of
`transform_data`. -/
def entryCells (e : GLEntry) : List (List Char × VehicleMapping.ExcelVal) :=
  [("A3".toList, .s (stripWS e.virksomhet)),
   ("B3".toList, to_int_or_blank e.annual_turnover_2024),
   ("C3".toList, normalize_sum_value e.bedriftsansvar),
   ("D3".toList, to_int_or_blank e.egenandel_ansvar),
   ("E3".toList, normalize_sum_value e.produktansvar),
   ("F3".toList, normalize_sum_value e.rettshjelp_sum),
   ("G3".toList, to_int_or_blank e.tilbud_pris),
   ("H3".toList, .s (stripWS e.tilbud_kommentar))]

/-- Source `transform_data` of the general-liability mapping. -/
def transform_data (inp : VehicleMapping.TransformInput) :
    List (List Char × VehicleMapping.ExcelVal) :=
  if inp.pdf_text = [] then []
  else
    let provider := lowerL (stripWS (inp.vehicle_provider.getD []))
    let entry := extract_entry_by_provider inp.pdf_text (some provider)
    if ¬ anyValue entry then []
    else entryCells entry

end GenLiab

namespace PyStr

/-- Occurrence of the two-character pattern `[x, y]` somewhere in `s`. -/
def occurs2 (x y : Char) : List Char → Bool
  | a :: b :: t => (a = x ∧ b = y) ∨ occurs2 x y (b :: t)
  | _ => false

/-- Every whitespace character of `s` is a plain space. -/
def wsPlain (s : List Char) : Bool := s.all (fun c => ¬ pySpace c ∨ c = ' ')

/-- No two adjacent whitespace characters in `s`. -/
def noAdjWS : List Char → Bool
  | a :: b :: t => ¬ (pySpace a ∧ pySpace b) ∧ noAdjWS (b :: t)
  | _ => true

/-- The first character of `s`, if any, is not whitespace. -/
def headNotWS (s : List Char) : Bool :=
  match s.head? with
  | some c => ¬ pySpace c
  | none => true

/-- The last character of `s`, if any, is not whitespace. -/
def lastNotWS (s : List Char) : Bool := headNotWS s.reverse

/-- Every character of `s` is a fixed point of `pyLower`. -/
def lowerFixed (s : List Char) : Bool := s.all (fun c => pyLower c = c)

end PyStr

namespace PyStr

/-- Unfolding lemma for `occurs2` on two or more characters. -/
theorem occurs2_cons_cons (x y a b : Char) (t : List Char) :
    occurs2 x y (a :: b :: t) = true ↔
      ((a = x ∧ b = y) ∨ occurs2 x y (b :: t) = true) := by
  simp [occurs2]

/-- A single character holds no two-character pattern. -/
theorem occurs2_single (x y a : Char) : occurs2 x y [a] = false := rfl

/-- The empty string holds no two-character pattern. -/
theorem occurs2_nil (x y : Char) : occurs2 x y [] = false := rfl

/-- Characters of `replace1 x r s` come from `s` or from the replacement. -/
theorem mem_replace1 (x c : Char) (r : List Char) :
    ∀ s : List Char, c ∈ replace1 x r s → c ∈ s ∨ c ∈ r := by
  intro s
  induction s with
  | nil => simp [replace1]
  | cons d t ih =>
      by_cases hd : d = x
      · simp only [replace1, if_pos hd, List.mem_append, List.mem_cons]
        rintro (h | h)
        · tauto
        · have := ih h; tauto
      · simp only [replace1, if_neg hd, List.mem_cons]
        rintro (h | h)
        · tauto
        · have := ih h; tauto

/-- Characters of `replace2 x y r s` come from `s` or from the replacement. -/
theorem mem_replace2 (x y c : Char) (r : List Char) :
    ∀ s : List Char, c ∈ replace2 x y r s → c ∈ s ∨ c ∈ r := by
  intro s
  induction s using replace2.induct x y r with
  | case1 => simp [replace2]
  | case2 d => intro h; exact Or.inl h
  | case3 c1 c2 t hxy ih =>
      simp only [replace2, if_pos hxy, List.mem_append, List.mem_cons]
      rintro (h | h)
      · tauto
      · have := ih h; tauto
  | case4 c1 c2 t hxy ih =>
      simp only [replace2, if_neg hxy, List.mem_cons]
      rintro (h | h)
      · tauto
      · have := ih h
        simp only [List.mem_cons] at this
        tauto

/-- A string without the one-character pattern is unchanged by `replace1`. -/
theorem replace1_id (x : Char) (r : List Char) :
    ∀ s : List Char, x ∉ s → replace1 x r s = s := by
  intro s
  induction s with
  | nil => simp [replace1]
  | cons d t ih =>
      intro h
      have hd : d ≠ x := fun hdx => h (by simp [hdx])
      have ht : x ∉ t := fun hxt => h (List.mem_cons_of_mem _ hxt)
      simp [replace1, hd, ih ht]

/-- A string without an occurrence of `[x, y]` is unchanged by `replace2`. -/
theorem replace2_id (x y : Char) (r : List Char) :
    ∀ s : List Char, occurs2 x y s = false → replace2 x y r s = s := by
  intro s
  induction s using replace2.induct x y r with
  | case1 => simp [replace2]
  | case2 d => simp [replace2]
  | case3 c1 c2 t hxy ih =>
      intro h
      exfalso
      have : occurs2 x y (c1 :: c2 :: t) = true :=
        (occurs2_cons_cons x y c1 c2 t).mpr (Or.inl hxy)
      simp [this] at h
  | case4 c1 c2 t hxy ih =>
      intro h
      have h2 : occurs2 x y (c2 :: t) = false := by
        by_contra hne
        have : occurs2 x y (c2 :: t) = true := by
          revert hne; cases occurs2 x y (c2 :: t) <;> simp
        have := (occurs2_cons_cons x y c1 c2 t).mpr (Or.inr this)
        simp [this] at h
      simp [replace2, if_neg hxy, ih h2]

/-- Occurrence of a pattern implies membership of its first character. -/
theorem occurs2_mem_left (x y : Char) :
    ∀ s : List Char, occurs2 x y s = true → x ∈ s := by
  intro s
  induction s with
  | nil => simp [occurs2]
  | cons a t ih =>
      cases t with
      | nil => simp [occurs2]
      | cons b u =>
          intro h
          rcases (occurs2_cons_cons x y a b u).mp h with h2 | h2
          · simp [h2.1]
          · exact List.mem_cons_of_mem _ (ih h2)

end PyStr

namespace PyStr

/-- Head-form unfolding of `occurs2`. -/
theorem occurs2_cons (x y a : Char) (v : List Char) :
    occurs2 x y (a :: v) = true ↔
      ((a = x ∧ v.head? = some y) ∨ occurs2 x y v = true) := by
  cases v with
  | nil => simp [occurs2]
  | cons b u => simp [occurs2_cons_cons]

/-- The tail of a pattern-free string is pattern-free. -/
theorem occurs2_tail (x y a : Char) (v : List Char)
    (h : occurs2 x y (a :: v) = false) : occurs2 x y v = false := by
  by_contra hne
  have hv : occurs2 x y v = true := by revert hne; cases occurs2 x y v <;> simp
  have := (occurs2_cons x y a v).mpr (Or.inr hv)
  simp [this] at h

/-- Membership from `getLast?`. -/
theorem mem_of_getLast2 (a : Char) :
    ∀ l : List Char, l.getLast? = some a → a ∈ l := by
  intro l
  induction l with
  | nil => simp
  | cons b t ih =>
      cases t with
      | nil => simp_all
      | cons c u =>
          intro h
          rw [List.getLast?_cons_cons] at h
          exact List.mem_cons_of_mem _ (ih h)

/-- Occurrence in a concatenation: inside either part, or straddling the seam. -/
theorem occurs2_append (x y : Char) :
    ∀ u v : List Char,
      (occurs2 x y (u ++ v) = true ↔
        occurs2 x y u = true ∨ occurs2 x y v = true ∨
          (u.getLast? = some x ∧ v.head? = some y)) := by
  intro u
  induction u with
  | nil => simp [occurs2]
  | cons a w ih =>
      intro v
      cases w with
      | nil =>
          simp only [List.singleton_append, occurs2_cons, occurs2_single]
          constructor
          · rintro (h | h)
            · exact Or.inr (Or.inr (by simp [h.1, h.2]))
            · exact Or.inr (Or.inl h)
          · rintro (h | h | h)
            · simp at h
            · exact Or.inr h
            · simp only [List.getLast?_singleton, Option.some.injEq] at h
              exact Or.inl ⟨h.1, h.2⟩
      | cons b w2 =>
          simp only [List.cons_append, occurs2_cons_cons, List.getLast?_cons_cons]
          rw [← List.cons_append, ih v]
          tauto

/-- Pattern-freeness of a string whose characters avoid the pattern head. -/
theorem occurs2_false_of_not_mem (x y : Char) (s : List Char) (h : x ∉ s) :
    occurs2 x y s = false := by
  by_contra hne
  have : occurs2 x y s = true := by revert hne; cases occurs2 x y s <;> simp
  exact h (occurs2_mem_left x y s this)

end PyStr

namespace PyStr

/-- The first character of `replace1 x r s` is from `r` or is the first of `s`
(for a non-empty replacement). -/
theorem replace1_head_cases (x : Char) (r : List Char) (hr : r ≠ []) :
    ∀ s c, (replace1 x r s).head? = some c → c ∈ r ∨ s.head? = some c := by
  intro s
  cases s with
  | nil => simp [replace1]
  | cons d t =>
      intro c
      by_cases hd : d = x
      · simp only [replace1, if_pos hd]
        cases r with
        | nil => exact absurd rfl hr
        | cons r0 rr => intro h; simp at h; simp [h]
      · simp only [replace1, if_neg hd, List.head?_cons]
        intro h
        exact Or.inr h

/-- The first character of `replace2 x y r s` is from `r` or is the first of `s`
(for a non-empty replacement). -/
theorem replace2_head_cases (x y : Char) (r : List Char) (hr : r ≠ []) :
    ∀ s c, (replace2 x y r s).head? = some c → c ∈ r ∨ s.head? = some c := by
  intro s
  cases s with
  | nil => simp [replace2]
  | cons d t =>
      cases t with
      | nil => intro c; simp only [replace2, List.head?_cons]; tauto
      | cons c2 u =>
          intro c
          by_cases hxy : d = x ∧ c2 = y
          · simp only [replace2, if_pos hxy]
            cases r with
            | nil => exact absurd rfl hr
            | cons r0 rr => intro h; simp at h; simp [h]
          · simp only [replace2, if_neg hxy, List.head?_cons]
            intro h
            exact Or.inr h

/-- Replacing a one-character pattern by replacement text that avoids a given
pattern's characters cannot introduce that two-character pattern. -/
theorem replace1_pres_occurs2 (x a b : Char) (r : List Char) (hr : r ≠ [])
    (hra : ∀ c ∈ r, c ≠ a ∧ c ≠ b) :
    ∀ s, occurs2 a b s = false → occurs2 a b (replace1 x r s) = false := by
  intro s
  induction s with
  | nil => simp [replace1]
  | cons d t ih =>
      intro h
      have ht := occurs2_tail a b d t h
      by_cases hd : d = x
      · simp only [replace1, if_pos hd]
        by_contra hne
        have htrue : occurs2 a b (r ++ replace1 x r t) = true := by
          revert hne; cases occurs2 a b (r ++ replace1 x r t) <;> simp
        rcases (occurs2_append a b r (replace1 x r t)).mp htrue with h2 | h2 | h2
        · exact absurd (occurs2_mem_left a b r h2) (fun hm => (hra _ hm).1 rfl)
        · simp [ih ht] at h2
        · exact (hra _ (mem_of_getLast2 _ r h2.1)).1 rfl
      · simp only [replace1, if_neg hd]
        by_contra hne
        have htrue : occurs2 a b (d :: replace1 x r t) = true := by
          revert hne; cases occurs2 a b (d :: replace1 x r t) <;> simp
        rcases (occurs2_cons a b d (replace1 x r t)).mp htrue with h2 | h2
        · rcases replace1_head_cases x r hr t b h2.2 with h3 | h3
          · exact (hra _ h3).2 rfl
          · have : occurs2 a b (d :: t) = true :=
              (occurs2_cons a b d t).mpr (Or.inl ⟨h2.1, h3⟩)
            simp [this] at h
        · simp [ih ht] at h2

/-- Replacing a two-character pattern by replacement text that avoids a given
pattern's characters cannot introduce that pattern. -/
theorem replace2_pres_occurs2 (x y a b : Char) (r : List Char) (hr : r ≠ [])
    (hra : ∀ c ∈ r, c ≠ a ∧ c ≠ b) :
    ∀ s, occurs2 a b s = false → occurs2 a b (replace2 x y r s) = false := by
  intro s
  induction s using replace2.induct x y r with
  | case1 => simp [replace2]
  | case2 d => simp [replace2, occurs2_single]
  | case3 c1 c2 t hxy ih =>
      intro h
      have ht : occurs2 a b t = false :=
        occurs2_tail a b c2 t (occurs2_tail a b c1 (c2 :: t) h)
      simp only [replace2, if_pos hxy]
      by_contra hne
      have htrue : occurs2 a b (r ++ replace2 x y r t) = true := by
        revert hne; cases occurs2 a b (r ++ replace2 x y r t) <;> simp
      rcases (occurs2_append a b r (replace2 x y r t)).mp htrue with h2 | h2 | h2
      · exact absurd (occurs2_mem_left a b r h2) (fun hm => (hra _ hm).1 rfl)
      · simp [ih ht] at h2
      · exact (hra _ (mem_of_getLast2 _ r h2.1)).1 rfl
  | case4 c1 c2 t hxy ih =>
      intro h
      have ht := occurs2_tail a b c1 (c2 :: t) h
      simp only [replace2, if_neg hxy]
      by_contra hne
      have htrue : occurs2 a b (c1 :: replace2 x y r (c2 :: t)) = true := by
        revert hne; cases occurs2 a b (c1 :: replace2 x y r (c2 :: t)) <;> simp
      rcases (occurs2_cons a b c1 (replace2 x y r (c2 :: t))).mp htrue with h2 | h2
      · rcases replace2_head_cases x y r hr (c2 :: t) b h2.2 with h3 | h3
        · exact (hra _ h3).2 rfl
        · simp only [List.head?_cons, Option.some.injEq] at h3
          have : occurs2 a b (c1 :: c2 :: t) = true :=
            (occurs2_cons_cons a b c1 c2 t).mpr (Or.inl ⟨h2.1, h3⟩)
          simp [this] at h
      · simp [ih ht] at h2

/-- Replacing its own pattern leaves no occurrence behind, provided the
replacement avoids the pattern's characters and the pattern is not `xx`. -/
theorem replace2_no_self (x y : Char) (r : List Char)
    (hr : r ≠ []) (hra : ∀ c ∈ r, c ≠ x ∧ c ≠ y) :
    ∀ s, occurs2 x y (replace2 x y r s) = false := by
  intro s
  induction s using replace2.induct x y r with
  | case1 => simp [replace2, occurs2]
  | case2 d => simp [replace2, occurs2_single]
  | case3 c1 c2 t hxy ih =>
      simp only [replace2, if_pos hxy]
      by_contra hne
      have htrue : occurs2 x y (r ++ replace2 x y r t) = true := by
        revert hne; cases occurs2 x y (r ++ replace2 x y r t) <;> simp
      rcases (occurs2_append x y r (replace2 x y r t)).mp htrue with h2 | h2 | h2
      · exact absurd (occurs2_mem_left x y r h2) (fun hm => (hra _ hm).1 rfl)
      · simp [ih] at h2
      · exact (hra _ (mem_of_getLast2 _ r h2.1)).1 rfl
  | case4 c1 c2 t hxy ih =>
      simp only [replace2, if_neg hxy]
      by_contra hne
      have htrue : occurs2 x y (c1 :: replace2 x y r (c2 :: t)) = true := by
        revert hne; cases occurs2 x y (c1 :: replace2 x y r (c2 :: t)) <;> simp
      rcases (occurs2_cons x y c1 (replace2 x y r (c2 :: t))).mp htrue with h2 | h2
      · rcases replace2_head_cases x y r hr (c2 :: t) y h2.2 with h3 | h3
        · exact (hra _ h3).2 rfl
        · simp only [List.head?_cons, Option.some.injEq] at h3
          exact hxy ⟨h2.1, h3⟩
      · simp [ih] at h2

/-- Replacing a one-character pattern removes every occurrence, provided the
replacement avoids the pattern character. -/
theorem replace1_no_self (x : Char) (r : List Char) (hra : x ∉ r) :
    ∀ s, x ∉ replace1 x r s := by
  intro s
  induction s with
  | nil => simp [replace1]
  | cons d t ih =>
      by_cases hd : d = x
      · simp only [replace1, if_pos hd, List.mem_append]
        rintro (h | h)
        · exact hra h
        · exact ih h
      · simp only [replace1, if_neg hd, List.mem_cons]
        rintro (h | h)
        · exact hd h.symm
        · exact ih h

end PyStr

namespace PyStr

/-- Characters with equal scalar values are equal. -/
theorem charToNat_inj {a b : Char} (h : a.toNat = b.toNat) : a = b :=
  Char.ext (UInt32.toNat.inj h)

/-- Scalar value of `Char.ofNat` below the surrogate range. -/
theorem toNat_ofNat_valid (n : Nat) (h : n < 55296) : (Char.ofNat n).toNat = n := by
  have hv : n.isValidChar := Or.inl h
  have hlt : n < 4294967296 := by omega
  simp [Char.ofNat, hv, Char.ofNatAux, Char.toNat, UInt32.toNat, BitVec.toNat_ofNatLt]

/-- The two case-shift ranges of `pyLower`. -/
def lowerShiftRange (n : Nat) : Prop :=
  (65 ≤ n ∧ n ≤ 90) ∨ (192 ≤ n ∧ n ≤ 222 ∧ n ≠ 215)

instance (n : Nat) : Decidable (lowerShiftRange n) := by
  unfold lowerShiftRange; infer_instance

/-- `pyLower` fixes characters outside the shift ranges. -/
theorem pyLower_eq_self (d : Char) (h : ¬ lowerShiftRange d.toNat) : pyLower d = d := by
  unfold pyLower
  unfold lowerShiftRange at h
  push_neg at h
  split_ifs with h1 h2
  · exact absurd h1 (by omega)
  · omega
  · rfl

/-- `pyLower` shifts characters inside the shift ranges by 32. -/
theorem pyLower_shift (d : Char) (h : lowerShiftRange d.toNat) :
    (pyLower d).toNat = d.toNat + 32 := by
  unfold pyLower
  rcases h with h | h
  · rw [if_pos (by omega)]
    exact toNat_ofNat_valid _ (by omega)
  · by_cases h1 : 65 ≤ d.toNat ∧ d.toNat ≤ 90
    · omega
    · rw [if_neg h1, if_pos (by omega)]
      exact toNat_ofNat_valid _ (by omega)

/-- Preimage characterization of `pyLower`. -/
theorem pyLower_preimage (d c : Char) (h : pyLower d = c) :
    (d = c ∧ ¬ lowerShiftRange d.toNat) ∨
      (d.toNat + 32 = c.toNat ∧ lowerShiftRange d.toNat) := by
  by_cases hr : lowerShiftRange d.toNat
  · right
    refine ⟨?_, hr⟩
    rw [← h]
    exact (pyLower_shift d hr).symm
  · left
    exact ⟨by rw [← h, pyLower_eq_self d hr], hr⟩

/-- `pyLower` is idempotent on characters. -/
theorem pyLower_idem (d : Char) : pyLower (pyLower d) = pyLower d := by
  by_cases hr : lowerShiftRange d.toNat
  · have hs := pyLower_shift d hr
    apply pyLower_eq_self
    rw [hs]
    unfold lowerShiftRange at hr ⊢
    omega
  · rw [pyLower_eq_self d hr, pyLower_eq_self d hr]

/-- Membership in a lowered string comes from a preimage character. -/
theorem mem_lowerL (c : Char) (s : List Char) (h : c ∈ lowerL s) :
    ∃ d ∈ s, pyLower d = c := by
  unfold lowerL at h
  exact List.mem_map.mp h

/-- Every character of a lowered string is a `pyLower` fixed point. -/
theorem lowerFixed_lowerL (s : List Char) : lowerFixed (lowerL s) = true := by
  unfold lowerFixed
  rw [List.all_eq_true]
  intro c hc
  rcases mem_lowerL c s hc with ⟨d, _, hd⟩
  rw [← hd]
  exact decide_eq_true (pyLower_idem d)

/-- A string of `pyLower` fixed points is unchanged by lowering. -/
theorem lowerL_of_lowerFixed (s : List Char) (h : lowerFixed s = true) :
    lowerL s = s := by
  unfold lowerFixed at h
  rw [List.all_eq_true] at h
  unfold lowerL
  induction s with
  | nil => rfl
  | cons c t ih =>
      simp only [List.map_cons]
      have hc := of_decide_eq_true (h c (by simp))
      rw [hc, ih (fun x hx => h x (List.mem_cons_of_mem _ hx))]

end PyStr

namespace PyStr

/-- Plain space facts used repeatedly below. -/
theorem pySpace_space : pySpace ' ' = true := by decide

/-- Unfolding of `noAdjWS` over a cons in terms of the tail's head. -/
theorem noAdjWS_cons (a : Char) (l : List Char) :
    noAdjWS (a :: l) = true ↔
      (noAdjWS l = true ∧ ∀ b, l.head? = some b → ¬ (pySpace a = true ∧ pySpace b = true)) := by
  cases l with
  | nil => simp [noAdjWS]
  | cons b t =>
      simp only [noAdjWS, Bool.and_eq_true, decide_eq_true_eq, List.head?_cons,
        Option.some.injEq]
      constructor
      · rintro ⟨hab, ht⟩
        exact ⟨ht, fun b2 hb2 => hb2 ▸ hab⟩
      · rintro ⟨ht, hall⟩
        exact ⟨hall b rfl, ht⟩

/-- The output of `collapseWS` starting at a non-space keeps that head. -/
theorem collapse_head_notsp (c : Char) (s : List Char) (h : ¬ pySpace c = true) :
    (collapseWS (c :: s)).head? = some c := by
  cases s with
  | nil => simp [collapseWS, h]
  | cons c2 t =>
      have hns : ¬ (pySpace c = true ∧ pySpace c2 = true) := fun hc => h hc.1
      simp [collapseWS, hns, h]

/-- The output of `collapseWS` starting at a space starts with a plain space. -/
theorem collapse_head_sp (c : Char) (s : List Char) (h : pySpace c = true) :
    (collapseWS (c :: s)).head? = some ' ' := by
  induction s generalizing c with
  | nil => simp [collapseWS, h]
  | cons c2 t ih =>
      by_cases h2 : pySpace c2 = true
      · have hb : (pySpace c = true ∧ pySpace c2 = true) := ⟨h, h2⟩
        simp only [collapseWS, if_pos hb]
        exact ih c2 h2
      · have hns : ¬ (pySpace c = true ∧ pySpace c2 = true) := fun hc => h2 hc.2
        simp only [collapseWS, if_neg hns, if_pos h, List.head?_cons]

/-- Every whitespace character `collapseWS` emits is a plain space. -/
theorem collapse_wsPlain (s : List Char) : wsPlain (collapseWS s) = true := by
  induction s using collapseWS.induct with
  | case1 => rfl
  | case2 c hc => simp [collapseWS, hc, wsPlain, pySpace_space]
  | case3 c hc => simp [collapseWS, hc, wsPlain]
  | case4 c1 c2 t hsp ih => simpa [collapseWS, hsp] using ih
  | case5 c1 c2 t hsp ih =>
      simp only [collapseWS, if_neg hsp]
      unfold wsPlain at ih ⊢
      simp only [List.all_cons, Bool.and_eq_true] at *
      refine ⟨?_, ih⟩
      by_cases h1 : pySpace c1 = true
      · simp [h1, pySpace_space]
      · simp [h1]

/-- `collapseWS` never emits two adjacent whitespace characters. -/
theorem collapse_noAdj (s : List Char) : noAdjWS (collapseWS s) = true := by
  induction s using collapseWS.induct with
  | case1 => rfl
  | case2 c hc => simp [collapseWS, hc, noAdjWS]
  | case3 c hc => simp [collapseWS, hc, noAdjWS]
  | case4 c1 c2 t hsp ih => simpa [collapseWS, hsp] using ih
  | case5 c1 c2 t hsp ih =>
      simp only [collapseWS, if_neg hsp]
      rw [noAdjWS_cons]
      refine ⟨ih, ?_⟩
      intro b hb hcontra
      by_cases h2 : pySpace c2 = true
      · have h1 : ¬ pySpace c1 = true := fun hc1 => hsp ⟨hc1, h2⟩
        simp only [if_neg h1] at hcontra
        exact h1 hcontra.1
      · rw [collapse_head_notsp c2 t h2] at hb
        cases hb
        exact h2 hcontra.2

/-- A canonical string (plain single spaces only) is a `collapseWS` fixed point. -/
theorem collapse_canon_id (s : List Char) (h1 : wsPlain s = true)
    (h2 : noAdjWS s = true) : collapseWS s = s := by
  induction s using collapseWS.induct with
  | case1 => rfl
  | case2 c hc =>
      have hsp : c = ' ' := by
        unfold wsPlain at h1
        simp only [List.all_cons, Bool.and_eq_true, decide_eq_true_eq, hc] at h1
        rcases h1.1 with h2 | h2
        · exact absurd trivial h2
        · exact h2
      simp [collapseWS, hc, hsp]
  | case3 c hc => simp [collapseWS, hc]
  | case4 c1 c2 t hsp ih =>
      exfalso
      simp only [noAdjWS, Bool.and_eq_true, decide_eq_true_eq] at h2
      exact h2.1 hsp
  | case5 c1 c2 t hsp ih =>
      simp only [collapseWS, if_neg hsp]
      have ht1 : wsPlain (c2 :: t) = true := by
        unfold wsPlain at h1 ⊢
        simp only [List.all_cons, Bool.and_eq_true] at h1 ⊢
        exact h1.2
      have ht2 : noAdjWS (c2 :: t) = true := (noAdjWS_cons c1 (c2 :: t)).mp h2 |>.1
      rw [ih ht1 ht2]
      by_cases hc1 : pySpace c1 = true
      · have heq : c1 = ' ' := by
          unfold wsPlain at h1
          simp only [List.all_cons, Bool.and_eq_true, decide_eq_true_eq, hc1] at h1
          rcases h1.1 with h2 | h2
          · exact absurd trivial h2
          · exact h2
        simp [hc1, heq]
      · simp [hc1]

/-- Characters of `collapseWS s` come from `s` or are plain spaces. -/
theorem mem_collapse (c : Char) (s : List Char) (h : c ∈ collapseWS s) :
    c ∈ s ∨ c = ' ' := by
  induction s using collapseWS.induct with
  | case1 => simp [collapseWS] at h
  | case2 d hd =>
      simp only [collapseWS, if_pos hd, List.mem_singleton] at h
      exact Or.inr h
  | case3 d hd =>
      simp only [collapseWS, if_neg hd, List.mem_singleton] at h
      exact Or.inl (by simp [h])
  | case4 c1 c2 t hsp ih =>
      simp only [collapseWS, if_pos hsp] at h
      rcases ih h with h2 | h2
      · exact Or.inl (List.mem_cons_of_mem _ h2)
      · exact Or.inr h2
  | case5 c1 c2 t hsp ih =>
      simp only [collapseWS, if_neg hsp, List.mem_cons] at h
      rcases h with h | h
      · by_cases hc1 : pySpace c1 = true
        · simp only [if_pos hc1] at h
          exact Or.inr h
        · simp only [if_neg hc1] at h
          exact Or.inl (by simp [h])
      · rcases ih h with h2 | h2
        · exact Or.inl (List.mem_cons_of_mem _ h2)
        · exact Or.inr h2

/-- `collapseWS` cannot introduce an occurrence of a non-whitespace pattern. -/
theorem collapse_pres_occurs2 (a b : Char) (ha : ¬ pySpace a = true)
    (hb : ¬ pySpace b = true) :
    ∀ s, occurs2 a b s = false → occurs2 a b (collapseWS s) = false := by
  intro s
  induction s using collapseWS.induct with
  | case1 => intro h; rfl
  | case2 c hc => intro h; simp [collapseWS, hc, occurs2_single]
  | case3 c hc => intro h; simp [collapseWS, hc, occurs2_single]
  | case4 c1 c2 t hsp ih =>
      intro h
      simp only [collapseWS, if_pos hsp]
      exact ih (occurs2_tail a b c1 (c2 :: t) h)
  | case5 c1 c2 t hsp ih =>
      intro h
      simp only [collapseWS, if_neg hsp]
      by_contra hne
      have htrue : occurs2 a b ((if pySpace c1 = true then ' ' else c1) ::
          collapseWS (c2 :: t)) = true := by
        revert hne
        cases occurs2 a b ((if pySpace c1 = true then ' ' else c1) :: collapseWS (c2 :: t)) <;>
          simp
      rcases (occurs2_cons a b _ _).mp htrue with h2 | h2
      · have hc1 : ¬ pySpace c1 = true := by
          by_contra hc1
          simp only [if_pos hc1] at h2
          exact ha (h2.1 ▸ pySpace_space)
        simp only [if_neg hc1] at h2
        by_cases hc2 : pySpace c2 = true
        · rw [collapse_head_sp c2 t hc2] at h2
          have : b = ' ' := by cases h2.2; rfl
          exact hb (this ▸ pySpace_space)
        · rw [collapse_head_notsp c2 t hc2] at h2
          have heq : c2 = b := by cases h2.2; rfl
          have : occurs2 a b (c1 :: c2 :: t) = true :=
            (occurs2_cons_cons a b c1 c2 t).mpr (Or.inl ⟨h2.1, heq⟩)
          simp [this] at h
      · have := ih (occurs2_tail a b c1 (c2 :: t) h)
        simp [this] at h2

end PyStr

namespace PyStr

/-- The head of `dropWhile p` does not satisfy `p`. -/
theorem dropWhile_head_not (p : Char → Bool) :
    ∀ l : List Char, ∀ c, (l.dropWhile p).head? = some c → ¬ p c = true := by
  intro l
  induction l with
  | nil => simp
  | cons d t ih =>
      intro c
      by_cases hd : p d = true
      · simp only [List.dropWhile_cons, if_pos hd]
        exact ih c
      · simp only [List.dropWhile_cons, if_neg hd, List.head?_cons, Option.some.injEq]
        intro h
        exact h ▸ hd

/-- The inner strip (`dropEndWS` after `dropWhile`) is a prefix of the
whitespace-dropped string. -/
theorem stripWS_isPrefix (s : List Char) : stripWS s <+: s.dropWhile pySpace := by
  unfold stripWS dropEndWS
  have h0 : (s.dropWhile pySpace).reverse.dropWhile pySpace <:+
      (s.dropWhile pySpace).reverse := List.dropWhile_suffix _
  have h1 := List.reverse_prefix.mpr h0
  simpa using h1

/-- `stripWS s` is an infix of `s`. -/
theorem stripWS_isInfix (s : List Char) : stripWS s <:+: s := by
  have h1 : s.dropWhile pySpace <:+ s := List.dropWhile_suffix pySpace
  obtain ⟨t, ht⟩ := stripWS_isPrefix s
  obtain ⟨r, hr⟩ := h1
  refine ⟨r, t, ?_⟩
  rw [List.append_assoc, ht, hr]

/-- Occurrence inside an infix is occurrence in the whole string. -/
theorem occurs2_of_sub (x y : Char) (w s : List Char) (hw : w <:+: s)
    (h : occurs2 x y w = true) : occurs2 x y s = true := by
  obtain ⟨u, v, huv⟩ := hw
  rw [← huv, List.append_assoc, occurs2_append]
  right; left
  rw [occurs2_append]
  tauto

/-- Infixes of pattern-free strings are pattern-free. -/
theorem occurs2_false_of_sub (x y : Char) (w s : List Char) (hw : w <:+: s)
    (h : occurs2 x y s = false) : occurs2 x y w = false := by
  by_contra hne
  have : occurs2 x y w = true := by revert hne; cases occurs2 x y w <;> simp
  simp [occurs2_of_sub x y w s hw this] at h

/-- `noAdjWS` restricts to both halves of a concatenation. -/
theorem noAdjWS_append (u v : List Char) (h : noAdjWS (u ++ v) = true) :
    noAdjWS u = true ∧ noAdjWS v = true := by
  induction u with
  | nil => exact ⟨rfl, h⟩
  | cons a w ih =>
      cases w with
      | nil =>
          simp only [List.singleton_append] at h
          exact ⟨rfl, ((noAdjWS_cons a v).mp h).1⟩
      | cons b w2 =>
          simp only [List.cons_append] at h
          simp only [noAdjWS, Bool.and_eq_true, decide_eq_true_eq] at h ⊢
          have := ih h.2
          exact ⟨⟨h.1, this.1⟩, this.2⟩

/-- `noAdjWS` holds for every infix of a `noAdjWS` string. -/
theorem noAdjWS_of_sub (w s : List Char) (hw : w <:+: s)
    (h : noAdjWS s = true) : noAdjWS w = true := by
  obtain ⟨u, v, huv⟩ := hw
  rw [← huv, List.append_assoc] at h
  have h1 := (noAdjWS_append u (w ++ v) h).2
  exact (noAdjWS_append w v h1).1

/-- `wsPlain` holds for every sublist (in particular infix) of a `wsPlain` string. -/
theorem wsPlain_of_sub (w s : List Char) (hw : w <:+: s)
    (h : wsPlain s = true) : wsPlain w = true := by
  unfold wsPlain at h ⊢
  rw [List.all_eq_true] at h ⊢
  intro c hc
  exact h c (List.IsInfix.subset hw hc)

/-- Heads agree along a non-empty prefix. -/
theorem head_of_pref (w u : List Char) (hw : w <+: u) (c : Char)
    (h : w.head? = some c) : u.head? = some c := by
  obtain ⟨t, ht⟩ := hw
  subst ht
  cases w with
  | nil => simp at h
  | cons d r => simpa using h

/-- The stripped string does not start with whitespace. -/
theorem stripWS_headNotWS (s : List Char) : headNotWS (stripWS s) = true := by
  unfold headNotWS
  cases hh : (stripWS s).head? with
  | none => rfl
  | some c =>
      have := head_of_pref _ _ (stripWS_isPrefix s) c hh
      have hnot := dropWhile_head_not pySpace s c this
      simp [hnot]

/-- The stripped string does not end with whitespace. -/
theorem stripWS_lastNotWS (s : List Char) : lastNotWS (stripWS s) = true := by
  unfold lastNotWS headNotWS
  have hrev : (stripWS s).reverse = (s.dropWhile pySpace).reverse.dropWhile pySpace := by
    unfold stripWS dropEndWS
    rw [List.reverse_reverse]
  rw [hrev]
  cases hh : ((s.dropWhile pySpace).reverse.dropWhile pySpace).head? with
  | none => rfl
  | some c =>
      have hnot := dropWhile_head_not pySpace (s.dropWhile pySpace).reverse c hh
      simp [hnot]

/-- A string with non-whitespace ends is a `stripWS` fixed point. -/
theorem stripWS_id (s : List Char) (h1 : headNotWS s = true)
    (h2 : lastNotWS s = true) : stripWS s = s := by
  unfold stripWS
  have hd : s.dropWhile pySpace = s := by
    cases s with
    | nil => rfl
    | cons c t =>
        unfold headNotWS at h1
        simp only [List.head?_cons] at h1
        have : ¬ pySpace c = true := by simpa using h1
        simp [List.dropWhile_cons, this]
  rw [hd]
  unfold dropEndWS
  have hr : s.reverse.dropWhile pySpace = s.reverse := by
    unfold lastNotWS headNotWS at h2
    cases hrv : s.reverse with
    | nil => simp
    | cons c t =>
        rw [hrv] at h2
        simp only [List.head?_cons] at h2
        have : ¬ pySpace c = true := by simpa using h2
        simp [List.dropWhile_cons, this]
  rw [hr, List.reverse_reverse]

/-- Membership in the stripped string implies membership in the original. -/
theorem mem_of_stripWS (c : Char) (s : List Char) (h : c ∈ stripWS s) : c ∈ s :=
  List.IsInfix.subset (stripWS_isInfix s) h

end PyStr

namespace PyStr

/-- Occurrence of a pattern implies membership of its second character. -/
theorem occurs2_mem_right (x y : Char) :
    ∀ s : List Char, occurs2 x y s = true → y ∈ s := by
  intro s
  induction s with
  | nil => simp [occurs2]
  | cons a t ih =>
      cases t with
      | nil => simp [occurs2]
      | cons b u =>
          intro h
          rcases (occurs2_cons_cons x y a b u).mp h with h2 | h2
          · simp [h2.2]
          · exact List.mem_cons_of_mem _ (ih h2)

/-- Pattern-freeness from absence of the second pattern character. -/
theorem occurs2_false_of_not_mem_right (x y : Char) (s : List Char) (h : y ∉ s) :
    occurs2 x y s = false := by
  by_contra hne
  have : occurs2 x y s = true := by revert hne; cases occurs2 x y s <;> simp
  exact h (occurs2_mem_right x y s this)

/-- Whitespace other than plain space is absent from a `wsPlain` string. -/
theorem not_mem_of_wsPlain (u : List Char) (x : Char) (hu : wsPlain u = true)
    (hx : pySpace x = true) (hne : x ≠ ' ') : x ∉ u := by
  intro hmem
  unfold wsPlain at hu
  rw [List.all_eq_true] at hu
  have := of_decide_eq_true (hu x hmem)
  rcases this with h | h
  · exact h hx
  · exact hne h

/-- One step of `replaceSeq`. -/
theorem replaceSeq_cons (pr : List Char × List Char)
    (rs : List (List Char × List Char)) (s : List Char) :
    replaceSeq (pr :: rs) s = replaceSeq rs
      (match pr.1 with
       | [x] => replace1 x pr.2 s
       | [x, y] => replace2 x y pr.2 s
       | _ => s) := rfl

/-- `replaceSeq` distributes over list concatenation. -/
theorem replaceSeq_append (l1 l2 : List (List Char × List Char)) (s : List Char) :
    replaceSeq (l1 ++ l2) s = replaceSeq l2 (replaceSeq l1 s) := by
  unfold replaceSeq
  rw [List.foldl_append]

/-- Characters of `replaceSeq rs s` come from `s` or from some replacement. -/
theorem mem_replaceSeq (rs : List (List Char × List Char)) (c : Char) :
    ∀ s, c ∈ replaceSeq rs s → c ∈ s ∨ ∃ pr ∈ rs, c ∈ pr.2 := by
  induction rs with
  | nil => intro s h; exact Or.inl h
  | cons pr rest ih =>
      intro s h
      rw [replaceSeq_cons] at h
      rcases ih _ h with h2 | h2
      · match hp : pr.1 with
        | [x] =>
            rw [hp] at h2
            rcases mem_replace1 x c pr.2 s h2 with h3 | h3
            · exact Or.inl h3
            · exact Or.inr ⟨pr, by simp, h3⟩
        | [x, y] =>
            rw [hp] at h2
            rcases mem_replace2 x y c pr.2 s h2 with h3 | h3
            · exact Or.inl h3
            · exact Or.inr ⟨pr, by simp, h3⟩
        | [] => rw [hp] at h2; exact Or.inl h2
        | x :: y :: z :: t => rw [hp] at h2; exact Or.inl h2
      · obtain ⟨pr2, hpr2, hc⟩ := h2
        exact Or.inr ⟨pr2, List.mem_cons_of_mem _ hpr2, hc⟩

/-- `replaceSeq` preserves absence of a character when no replacement holds it. -/
theorem replaceSeq_pres_notMem (rs : List (List Char × List Char)) (x : Char)
    (hrs : ∀ pr ∈ rs, x ∉ pr.2) :
    ∀ s, x ∉ s → x ∉ replaceSeq rs s := by
  intro s hs hmem
  rcases mem_replaceSeq rs x s hmem with h | ⟨pr, hpr, hc⟩
  · exact hs h
  · exact hrs pr hpr hc

/-- `replaceSeq` preserves pattern-freeness when every replacement is non-empty
and avoids the pattern's characters. -/
theorem replaceSeq_pres_occurs2 (rs : List (List Char × List Char)) (a b : Char)
    (hrs : ∀ pr ∈ rs, pr.2 ≠ [] ∧ ∀ c ∈ pr.2, c ≠ a ∧ c ≠ b) :
    ∀ s, occurs2 a b s = false → occurs2 a b (replaceSeq rs s) = false := by
  induction rs with
  | nil => intro s h; exact h
  | cons pr rest ih =>
      intro s h
      rw [replaceSeq_cons]
      have hpr := hrs pr (by simp)
      have hrest : ∀ pr2 ∈ rest, pr2.2 ≠ [] ∧ ∀ c ∈ pr2.2, c ≠ a ∧ c ≠ b :=
        fun pr2 hpr2 => hrs pr2 (List.mem_cons_of_mem _ hpr2)
      match hp : pr.1 with
      | [x] => exact ih hrest _ (replace1_pres_occurs2 x a b pr.2 hpr.1 hpr.2 s h)
      | [x, y] => exact ih hrest _ (replace2_pres_occurs2 x y a b pr.2 hpr.1 hpr.2 s h)
      | [] => exact ih hrest _ h
      | x :: y :: z :: t => exact ih hrest _ h

/-- `replaceSeq` is the identity on a string free of all its patterns. -/
theorem replaceSeq_id (rs : List (List Char × List Char)) :
    ∀ s, (∀ pr ∈ rs,
        (∀ x, pr.1 = [x] → x ∉ s) ∧
        (∀ x y, pr.1 = [x, y] → occurs2 x y s = false)) →
      replaceSeq rs s = s := by
  induction rs with
  | nil => intro s _; rfl
  | cons pr rest ih =>
      intro s h
      rw [replaceSeq_cons]
      have hpr := h pr (by simp)
      have hstep : (match pr.1 with
          | [x] => replace1 x pr.2 s
          | [x, y] => replace2 x y pr.2 s
          | _ => s) = s := by
        match hp : pr.1 with
        | [x] => exact replace1_id x pr.2 s (hpr.1 x hp)
        | [x, y] => exact replace2_id x y pr.2 s (hpr.2 x y hp)
        | [] => rfl
        | x :: y :: z :: t => rfl
      rw [hstep]
      exact ih s (fun pr2 hpr2 => h pr2 (List.mem_cons_of_mem _ hpr2))

end PyStr

namespace PyStr

/-- After `replaceSeq rs`, every pattern of `rs` is gone, provided patterns have
length one or two, replacements are non-empty, and no replacement character
occurs in any pattern. All side conditions are decidable for concrete tables. -/
theorem replaceSeq_kills (rs : List (List Char × List Char))
    (hrep : ∀ pr ∈ rs, pr.2 ≠ [])
    (hdisj : ∀ pr ∈ rs, ∀ pr2 ∈ rs, ∀ c ∈ pr2.2, c ∉ pr.1) :
    ∀ s, ∀ pr ∈ rs,
      (∀ x, pr.1 = [x] → x ∉ replaceSeq rs s) ∧
      (∀ x y, pr.1 = [x, y] → occurs2 x y (replaceSeq rs s) = false) := by
  induction rs with
  | nil => intro s pr hpr; simp at hpr
  | cons pr0 rest ih =>
      intro s pr hpr
      have hrep0 := hrep pr0 (by simp)
      have hrepR : ∀ pr2 ∈ rest, pr2.2 ≠ [] :=
        fun pr2 h2 => hrep pr2 (List.mem_cons_of_mem _ h2)
      have hdisjR : ∀ pr2 ∈ rest, ∀ pr3 ∈ rest, ∀ c ∈ pr3.2, c ∉ pr2.1 :=
        fun pr2 h2 pr3 h3 c hc =>
          hdisj pr2 (List.mem_cons_of_mem _ h2) pr3 (List.mem_cons_of_mem _ h3) c hc
      rcases List.mem_cons.mp hpr with heq | hmem
      · subst heq
        rw [replaceSeq_cons]
        constructor
        · intro x hx
          have hkill : x ∉ (match pr.1 with
              | [x2] => replace1 x2 pr.2 s
              | [x2, y2] => replace2 x2 y2 pr.2 s
              | _ => s) := by
            rw [hx]
            exact replace1_no_self x pr.2
              (fun hc => hdisj pr (by simp) pr (by simp) x hc (by simp [hx])) s
          apply replaceSeq_pres_notMem rest x ?_ _ hkill
          intro pr2 h2 hc
          exact hdisj pr (by simp) pr2 (List.mem_cons_of_mem _ h2) x hc (by simp [hx])
        · intro x y hxy
          have hkill : occurs2 x y (match pr.1 with
              | [x2] => replace1 x2 pr.2 s
              | [x2, y2] => replace2 x2 y2 pr.2 s
              | _ => s) = false := by
            rw [hxy]
            apply replace2_no_self x y pr.2 hrep0
            intro c hc
            have := hdisj pr (by simp) pr (by simp) c hc
            rw [hxy] at this
            exact ⟨fun h => this (by simp [h]), fun h => this (by simp [h])⟩
          apply replaceSeq_pres_occurs2 rest x y ?_ _ hkill
          intro pr2 h2
          refine ⟨hrepR pr2 h2, ?_⟩
          intro c hc
          have := hdisj pr (by simp) pr2 (List.mem_cons_of_mem _ h2) c hc
          rw [hxy] at this
          exact ⟨fun h => this (by simp [h]), fun h => this (by simp [h])⟩
      · rw [replaceSeq_cons]
        exact ih hrepR hdisjR _ pr hmem

/-- `pyLower` cannot produce `c` when both `c` and its case-shift preimage are
excluded. -/
theorem pyLower_ne_of (d c cup : Char) (hcup : cup.toNat + 32 = c.toNat)
    (hd1 : d ≠ c) (hd2 : d ≠ cup) : pyLower d ≠ c := by
  intro h
  rcases pyLower_preimage d c h with ⟨he, _⟩ | ⟨hs, _⟩
  · exact hd1 he
  · exact hd2 (charToNat_inj (by omega))

/-- `pyLower` never outputs a character inside the shift ranges. -/
theorem pyLower_ne_upper (d c : Char) (hc : lowerShiftRange c.toNat) :
    pyLower d ≠ c := by
  intro h
  rcases pyLower_preimage d c h with ⟨he, hnr⟩ | ⟨hs, hr⟩
  · exact hnr (he ▸ hc)
  · unfold lowerShiftRange at hc hr
    omega

end PyStr

namespace Gjensidige

open PyStr

/-- A single-character pattern of the OCR table is absent from the normalized
output (killed by its own replacement step, preserved afterwards, and not
reintroduced by whitespace collapsing). -/
theorem ocr_single_gone (x : Char) (hx : x ≠ ' ')
    (hkill : ∀ s, x ∉ replaceSeq OCR_TEXT_REPLACEMENTS s) (t : List Char) :
    x ∉ collapseWS (replaceSeq OCR_TEXT_REPLACEMENTS t) := by
  intro hmem
  rcases mem_collapse x _ hmem with h | h
  · exact hkill t h
  · exact hx h

/-- A two-character pattern of the OCR table with non-whitespace characters is
absent from the normalized output. -/
theorem ocr_double_gone (x y : Char) (hxw : ¬ pySpace x = true)
    (hyw : ¬ pySpace y = true)
    (hkill : ∀ s, occurs2 x y (replaceSeq OCR_TEXT_REPLACEMENTS s) = false)
    (t : List Char) :
    occurs2 x y (collapseWS (replaceSeq OCR_TEXT_REPLACEMENTS t)) = false :=
  collapse_pres_occurs2 x y hxw hyw _ (hkill t)

/-- The Gjensidige OCR normalizer is idempotent. -/
theorem normalize_ocr_text_idem (t : List Char) :
    normalize_ocr_text (normalize_ocr_text t) = normalize_ocr_text t := by
  by_cases ht : t = []
  · subst ht; rfl
  · have hkills := replaceSeq_kills OCR_TEXT_REPLACEMENTS (by decide) (by decide)
    unfold normalize_ocr_text
    rw [if_neg ht]
    set u := collapseWS (replaceSeq OCR_TEXT_REPLACEMENTS t) with hu
    by_cases hue : u = []
    · rw [if_pos hue, hue]
    · rw [if_neg hue]
      have hid : replaceSeq OCR_TEXT_REPLACEMENTS u = u := by
        apply replaceSeq_id
        intro pr hpr
        fin_cases hpr
        · exact ⟨fun x hx => by simp at hx,
            fun x y hxy => by
              obtain ⟨hx, hy⟩ : 'Ã' = x ∧ '\u00b8' = y := by simpa using hxy
              subst hx; subst hy
              exact ocr_double_gone _ _ (by decide) (by decide)
                (fun s => (hkills s ("Ã¸".toList, "o".toList) (by decide)).2 _ _ (by decide)) t⟩
        · exact ⟨fun x hx => by simp at hx,
            fun x y hxy => by
              obtain ⟨hx, hy⟩ : 'Ã' = x ∧ '\u0098' = y := by simpa using hxy
              subst hx; subst hy
              exact ocr_double_gone _ _ (by decide) (by decide)
                (fun s => (hkills s ("Ã\u0098".toList, "o".toList) (by decide)).2 _ _ (by decide)) t⟩
        · exact ⟨fun x hx => by simp at hx,
            fun x y hxy => by
              obtain ⟨hx, hy⟩ : 'Ã' = x ∧ '\u00a5' = y := by simpa using hxy
              subst hx; subst hy
              exact ocr_double_gone _ _ (by decide) (by decide)
                (fun s => (hkills s ("Ã¥".toList, "a".toList) (by decide)).2 _ _ (by decide)) t⟩
        · exact ⟨fun x hx => by simp at hx,
            fun x y hxy => by
              obtain ⟨hx, hy⟩ : 'Ã' = x ∧ '\u0085' = y := by simpa using hxy
              subst hx; subst hy
              exact occurs2_false_of_not_mem_right _ _ _
                (not_mem_of_wsPlain u _ (hu ▸ collapse_wsPlain _) (by decide) (by decide))⟩
        · exact ⟨fun x hx => by simp at hx,
            fun x y hxy => by
              obtain ⟨hx, hy⟩ : 'Ã' = x ∧ '\u00a6' = y := by simpa using hxy
              subst hx; subst hy
              exact ocr_double_gone _ _ (by decide) (by decide)
                (fun s => (hkills s ("Ã¦".toList, "ae".toList) (by decide)).2 _ _ (by decide)) t⟩
        · exact ⟨fun x hx => by simp at hx,
            fun x y hxy => by
              obtain ⟨hx, hy⟩ : 'Ã' = x ∧ '\u0086' = y := by simpa using hxy
              subst hx; subst hy
              exact ocr_double_gone _ _ (by decide) (by decide)
                (fun s => (hkills s ("Ã\u0086".toList, "ae".toList) (by decide)).2 _ _ (by decide)) t⟩
        · exact ⟨fun x hx => by
              obtain hx2 : 'ø' = x := by simpa using hx
              subst hx2
              exact ocr_single_gone _ (by decide)
                (fun s => (hkills s ("ø".toList, "o".toList) (by decide)).1 _ (by decide)) t,
            fun x y hxy => by simp at hxy⟩
        · exact ⟨fun x hx => by
              obtain hx2 : 'Ø' = x := by simpa using hx
              subst hx2
              exact ocr_single_gone _ (by decide)
                (fun s => (hkills s ("Ø".toList, "o".toList) (by decide)).1 _ (by decide)) t,
            fun x y hxy => by simp at hxy⟩
        · exact ⟨fun x hx => by
              obtain hx2 : 'å' = x := by simpa using hx
              subst hx2
              exact ocr_single_gone _ (by decide)
                (fun s => (hkills s ("å".toList, "a".toList) (by decide)).1 _ (by decide)) t,
            fun x y hxy => by simp at hxy⟩
        · exact ⟨fun x hx => by
              obtain hx2 : 'Å' = x := by simpa using hx
              subst hx2
              exact ocr_single_gone _ (by decide)
                (fun s => (hkills s ("Å".toList, "a".toList) (by decide)).1 _ (by decide)) t,
            fun x y hxy => by simp at hxy⟩
        · exact ⟨fun x hx => by
              obtain hx2 : 'æ' = x := by simpa using hx
              subst hx2
              exact ocr_single_gone _ (by decide)
                (fun s => (hkills s ("æ".toList, "ae".toList) (by decide)).1 _ (by decide)) t,
            fun x y hxy => by simp at hxy⟩
        · exact ⟨fun x hx => by
              obtain hx2 : 'Æ' = x := by simpa using hx
              subst hx2
              exact ocr_single_gone _ (by decide)
                (fun s => (hkills s ("Æ".toList, "ae".toList) (by decide)).1 _ (by decide)) t,
            fun x y hxy => by simp at hxy⟩
      rw [hid]
      exact collapse_canon_id u (hu ▸ collapse_wsPlain _) (hu ▸ collapse_noAdj _)

end Gjensidige

namespace PyStr

/-- The strip-of-collapse composite yields plain single spaces. -/
theorem strip_collapse_wsPlain (w : List Char) :
    wsPlain (stripWS (collapseWS w)) = true :=
  wsPlain_of_sub _ _ (stripWS_isInfix _) (collapse_wsPlain w)

/-- The strip-of-collapse composite yields no adjacent whitespace. -/
theorem strip_collapse_noAdj (w : List Char) :
    noAdjWS (stripWS (collapseWS w)) = true :=
  noAdjWS_of_sub _ _ (stripWS_isInfix _) (collapse_noAdj w)

/-- Collapsing is the identity on a strip-of-collapse result. -/
theorem collapse_strip_collapse (w : List Char) :
    collapseWS (stripWS (collapseWS w)) = stripWS (collapseWS w) :=
  collapse_canon_id _ (strip_collapse_wsPlain w) (strip_collapse_noAdj w)

/-- Stripping is the identity on a strip result. -/
theorem strip_strip (w : List Char) : stripWS (stripWS w) = stripWS w :=
  stripWS_id _ (stripWS_headNotWS w) (stripWS_lastNotWS w)

/-- An absent non-space character stays absent through collapse and strip. -/
theorem strip_collapse_single_gone (x : Char) (hx : x ≠ ' ') (w : List Char)
    (hw : x ∉ w) : x ∉ stripWS (collapseWS w) := by
  intro hmem
  rcases mem_collapse x _ (mem_of_stripWS x _ hmem) with h | h
  · exact hw h
  · exact hx h

/-- A non-whitespace pattern stays absent through collapse and strip. -/
theorem strip_collapse_double_gone (x y : Char) (hxw : ¬ pySpace x = true)
    (hyw : ¬ pySpace y = true) (w : List Char) (hw : occurs2 x y w = false) :
    occurs2 x y (stripWS (collapseWS w)) = false :=
  occurs2_false_of_sub x y _ _ (stripWS_isInfix _)
    (collapse_pres_occurs2 x y hxw hyw w hw)

end PyStr

namespace Ly

open PyStr

/-- The Ly text normalizer is idempotent. -/
theorem ly_normalize_text_idem (t : List Char) :
    normalize_text (normalize_text t) = normalize_text t := by
  have hkills := replaceSeq_kills lyReplacements (by decide) (by decide)
  unfold normalize_text
  set v := replaceSeq lyReplacements (lowerL t) with hv
  set u := stripWS (collapseWS v) with huv
  have hfix : lowerFixed u = true := by
    unfold lowerFixed
    rw [List.all_eq_true]
    intro c hc
    apply decide_eq_true
    rcases mem_collapse c _ (mem_of_stripWS c _ hc) with h | h
    · rcases mem_replaceSeq lyReplacements c _ h with h2 | ⟨pr, hpr, h2⟩
      · rcases mem_lowerL c _ h2 with ⟨d, _, hd⟩
        rw [← hd]
        exact pyLower_idem d
      · exact of_decide_eq_true
          ((by decide : (∀ pr2 ∈ lyReplacements, ∀ c2 ∈ pr2.2,
            decide (pyLower c2 = c2) = true)) pr hpr c h2)
    · rw [h]; decide
  rw [lowerL_of_lowerFixed u hfix]
  have hid : replaceSeq lyReplacements u = u := by
    apply replaceSeq_id
    intro pr hpr
    fin_cases hpr
    · exact ⟨fun x hx => by
          obtain hx2 : 'ø' = x := by simpa using hx
          subst hx2
          exact strip_collapse_single_gone _ (by decide) v
            ((hkills (lowerL t) ("ø".toList, "o".toList) (by decide)).1 _ (by decide)),
        fun x y hxy => by simp at hxy⟩
    · exact ⟨fun x hx => by
          obtain hx2 : 'å' = x := by simpa using hx
          subst hx2
          exact strip_collapse_single_gone _ (by decide) v
            ((hkills (lowerL t) ("å".toList, "a".toList) (by decide)).1 _ (by decide)),
        fun x y hxy => by simp at hxy⟩
    · exact ⟨fun x hx => by
          obtain hx2 : 'æ' = x := by simpa using hx
          subst hx2
          exact strip_collapse_single_gone _ (by decide) v
            ((hkills (lowerL t) ("æ".toList, "ae".toList) (by decide)).1 _ (by decide)),
        fun x y hxy => by simp at hxy⟩
    · exact ⟨fun x hx => by
          obtain hx2 : 'ö' = x := by simpa using hx
          subst hx2
          exact strip_collapse_single_gone _ (by decide) v
            ((hkills (lowerL t) ("ö".toList, "o".toList) (by decide)).1 _ (by decide)),
        fun x y hxy => by simp at hxy⟩
    · exact ⟨fun x hx => by
          obtain hx2 : 'ü' = x := by simpa using hx
          subst hx2
          exact strip_collapse_single_gone _ (by decide) v
            ((hkills (lowerL t) ("ü".toList, "u".toList) (by decide)).1 _ (by decide)),
        fun x y hxy => by simp at hxy⟩
    · exact ⟨fun x hx => by simp at hx,
        fun x y hxy => by
          obtain ⟨hx, hy⟩ : 'Ã' = x ∧ '\u00b8' = y := by simpa using hxy
          subst hx; subst hy
          exact strip_collapse_double_gone _ _ (by decide) (by decide) v
            ((hkills (lowerL t) ("Ã¸".toList, "o".toList) (by decide)).2 _ _ (by decide))⟩
    · exact ⟨fun x hx => by simp at hx,
        fun x y hxy => by
          obtain ⟨hx, hy⟩ : 'Ã' = x ∧ '\u00a5' = y := by simpa using hxy
          subst hx; subst hy
          exact strip_collapse_double_gone _ _ (by decide) (by decide) v
            ((hkills (lowerL t) ("Ã¥".toList, "a".toList) (by decide)).2 _ _ (by decide))⟩
    · exact ⟨fun x hx => by simp at hx,
        fun x y hxy => by
          obtain ⟨hx, hy⟩ : 'Ã' = x ∧ '\u00a6' = y := by simpa using hxy
          subst hx; subst hy
          exact strip_collapse_double_gone _ _ (by decide) (by decide) v
            ((hkills (lowerL t) ("Ã¦".toList, "ae".toList) (by decide)).2 _ _ (by decide))⟩
  rw [hid, huv, collapse_strip_collapse, strip_strip]

end Ly

namespace GenLiab

open PyStr

/-- The general-liability text normalizer is idempotent. -/
theorem gl_normalize_text_idem (t : List Char) :
    normalize_text (normalize_text t) = normalize_text t := by
  have hkills := replaceSeq_kills glReplacements (by decide) (by decide)
  by_cases ht : t = []
  · subst ht; rfl
  · unfold normalize_text
    rw [if_neg ht]
    set w := replace1 '\u00a0' " ".toList t with hw
    set v := replaceSeq glReplacements w with hv
    set u := stripWS (collapseWS (lowerL v)) with hu
    by_cases hu0 : u = []
    · rw [if_pos hu0, hu0]
    rw [if_neg hu0]
    have hmemu : ∀ c, c ∈ u → c ∈ lowerL v ∨ c = ' ' := fun c hc =>
      mem_collapse c _ (mem_of_stripWS c _ hc)
    have hws : wsPlain u = true := by
      rw [hu]; exact strip_collapse_wsPlain _
    have hno_o1 : 'ø' ∉ u := by
      intro hm
      rcases hmemu _ hm with h | h
      · rcases mem_lowerL _ _ h with ⟨d, hdm, hd⟩
        refine pyLower_ne_of d 'ø' 'Ø' (by decide) (fun he => ?_) (fun he => ?_) hd
        · exact (hkills w ("ø".toList, "o".toList) (by decide)).1 _ (by decide) (he ▸ hdm)
        · exact (hkills w ("Ø".toList, "o".toList) (by decide)).1 _ (by decide) (he ▸ hdm)
      · exact (by decide : ('ø' : Char) ≠ ' ') h
    have hno_a1 : 'å' ∉ u := by
      intro hm
      rcases hmemu _ hm with h | h
      · rcases mem_lowerL _ _ h with ⟨d, hdm, hd⟩
        refine pyLower_ne_of d 'å' 'Å' (by decide) (fun he => ?_) (fun he => ?_) hd
        · exact (hkills w ("å".toList, "a".toList) (by decide)).1 _ (by decide) (he ▸ hdm)
        · exact (hkills w ("Å".toList, "a".toList) (by decide)).1 _ (by decide) (he ▸ hdm)
      · exact (by decide : ('å' : Char) ≠ ' ') h
    have hno_ae1 : 'æ' ∉ u := by
      intro hm
      rcases hmemu _ hm with h | h
      · rcases mem_lowerL _ _ h with ⟨d, hdm, hd⟩
        refine pyLower_ne_of d 'æ' 'Æ' (by decide) (fun he => ?_) (fun he => ?_) hd
        · exact (hkills w ("æ".toList, "ae".toList) (by decide)).1 _ (by decide) (he ▸ hdm)
        · exact (hkills w ("Æ".toList, "ae".toList) (by decide)).1 _ (by decide) (he ▸ hdm)
      · exact (by decide : ('æ' : Char) ≠ ' ') h
    have hno_o2 : 'Ø' ∉ u := by
      intro hm
      rcases hmemu _ hm with h | h
      · rcases mem_lowerL _ _ h with ⟨d, _, hd⟩
        exact pyLower_ne_upper d 'Ø' (by decide) hd
      · exact (by decide : ('Ø' : Char) ≠ ' ') h
    have hno_a2 : 'Å' ∉ u := by
      intro hm
      rcases hmemu _ hm with h | h
      · rcases mem_lowerL _ _ h with ⟨d, _, hd⟩
        exact pyLower_ne_upper d 'Å' (by decide) hd
      · exact (by decide : ('Å' : Char) ≠ ' ') h
    have hno_ae2 : 'Æ' ∉ u := by
      intro hm
      rcases hmemu _ hm with h | h
      · rcases mem_lowerL _ _ h with ⟨d, _, hd⟩
        exact pyLower_ne_upper d 'Æ' (by decide) hd
      · exact (by decide : ('Æ' : Char) ≠ ' ') h
    have hno_tilde : 'Ã' ∉ u := by
      intro hm
      rcases hmemu _ hm with h | h
      · rcases mem_lowerL _ _ h with ⟨d, _, hd⟩
        exact pyLower_ne_upper d 'Ã' (by decide) hd
      · exact (by decide : ('Ã' : Char) ≠ ' ') h
    have h1 : replace1 '\u00a0' " ".toList u = u :=
      replace1_id _ _ u (not_mem_of_wsPlain u _ hws (by decide) (by decide))
    have hid : replaceSeq glReplacements u = u := by
      apply replaceSeq_id
      intro pr hpr
      fin_cases hpr
      · exact ⟨fun x hx => by
            obtain hx2 : 'ø' = x := by simpa using hx
            subst hx2
            exact hno_o1,
          fun x y hxy => by simp at hxy⟩
      · exact ⟨fun x hx => by
            obtain hx2 : 'å' = x := by simpa using hx
            subst hx2
            exact hno_a1,
          fun x y hxy => by simp at hxy⟩
      · exact ⟨fun x hx => by
            obtain hx2 : 'æ' = x := by simpa using hx
            subst hx2
            exact hno_ae1,
          fun x y hxy => by simp at hxy⟩
      · exact ⟨fun x hx => by
            obtain hx2 : 'Ø' = x := by simpa using hx
            subst hx2
            exact hno_o2,
          fun x y hxy => by simp at hxy⟩
      · exact ⟨fun x hx => by
            obtain hx2 : 'Å' = x := by simpa using hx
            subst hx2
            exact hno_a2,
          fun x y hxy => by simp at hxy⟩
      · exact ⟨fun x hx => by
            obtain hx2 : 'Æ' = x := by simpa using hx
            subst hx2
            exact hno_ae2,
          fun x y hxy => by simp at hxy⟩
      · exact ⟨fun x hx => by simp at hx,
          fun x y hxy => by
            obtain ⟨hx, hy⟩ : 'Ã' = x ∧ '\u00b8' = y := by simpa using hxy
            subst hx; subst hy
            exact occurs2_false_of_not_mem _ _ u hno_tilde⟩
      · exact ⟨fun x hx => by simp at hx,
          fun x y hxy => by
            obtain ⟨hx, hy⟩ : 'Ã' = x ∧ '\u00a5' = y := by simpa using hxy
            subst hx; subst hy
            exact occurs2_false_of_not_mem _ _ u hno_tilde⟩
      · exact ⟨fun x hx => by simp at hx,
          fun x y hxy => by
            obtain ⟨hx, hy⟩ : 'Ã' = x ∧ '\u00a6' = y := by simpa using hxy
            subst hx; subst hy
            exact occurs2_false_of_not_mem _ _ u hno_tilde⟩
    have hlf : lowerL u = u := by
      apply lowerL_of_lowerFixed
      unfold lowerFixed
      rw [List.all_eq_true]
      intro c hc
      apply decide_eq_true
      rcases hmemu _ hc with h | h
      · rcases mem_lowerL _ _ h with ⟨d, _, hd⟩
        rw [← hd]
        exact pyLower_idem d
      · rw [h]; decide
    rw [h1, hid, hlf, hu, collapse_strip_collapse, strip_strip]

end GenLiab

/-- C8: each text normalizer used by the extractors and the mapping
dispatchers is idempotent: for the Gjensidige OCR normalizer, the Ly
normalizer and the general-liability normalizer, applying the function
twice gives the same result as applying it once, for every input text. -/
theorem C8_normalizers_idempotent (t : List Char) :
    Gjensidige.normalize_ocr_text (Gjensidige.normalize_ocr_text t) =
      Gjensidige.normalize_ocr_text t ∧
    Ly.normalize_text (Ly.normalize_text t) = Ly.normalize_text t ∧
    GenLiab.normalize_text (GenLiab.normalize_text t) = GenLiab.normalize_text t :=
  ⟨Gjensidige.normalize_ocr_text_idem t, Ly.ly_normalize_text_idem t,
    GenLiab.gl_normalize_text_idem t⟩

namespace PyStr

theorem char_eq_iff {a b : Char} : a = b ↔ a.toNat = b.toNat :=
  ⟨fun h => h ▸ rfl, charToNat_inj⟩

theorem pySpace_pyLower (c : Char) : pySpace (pyLower c) = pySpace c := by
  by_cases hr : lowerShiftRange c.toNat
  · have hs := pyLower_shift c hr
    have h1 : pySpace c = false := by
      unfold pySpace
      apply decide_eq_false
      intro h
      unfold lowerShiftRange at hr
      rcases h with h|h|h|h|h|h|h|h|h|h|h|h|h|h|h|h|h|h|h|h
      all_goals first
        | (subst h; exact absurd hr (by decide))
        | omega
    have h2 : pySpace (pyLower c) = false := by
      unfold pySpace
      apply decide_eq_false
      intro h
      unfold lowerShiftRange at hr
      have h32 : (' ' : Char).toNat = 32 := by decide
      have h9 : ('\t' : Char).toNat = 9 := by decide
      have h10 : ('\n' : Char).toNat = 10 := by decide
      have h13 : ('\r' : Char).toNat = 13 := by decide
      rcases h with h|h|h|h|h|h|h|h|h|h|h|h|h|h|h|h|h|h|h|h
      all_goals first
        | (have hn := congrArg Char.toNat h; omega)
        | omega
    rw [h1, h2]
  · rw [pyLower_eq_self c hr]

theorem lowerL_lowerL (s : List Char) : lowerL (lowerL s) = lowerL s := by
  induction s with
  | nil => rfl
  | cons c t ih =>
      unfold lowerL at *
      simp only [List.map_cons, List.cons.injEq]
      exact ⟨pyLower_idem c, ih⟩

theorem headNotWS_lowerL (s : List Char) : headNotWS (lowerL s) = headNotWS s := by
  cases s with
  | nil => rfl
  | cons c t => simp [headNotWS, lowerL, pySpace_pyLower]

theorem lastNotWS_lowerL (s : List Char) : lastNotWS (lowerL s) = lastNotWS s := by
  unfold lastNotWS
  rw [show (lowerL s).reverse = lowerL s.reverse by
    unfold lowerL; exact (List.map_reverse pyLower s).symm]
  exact headNotWS_lowerL s.reverse

theorem strip_lower_strip (x : List Char) :
    stripWS (lowerL (stripWS x)) = lowerL (stripWS x) :=
  stripWS_id _
    (by rw [headNotWS_lowerL]; exact stripWS_headNotWS x)
    (by rw [lastNotWS_lowerL]; exact stripWS_lastNotWS x)

theorem normProvider_idem (x : List Char) :
    lowerL (stripWS (lowerL (stripWS x))) = lowerL (stripWS x) := by
  rw [strip_lower_strip, lowerL_lowerL]

end PyStr

open PyStr in
/-- C9: in the general-liability mapping, a provider string that is not a known
insurer together with a failed auto-detection yields the all-empty entry, and
an entry with no extractable field value makes `transform_data` return the
empty map rather than a partially filled placeholder row. -/
theorem C9_no_provider_or_values_empty (inp : VehicleMapping.TransformInput) :
    (lowerL (stripWS (inp.vehicle_provider.getD [])) ∉
        ["if".toList, "if skadeforsikring".toList, "gjensidige".toList,
         "tryg".toList, "ly".toList, "ly forsikring".toList] →
      GenLiab.detect_provider inp.pdf_text = [] →
      GenLiab.extract_entry_by_provider inp.pdf_text
        (some (lowerL (stripWS (inp.vehicle_provider.getD [])))) = {}) ∧
    (GenLiab.anyValue (GenLiab.extract_entry_by_provider inp.pdf_text
        (some (lowerL (stripWS (inp.vehicle_provider.getD []))))) = false →
      GenLiab.transform_data inp = []) := by
  constructor
  · intro hnk hdet
    simp only [List.mem_cons, List.mem_singleton] at hnk
    push_neg at hnk
    obtain ⟨h1, h2, h3, h4, h5, h6⟩ := hnk
    simp only [GenLiab.extract_entry_by_provider, Option.getD_some]
    rw [normProvider_idem]
    by_cases hpe : lowerL (stripWS (inp.vehicle_provider.getD [])) = [] ∨
        lowerL (stripWS (inp.vehicle_provider.getD [])) = "auto-detect".toList
    · rw [if_pos hpe, hdet]
      rw [if_neg (by decide), if_neg (by decide), if_neg (by decide), if_neg (by decide)]
    · rw [if_neg hpe]
      rw [if_neg (fun h => h.elim h1 h2), if_neg h3, if_neg h4,
        if_neg (fun h => h.elim h5 h6.1)]
  · intro h
    unfold GenLiab.transform_data
    by_cases hp0 : inp.pdf_text = []
    · rw [if_pos hp0]
    · rw [if_neg hp0]
      simp only [h]
      simp

/-- Concrete instance of the C9 guarantee on a document that names no insurer. -/
theorem C9_no_provider_or_values_empty_witness :
    GenLiab.extract_entry_by_provider "hello world".toList (some []) = {} ∧
    GenLiab.transform_data
      { pdf_text := "hello world".toList, vehicle_provider := none } = [] :=
  ⟨(C9_no_provider_or_values_empty
      { pdf_text := "hello world".toList, vehicle_provider := none }).1
      (by decide) (by decide),
   (C9_no_provider_or_values_empty
      { pdf_text := "hello world".toList, vehicle_provider := none }).2
      (by decide)⟩

open PyStr in
/-- C7: a faulting extractor inside the orchestrated extraction is caught and
contributes zero records while the other extractors still run, so the
orchestrator result equals the one with that extractor returning no vehicles;
however, the provider-override path of `transform_data` calls the selected
extractor unguarded, so there a fault does propagate to the caller. -/
theorem C7_fault_isolation (e : List Char)
    (ifR gjR trygR lyR : VehicleMapping.PyResult) (pdf_text : List Char)
    (provider : Option (List Char)) (inp : VehicleMapping.TransformInput) :
    (VehicleMapping.orchestrate (.error e) gjR trygR lyR pdf_text provider =
       VehicleMapping.orchestrate (.ok []) gjR trygR lyR pdf_text provider ∧
     VehicleMapping.orchestrate ifR (.error e) trygR lyR pdf_text provider =
       VehicleMapping.orchestrate ifR (.ok []) trygR lyR pdf_text provider ∧
     VehicleMapping.orchestrate ifR gjR (.error e) lyR pdf_text provider =
       VehicleMapping.orchestrate ifR gjR (.ok []) lyR pdf_text provider ∧
     VehicleMapping.orchestrate ifR gjR trygR (.error e) pdf_text provider =
       VehicleMapping.orchestrate ifR gjR trygR (.ok []) pdf_text provider) ∧
    (inp.pdf_text ≠ [] →
     lowerL (stripWS (inp.vehicle_provider.getD [])) ∈ VehicleMapping.knownProviders →
     VehicleMapping.selectedResult (lowerL (stripWS (inp.vehicle_provider.getD [])))
       ifR gjR trygR lyR = .error e →
     VehicleMapping.transform_dataE ifR gjR trygR lyR inp = .error e) := by
  refine ⟨⟨rfl, rfl, rfl, rfl⟩, ?_⟩
  intro h1 h2 h3
  simp only [VehicleMapping.transform_dataE]
  rw [if_neg h1, if_pos h2, h3]

/-- Concrete instance: with a `tryg` provider override, a Tryg extractor fault
surfaces as the overall result. -/
theorem C7_fault_isolation_witness :
    VehicleMapping.transform_dataE (.ok []) (.ok []) (.error "boom".toList) (.ok [])
      { pdf_text := "x".toList, vehicle_provider := some "tryg".toList } =
      .error "boom".toList :=
  (C7_fault_isolation "boom".toList (.ok []) (.ok []) (.error "boom".toList) (.ok [])
    [] none { pdf_text := "x".toList, vehicle_provider := some "tryg".toList }).2
    (by decide) (by decide) (by rfl)

/-- Counterexample to the unqualified claim: an extractor error does reach the
caller of `transform_data` when a provider override selects that extractor. -/
theorem C7_fault_isolation_counterexample :
    VehicleMapping.transform_dataE (.ok []) (.ok []) (.error "boom".toList) (.ok [])
      { pdf_text := "Personbil".toList, vehicle_provider := some "tryg".toList } =
      .error "boom".toList := by rfl

/-- C1: the Gjensidige, Ly and If extractors return no records when their
fingerprints are absent — Gjensidige behind its explicit document guard, Ly
behind its marker scan, and If when no anchor pattern matches; the Tryg
extractor, by contrast, has no fingerprint guard (see the counterexample). -/
theorem C1_fingerprint_guards (t : List Char) :
    (Gjensidige.looks_like_gjensidige_pdf t = false →
      Gjensidige.extract_gjensidige_vehicles t = []) ∧
    ((["ly forsikring", "firmabil flate", "tilhenger flate",
        "registreringsnummer ureg"].any
        (fun mk => PyStr.containsSub mk.toList (Ly.normalize_text t))) = false →
      Ly.extract_ly_vehicles t = []) ∧
    (Rx.findIter IfSkade.ANCHOR_RE t = [] →
      IfSkade.extract_if_vehicles t = []) := by
  refine ⟨?_, ?_, ?_⟩
  · intro h
    simp [Gjensidige.extract_gjensidige_vehicles, h]
  · intro h
    by_cases ht : t = []
    · simp [Ly.extract_ly_vehicles, ht]
    · simp only [List.any_cons, List.any_nil, Bool.or_eq_false_iff] at h
      simp at h
      simp [Ly.extract_ly_vehicles, ht, h]
  · intro h
    simp only [IfSkade.extract_if_vehicles]
    rw [h]
    rfl

/-- Concrete instance of the guarded extractors on a foreign document. -/
theorem C1_fingerprint_guards_witness :
    Gjensidige.extract_gjensidige_vehicles "hello".toList = [] ∧
    Ly.extract_ly_vehicles "hello".toList = [] ∧
    IfSkade.extract_if_vehicles "hello".toList = [] :=
  ⟨(C1_fingerprint_guards "hello".toList).1 (by decide),
   (C1_fingerprint_guards "hello".toList).2.1 (by decide),
   (C1_fingerprint_guards "hello".toList).2.2 (by rfl)⟩

/-- Counterexample to the unqualified claim: the Tryg extractor produces a
record from a document that contains no Tryg fingerprint at all. -/
theorem C1_fingerprint_guards_counterexample :
    PyStr.containsSub "tryg".toList
      (PyStr.lowerL "Personbil\nAB1234\n968\n".toList) = false ∧
    Tryg.extract_tryg_vehicles "Personbil\nAB1234\n968\n".toList =
      [{ registration := "AB1234".toList, vehicle_type := "car".toList,
         premium := "968".toList, type_raw := "personbil".toList,
         source := "overview".toList }] := by
  constructor
  · decide
  · decide

open PyStr in
/-- C5: the provider-override branch of the vehicle `transform_data` runs only
the hinted insurer's extractor — its categorized result comes from the selected
extractor alone, and the outcome depends only on the selected extractor's
result; the orchestrator `extract_vehicles_from_pdf`, by contrast, ignores the
hint for extractor selection (see the counterexample). -/
theorem C5_provider_hint_single_extractor (inp : VehicleMapping.TransformInput)
    (ifR gjR trygR lyR ifR2 gjR2 trygR2 lyR2 : VehicleMapping.PyResult)
    (h : lowerL (stripWS (inp.vehicle_provider.getD [])) ∈
      VehicleMapping.knownProviders) :
    VehicleMapping.transformCategorized inp =
      some (VehicleMapping.categorize_vehicles
        (VehicleMapping.selectedExtractor
          (lowerL (stripWS (inp.vehicle_provider.getD []))) inp.pdf_text)) ∧
    (VehicleMapping.selectedResult (lowerL (stripWS (inp.vehicle_provider.getD [])))
        ifR gjR trygR lyR =
      VehicleMapping.selectedResult (lowerL (stripWS (inp.vehicle_provider.getD [])))
        ifR2 gjR2 trygR2 lyR2 →
      VehicleMapping.transform_dataE ifR gjR trygR lyR inp =
      VehicleMapping.transform_dataE ifR2 gjR2 trygR2 lyR2 inp) := by
  constructor
  · simp only [VehicleMapping.transformCategorized]
    rw [if_pos h]
  · intro hsel
    simp only [VehicleMapping.transform_dataE]
    by_cases hp : inp.pdf_text = []
    · rw [if_pos hp, if_pos hp]
    · rw [if_neg hp, if_neg hp, if_pos h, if_pos h, hsel]

/-- Concrete instance of the provider-override behaviour for a `tryg` hint. -/
theorem C5_provider_hint_single_extractor_witness :
    VehicleMapping.transformCategorized
      { pdf_text := "x".toList, vehicle_provider := some "tryg".toList } =
      some (VehicleMapping.categorize_vehicles
        (VehicleMapping.selectedExtractor "tryg".toList "x".toList)) ∧
    VehicleMapping.transform_dataE (.error "a".toList) (.error "b".toList)
      (.ok []) (.error "c".toList)
      { pdf_text := "x".toList, vehicle_provider := some "tryg".toList } =
    VehicleMapping.transform_dataE (.ok []) (.ok []) (.ok []) (.ok [])
      { pdf_text := "x".toList, vehicle_provider := some "tryg".toList } := by
  refine ⟨?_, ?_⟩
  · exact (C5_provider_hint_single_extractor
      { pdf_text := "x".toList, vehicle_provider := some "tryg".toList }
      (.ok []) (.ok []) (.ok []) (.ok []) (.ok []) (.ok []) (.ok []) (.ok [])
      (by decide)).1
  · exact (C5_provider_hint_single_extractor
      { pdf_text := "x".toList, vehicle_provider := some "tryg".toList }
      (.error "a".toList) (.error "b".toList) (.ok []) (.error "c".toList)
      (.ok []) (.ok []) (.ok []) (.ok [])
      (by decide)).2 (by rfl)

/-- Counterexample to the unqualified claim: with a `gjensidige` hint, the
orchestrator still returns a record the Tryg extractor found, even though the
Gjensidige extractor finds nothing in the document. -/
theorem C5_provider_hint_single_extractor_counterexample :
    Gjensidige.extract_gjensidige_vehicles "Personbil\nAB1234\n968\n".toList = [] ∧
    VehicleMapping.extract_vehicles_from_pdf "Personbil\nAB1234\n968\n".toList
      (some "gjensidige".toList) =
      some { car := [{ registration := "AB1234".toList, vehicle_type := "car".toList,
                       premium := "968".toList, type_raw := "personbil".toList,
                       source := "overview".toList }] } := by
  constructor
  · decide
  · decide

open PyStr Rx in
/-- C10: `_to_excel_number` with the code's actual screens — after stripping
and NBSP replacement, a value containing `/` or `%` passes through as text, a
value with any character outside digits, whitespace, dots and commas passes
through as text, and a value that is non-empty, passes the character screen,
starts with a digit (the full-match screen) and has at least one digit is
converted to the integer formed by its digit characters; a digits-and-
separators value that does not start with a digit is NOT converted (see the
counterexample). -/
theorem C10_to_excel_number_conversion (value raw : List Char)
    (hraw : raw = replace1 ' ' " ".toList (stripWS value)) :
    (raw.contains '/' = true ∨ raw.contains '%' = true →
      VehicleMapping.to_excel_number value = .s value) ∧
    (raw ≠ [] →
      raw.any (fun c => ¬ VehicleMapping.numTextChar c) = true →
      raw.contains '/' = false → raw.contains '%' = false →
      VehicleMapping.to_excel_number value = .s value) ∧
    (raw ≠ [] → raw.contains '/' = false → raw.contains '%' = false →
      raw.any (fun c => ¬ VehicleMapping.numTextChar c) = false →
      (fullmatch (seq [dcls, star (.cls VehicleMapping.numTextChar)]) raw).isSome = true →
      digitsOnly raw ≠ [] →
      VehicleMapping.to_excel_number value = .n (natOfDigits (digitsOnly raw))) := by
  subst hraw
  refine ⟨?_, ?_, ?_⟩
  · intro h
    have hne : replace1 ' ' " ".toList (stripWS value) ≠ [] := by
      intro h0
      rw [h0] at h
      simp [List.contains] at h
    simp only [VehicleMapping.to_excel_number]
    rw [if_neg hne, if_pos h]
  · intro hne hany hc1 hc2
    simp only [VehicleMapping.to_excel_number]
    rw [if_neg hne, if_neg (by rw [hc1, hc2]; simp), if_pos hany]
  · intro hne hc1 hc2 hany hfm hdig
    simp only [VehicleMapping.to_excel_number]
    rw [if_neg hne, if_neg (by rw [hc1, hc2]; simp), if_neg (by rw [hany]; simp),
      if_neg (by
        intro hcontra
        rw [Option.isNone_iff_eq_none] at hcontra
        rw [hcontra] at hfm
        simp at hfm),
      if_neg hdig]

/-- Concrete instance: a digit-led value with a space separator converts to the
concatenated integer. -/
theorem C10_to_excel_number_conversion_witness :
    VehicleMapping.to_excel_number "10 500".toList = .n 10500 :=
  ((C10_to_excel_number_conversion "10 500".toList "10 500".toList (by decide)).2.2
    (by decide) (by decide) (by decide) (by decide) (by decide) (by decide)).trans
    (by decide)

/-- Counterexample to the unqualified claim: `".5"` consists only of digits,
dots, commas and spaces, yet `_to_excel_number` passes it through as text
instead of emitting the digit concatenation `5`. -/
theorem C10_to_excel_number_conversion_counterexample :
    ".5".toList.all VehicleMapping.numTextChar = true ∧
    VehicleMapping.to_excel_number ".5".toList = .s ".5".toList := by
  constructor
  · decide
  · decide

namespace VehicleMapping

/-- Every vehicle kept by the dedup loop has a key outside the seen set. -/
theorem dedup_not_mem_seen :
    ∀ (vs : List Vehicle) (seen : List (List Char)) (v : Vehicle),
      v ∈ dedupVehicles vs seen → vkey v ∉ seen := by
  intro vs
  induction vs with
  | nil => intro seen v h; simp [dedupVehicles] at h
  | cons w vs ih =>
      intro seen v h
      unfold dedupVehicles at h
      by_cases hm : vkey w ∈ seen
      · rw [if_pos hm] at h
        exact ih seen v h
      · rw [if_neg hm] at h
        rcases List.mem_cons.mp h with h2 | h2
        · rw [h2]; exact hm
        · have := ih _ v h2
          exact fun hs => this (List.mem_cons_of_mem _ hs)

/-- The dedup loop emits pairwise distinct keys. -/
theorem dedup_keys_nodup :
    ∀ (vs : List Vehicle) (seen : List (List Char)),
      ((dedupVehicles vs seen).map vkey).Nodup := by
  intro vs
  induction vs with
  | nil => intro seen; simp [dedupVehicles]
  | cons w vs ih =>
      intro seen
      unfold dedupVehicles
      by_cases hm : vkey w ∈ seen
      · rw [if_pos hm]; exact ih seen
      · rw [if_neg hm]
        rw [List.map_cons, List.nodup_cons]
        refine ⟨?_, ih _⟩
        intro hmem
        rcases List.mem_map.mp hmem with ⟨v, hv, hkey⟩
        exact dedup_not_mem_seen _ _ v hv (by rw [hkey]; exact List.mem_cons_self _ _)

/-- Each kept vehicle is the first occurrence of its key in the input order. -/
theorem dedup_first_wins :
    ∀ (vs : List Vehicle) (seen : List (List Char)) (v : Vehicle),
      v ∈ dedupVehicles vs seen →
      vs.find? (fun w => vkey w == vkey v) = some v := by
  intro vs
  induction vs with
  | nil => intro seen v h; simp [dedupVehicles] at h
  | cons w vs ih =>
      intro seen v h
      unfold dedupVehicles at h
      by_cases hm : vkey w ∈ seen
      · rw [if_pos hm] at h
        have hne : vkey v ≠ vkey w := by
          intro he
          exact dedup_not_mem_seen _ _ v h (he ▸ hm)
        rw [List.find?_cons_of_neg _ (by simpa using fun he => hne he.symm)]
        exact ih seen v h
      · rw [if_neg hm] at h
        rcases List.mem_cons.mp h with h2 | h2
        · rw [h2]
          rw [List.find?_cons_of_pos _ (by simp)]
        · have hnm := dedup_not_mem_seen _ _ v h2
          have hne : vkey v ≠ vkey w := by
            intro he
            exact hnm (he ▸ List.mem_cons_self _ _)
          rw [List.find?_cons_of_neg _ (by simpa using fun he => hne he.symm)]
          exact ih _ v h2

/-- Every input vehicle is represented: its key is in the seen set or some kept
vehicle carries it. -/
theorem dedup_complete :
    ∀ (vs : List Vehicle) (seen : List (List Char)) (w : Vehicle), w ∈ vs →
      vkey w ∈ seen ∨ ∃ v ∈ dedupVehicles vs seen, vkey v = vkey w := by
  intro vs
  induction vs with
  | nil => intro seen w h; simp at h
  | cons u vs ih =>
      intro seen w h
      unfold dedupVehicles
      by_cases hm : vkey u ∈ seen
      · rw [if_pos hm]
        rcases List.mem_cons.mp h with h2 | h2
        · exact Or.inl (h2 ▸ hm)
        · exact ih seen w h2
      · rw [if_neg hm]
        rcases List.mem_cons.mp h with h2 | h2
        · exact Or.inr ⟨u, List.mem_cons_self _ _, by rw [h2]⟩
        · rcases ih (vkey u :: seen) w h2 with h3 | ⟨v, hv, hk⟩
          · rcases List.mem_cons.mp h3 with h4 | h4
            · exact Or.inr ⟨u, List.mem_cons_self _ _, h4.symm⟩
            · exact Or.inl h4
          · exact Or.inr ⟨v, List.mem_cons_of_mem _ hv, hk⟩

end VehicleMapping

/-- C4: in the merged list the orchestrator builds (`dedupVehicles` over the
concatenated extractor outputs, exactly the `unique` dict of
`extract_vehicles_from_pdf`), no two records share a dedup key, each kept
record is the first occurrence of its key in extractor-output order, and every
input key is represented by some kept record. -/
theorem C4_dedup_key_invariant (vs : List Vehicle) :
    ((VehicleMapping.dedupVehicles vs []).map VehicleMapping.vkey).Nodup ∧
    (∀ v ∈ VehicleMapping.dedupVehicles vs [],
      vs.find? (fun w => VehicleMapping.vkey w == VehicleMapping.vkey v) = some v) ∧
    (∀ w ∈ vs, ∃ v ∈ VehicleMapping.dedupVehicles vs [],
      VehicleMapping.vkey v = VehicleMapping.vkey w) := by
  refine ⟨VehicleMapping.dedup_keys_nodup vs [], ?_, ?_⟩
  · intro v hv
    exact VehicleMapping.dedup_first_wins vs [] v hv
  · intro w hw
    rcases VehicleMapping.dedup_complete vs [] w hw with h | h
    · simp at h
    · exact h

/-- Concrete instance: duplicate registrations keep the first record, and the
`Uregistrert` sentinel key includes the label. -/
theorem C4_dedup_key_invariant_witness :
    [({ registration := "AB12345".toList } : Vehicle),
     { registration := "AB12345".toList, premium := "1".toList },
     { registration := "Uregistrert".toList, make_model_year := "X".toList }].find?
      (fun w => VehicleMapping.vkey w ==
        VehicleMapping.vkey { registration := "AB12345".toList }) =
      some { registration := "AB12345".toList } ∧
    ∃ v ∈ VehicleMapping.dedupVehicles
      [({ registration := "AB12345".toList } : Vehicle),
       { registration := "AB12345".toList, premium := "1".toList },
       { registration := "Uregistrert".toList, make_model_year := "X".toList }] [],
      VehicleMapping.vkey v =
        VehicleMapping.vkey { registration := "AB12345".toList, premium := "1".toList } :=
  ⟨(C4_dedup_key_invariant
      [{ registration := "AB12345".toList },
       { registration := "AB12345".toList, premium := "1".toList },
       { registration := "Uregistrert".toList, make_model_year := "X".toList }]).2.1
      { registration := "AB12345".toList } (by decide),
   (C4_dedup_key_invariant
      [{ registration := "AB12345".toList },
       { registration := "AB12345".toList, premium := "1".toList },
       { registration := "Uregistrert".toList, make_model_year := "X".toList }]).2.2
      { registration := "AB12345".toList, premium := "1".toList } (by decide)⟩

namespace VehicleMapping

/-- Each column step appends exactly one cell, and it sits on the current
row. -/
theorem vehicleCellStep_shape (v : Vehicle) (row : Nat)
    (acc : List CellEntry × List (List Char × CellStyle))
    (fc : List Char × List Char) :
    ∃ ent : CellEntry, ent.row = row ∧
      (vehicleCellStep v row acc fc).1 = acc.1 ++ [ent] := by
  unfold vehicleCellStep
  dsimp only
  by_cases h1 : fc.1 = "sum_insured".toList
  · rw [if_pos h1]
    by_cases h2 : v.sum_insured ≠ []
    · rw [if_pos h2]
      exact ⟨_, rfl, rfl⟩
    · rw [if_neg h2]
      by_cases h3 : v.premium ≠ []
      · rw [if_pos h3]
        exact ⟨_, rfl, rfl⟩
      · rw [if_neg h3]
        exact ⟨_, rfl, rfl⟩
  · rw [if_neg h1]
    by_cases h4 : fc.1 = "annual_mileage".toList ∨ fc.1 = "deductible".toList
    · rw [if_pos h4]
      exact ⟨_, rfl, rfl⟩
    · rw [if_neg h4]
      exact ⟨_, rfl, rfl⟩

/-- Each column step emits cells only on the current row. -/
theorem vehicleCellStep_row (v : Vehicle) (row : Nat)
    (acc : List CellEntry × List (List Char × CellStyle))
    (fc : List Char × List Char) (h : ∀ e ∈ acc.1, e.row = row) :
    ∀ e ∈ (vehicleCellStep v row acc fc).1, e.row = row := by
  intro e he
  obtain ⟨ent, hr, heq⟩ := vehicleCellStep_shape v row acc fc
  rw [heq] at he
  rcases List.mem_append.mp he with h2 | h2
  · exact h e h2
  · simp only [List.mem_singleton] at h2
    rw [h2, hr]

/-- The column fold emits cells only on the current row. -/
theorem vehicleCells_foldl_row (v : Vehicle) (row : Nat) :
    ∀ (cols : List (List Char × List Char))
      (acc : List CellEntry × List (List Char × CellStyle)),
      (∀ e ∈ acc.1, e.row = row) →
      ∀ e ∈ (List.foldl (vehicleCellStep v row) acc cols).1, e.row = row := by
  intro cols
  induction cols with
  | nil => intro acc h; simpa using h
  | cons fc cols ih =>
      intro acc h
      rw [List.foldl_cons]
      exact ih _ (vehicleCellStep_row v row acc fc h)

/-- All cells of one vehicle sit on its assigned row. -/
theorem vehicleCells_row (v : Vehicle) (row : Nat) :
    ∀ e ∈ (vehicleCells v row).1, e.row = row := by
  unfold vehicleCells
  exact vehicleCells_foldl_row v row VEHICLE_COLUMNS ([], []) (by simp)

/-- The per-category row loop stays within `[row, endRow]`. -/
theorem catLoop_row_bounds (endRow : Nat) :
    ∀ (vs : List Vehicle) (row : Nat), ∀ e ∈ (catLoop endRow row vs).1,
      row ≤ e.row ∧ e.row ≤ endRow := by
  intro vs
  induction vs with
  | nil => intro row e he; simp [catLoop] at he
  | cons v vs ih =>
      intro row e he
      unfold catLoop at he
      by_cases hr : endRow < row
      · rw [if_pos hr] at he
        simp at he
      · rw [if_neg hr] at he
        rcases List.mem_append.mp he with h2 | h2
        · have := vehicleCells_row v row e h2
          omega
        · have := (ih (row + 1) e h2).1
          have h3 := (ih (row + 1) e h2).2
          omega

/-- The transform fold is the concatenation of the six per-band loops. -/
theorem transformEntries_eq (c : Categorized) :
    (transformEntries c).1 =
      (catLoop 22 3 c.car).1 ++ (catLoop 34 26 c.trailer).1 ++
      (catLoop 46 38 c.moped).1 ++ (catLoop 60 50 c.tractor).1 ++
      (catLoop 72 64 c.boat).1 ++ (catLoop 84 76 c.other).1 := by
  simp [transformEntries, VEHICLE_ROWS, bucketOf, List.append_assoc]

end VehicleMapping

/-- C6: every cell entry of the vehicle `transform_data` lies in the row band
of its record's category — cars in rows 3 to 22, trailers 26 to 34, mopeds 38
to 46, tractors 50 to 60, boats 64 to 72 and other 76 to 84 — and the produced
entries are exactly the concatenation of the six per-band loops, so no cell is
ever written outside its category's declared band. -/
theorem C6_row_band_containment (c : VehicleMapping.Categorized) :
    (∀ e ∈ (VehicleMapping.catLoop 22 3 c.car).1, 3 ≤ e.row ∧ e.row ≤ 22) ∧
    (∀ e ∈ (VehicleMapping.catLoop 34 26 c.trailer).1, 26 ≤ e.row ∧ e.row ≤ 34) ∧
    (∀ e ∈ (VehicleMapping.catLoop 46 38 c.moped).1, 38 ≤ e.row ∧ e.row ≤ 46) ∧
    (∀ e ∈ (VehicleMapping.catLoop 60 50 c.tractor).1, 50 ≤ e.row ∧ e.row ≤ 60) ∧
    (∀ e ∈ (VehicleMapping.catLoop 72 64 c.boat).1, 64 ≤ e.row ∧ e.row ≤ 72) ∧
    (∀ e ∈ (VehicleMapping.catLoop 84 76 c.other).1, 76 ≤ e.row ∧ e.row ≤ 84) ∧
    (VehicleMapping.transformEntries c).1 =
      (VehicleMapping.catLoop 22 3 c.car).1 ++
      (VehicleMapping.catLoop 34 26 c.trailer).1 ++
      (VehicleMapping.catLoop 46 38 c.moped).1 ++
      (VehicleMapping.catLoop 60 50 c.tractor).1 ++
      (VehicleMapping.catLoop 72 64 c.boat).1 ++
      (VehicleMapping.catLoop 84 76 c.other).1 :=
  ⟨fun e he => VehicleMapping.catLoop_row_bounds 22 c.car 3 e he,
   fun e he => VehicleMapping.catLoop_row_bounds 34 c.trailer 26 e he,
   fun e he => VehicleMapping.catLoop_row_bounds 46 c.moped 38 e he,
   fun e he => VehicleMapping.catLoop_row_bounds 60 c.tractor 50 e he,
   fun e he => VehicleMapping.catLoop_row_bounds 72 c.boat 64 e he,
   fun e he => VehicleMapping.catLoop_row_bounds 84 c.other 76 e he,
   VehicleMapping.transformEntries_eq c⟩

/-- Concrete instance: the registration cell of the first car lands in row 3 of
the car band. -/
theorem C6_row_band_containment_witness :
    3 ≤ (⟨"B".toList, 3, .s "AB12345".toList⟩ : VehicleMapping.CellEntry).row ∧
    (⟨"B".toList, 3, .s "AB12345".toList⟩ : VehicleMapping.CellEntry).row ≤ 22 :=
  (C6_row_band_containment
    { car := [{ registration := "AB12345".toList }] }).1
    ⟨"B".toList, 3, .s "AB12345".toList⟩ (by decide)

/-- The last element of a list is a member. -/
theorem mem_of_getLastQ {α : Type} (l : List α) (a : α) (h : l.getLast? = some a) :
    a ∈ l := by
  induction l with
  | nil => simp at h
  | cons b t ih =>
      cases t with
      | nil =>
          simp only [List.getLast?_singleton, Option.some.injEq] at h
          rw [← h]
          exact List.mem_singleton_self b
      | cons c u =>
          rw [List.getLast?_cons_cons] at h
          exact List.mem_cons_of_mem _ (ih h)

namespace Gjensidige

open PyStr Rx

/-- Every candidate the premium-window filter keeps is non-empty and outside
the year range. -/
theorem premiumWindowStep_P (acc : List (List Char)) (hit x : List Char)
    (h : ∀ y ∈ acc, y ≠ [] ∧ ¬(1900 ≤ natOfDigits y ∧ natOfDigits y ≤ 2100))
    (hx : x ∈ premiumWindowStep acc hit) :
    x ≠ [] ∧ ¬(1900 ≤ natOfDigits x ∧ natOfDigits x ≤ 2100) := by
  unfold premiumWindowStep at hx
  dsimp only at hx
  by_cases hv : normalize_digits hit = []
  · rw [if_pos hv] at hx
    exact h x hx
  · rw [if_neg hv] at hx
    by_cases hy : 1900 ≤ natOfDigits (normalize_digits hit) ∧
        natOfDigits (normalize_digits hit) ≤ 2100
    · rw [if_pos hy] at hx
      exact h x hx
    · rw [if_neg hy] at hx
      rcases List.mem_append.mp hx with h2 | h2
      · exact h x h2
      · simp only [List.mem_singleton] at h2
        rw [h2]
        exact ⟨hv, hy⟩

/-- The premium-window fold only accumulates non-year candidates. -/
theorem premiumWindow_fold_P :
    ∀ (hits : List (List Char)) (acc : List (List Char)),
      (∀ y ∈ acc, y ≠ [] ∧ ¬(1900 ≤ natOfDigits y ∧ natOfDigits y ≤ 2100)) →
      ∀ x ∈ hits.foldl premiumWindowStep acc,
        x ≠ [] ∧ ¬(1900 ≤ natOfDigits x ∧ natOfDigits x ≤ 2100) := by
  intro hits
  induction hits with
  | nil => intro acc h x hx; exact h x hx
  | cons hit hits ih =>
      intro acc h x hx
      rw [List.foldl_cons] at hx
      exact ih _ (fun y hy => premiumWindowStep_P acc hit y h hy) x hx

/-- `_extract_premium_after_position` is empty or outside the year range. -/
theorem premium_after_position_not_year (text : List Char) (pos : Nat) :
    extract_premium_after_position text pos = [] ∨
    ¬(1900 ≤ natOfDigits (extract_premium_after_position text pos) ∧
      natOfDigits (extract_premium_after_position text pos) ≤ 2100) := by
  unfold extract_premium_after_position
  by_cases ht : text = []
  · rw [if_pos ht]
    exact Or.inl rfl
  · rw [if_neg ht]
    dsimp only
    cases hm : search NUMBER_TOKEN_RE (pySlice text pos (pos + 100)) with
    | none => exact Or.inl rfl
    | some m =>
        dsimp only
        by_cases hv : normalize_digits (groupD (pySlice text pos (pos + 100)) m 1) = []
        · rw [if_pos hv]
          exact Or.inl rfl
        · rw [if_neg hv]
          by_cases hy : 1900 ≤
              natOfDigits (normalize_digits (groupD (pySlice text pos (pos + 100)) m 1)) ∧
              natOfDigits (normalize_digits (groupD (pySlice text pos (pos + 100)) m 1)) ≤ 2100
          · rw [if_pos hy]
            exact Or.inl rfl
          · rw [if_neg hy]
            exact Or.inr hy

/-- `_extract_premium_from_window` is empty or outside the year range. -/
theorem premium_window_not_year (text : List Char) :
    extract_premium_from_window text = [] ∨
    ¬(1900 ≤ natOfDigits (extract_premium_from_window text) ∧
      natOfDigits (extract_premium_from_window text) ≤ 2100) := by
  unfold extract_premium_from_window
  by_cases ht : text = []
  · rw [if_pos ht]
    exact Or.inl rfl
  · rw [if_neg ht]
    dsimp only
    cases hl : (List.foldl premiumWindowStep [] (findAll1 NUMBER_TOKEN_RE text)).getLast? with
    | none => exact Or.inl rfl
    | some v =>
        refine Or.inr ?_
        exact (premiumWindow_fold_P (findAll1 NUMBER_TOKEN_RE text) [] (by simp) v
          (mem_of_getLastQ _ v hl)).2

end Gjensidige

open PyStr in
/-- C2: the Gjensidige premium extractors reject year-shaped tokens — a
non-empty result of `_extract_premium_after_position` or
`_extract_premium_from_window` never parses to an integer in the inclusive
range 1900 to 2100; the Tryg and Ly amount normalizers perform no such check
(see the counterexample). -/
theorem C2_year_range_excluded (text : List Char) (pos : Nat) :
    (Gjensidige.extract_premium_after_position text pos ≠ [] →
      ¬(1900 ≤ natOfDigits (Gjensidige.extract_premium_after_position text pos) ∧
        natOfDigits (Gjensidige.extract_premium_after_position text pos) ≤ 2100)) ∧
    (Gjensidige.extract_premium_from_window text ≠ [] →
      ¬(1900 ≤ natOfDigits (Gjensidige.extract_premium_from_window text) ∧
        natOfDigits (Gjensidige.extract_premium_from_window text) ≤ 2100)) := by
  constructor
  · intro hne
    rcases Gjensidige.premium_after_position_not_year text pos with h | h
    · exact absurd h hne
    · exact h
  · intro hne
    rcases Gjensidige.premium_window_not_year text with h | h
    · exact absurd h hne
    · exact h

/-- Concrete instance: a real premium token is extracted and lies outside the
year range. -/
theorem C2_year_range_excluded_witness :
    ¬(1900 ≤ PyStr.natOfDigits
        (Gjensidige.extract_premium_after_position "Pris 12 500 kr".toList 0) ∧
      PyStr.natOfDigits
        (Gjensidige.extract_premium_after_position "Pris 12 500 kr".toList 0) ≤ 2100) ∧
    ¬(1900 ≤ PyStr.natOfDigits
        (Gjensidige.extract_premium_from_window "Pris 12 500 kr".toList) ∧
      PyStr.natOfDigits
        (Gjensidige.extract_premium_from_window "Pris 12 500 kr".toList) ≤ 2100) :=
  ⟨(C2_year_range_excluded "Pris 12 500 kr".toList 0).1 (by decide),
   (C2_year_range_excluded "Pris 12 500 kr".toList 0).2 (by decide)⟩

/-- Counterexample to the unqualified claim: the Tryg key-value scan accepts
the year-shaped token `1999` as a premium amount. -/
theorem C2_year_range_excluded_counterexample :
    Tryg.extract_key_values "Pris: 1999".toList =
      [("premium".toList, "1999".toList)] ∧
    1900 ≤ PyStr.natOfDigits "1999".toList ∧
    PyStr.natOfDigits "1999".toList ≤ 2100 := by
  refine ⟨by decide, by decide, by decide⟩

namespace PyStr

/-- Members of an interspersed list are the separator or original elements. -/
theorem mem_intersperse {α : Type} (sep : α) :
    ∀ (ls : List α) (c : α), c ∈ List.intersperse sep ls → c = sep ∨ c ∈ ls := by
  intro ls
  induction ls with
  | nil => intro c hc; simp at hc
  | cons a ls ih =>
      intro c hc
      cases ls with
      | nil =>
          simp only [List.intersperse_singleton, List.mem_singleton] at hc
          exact Or.inr (by simp [hc])
      | cons b ls2 =>
          rw [List.intersperse_cons_cons] at hc
          rcases List.mem_cons.mp hc with h | h
          · exact Or.inr (by simp [h])
          · rcases List.mem_cons.mp h with h2 | h2
            · exact Or.inl h2
            · rcases ih c h2 with h3 | h3
              · exact Or.inl h3
              · exact Or.inr (List.mem_cons_of_mem _ h3)

/-- Members of an intercalated list come from the separator or a block. -/
theorem mem_intercalate (sep : List Char) (ls : List (List Char)) (c : Char)
    (hc : c ∈ List.intercalate sep ls) : c ∈ sep ∨ ∃ l ∈ ls, c ∈ l := by
  unfold List.intercalate at hc
  rcases List.mem_flatten.mp hc with ⟨l, hl, hcl⟩
  rcases mem_intersperse sep ls l hl with h | h
  · exact Or.inl (h ▸ hcl)
  · exact Or.inr ⟨l, h, hcl⟩

end PyStr

namespace Ly

open PyStr

/-- Characters of the three-digit regrouping come from the digit string. -/
theorem mem_groupThrees :
    ∀ (digits : List Char), ∀ g ∈ groupThrees digits, ∀ c ∈ g, c ∈ digits := by
  intro digits
  induction digits using groupThrees.induct with
  | case1 d h =>
      intro g hg c hc
      unfold groupThrees at hg
      rw [if_pos h] at hg
      simp only [List.mem_singleton] at hg
      exact hg ▸ hc
  | case2 d h ih =>
      intro g hg c hc
      unfold groupThrees at hg
      rw [if_neg h] at hg
      rcases List.mem_append.mp hg with h2 | h2
      · exact List.mem_of_mem_take (ih g h2 c hc)
      · simp only [List.mem_singleton] at h2
        rw [h2] at hc
        exact List.mem_of_mem_drop hc

end Ly

open PyStr in
/-- C3: the digit normalizations actually applied at extraction — Gjensidige's
`_normalize_digits` yields digit characters only, and Ly's `_normalize_amount`
yields only digits and single-space group separators; the If mileage field, by
contrast, keeps its internal spaces verbatim (see the counterexample). -/
theorem C3_numeric_fields_digits (v : List Char) :
    (Gjensidige.normalize_digits v).all pyDigit = true ∧
    (Ly.normalize_amount v).all (fun c => pyDigit c ∨ c = ' ') = true := by
  constructor
  · rw [List.all_eq_true]
    intro c hc
    have h2 := mem_of_stripWS c _ hc
    unfold digitsOnly at h2
    exact List.of_mem_filter h2
  · rw [List.all_eq_true]
    intro c hc
    apply decide_eq_true
    unfold Ly.normalize_amount at hc
    dsimp only at hc
    by_cases h1 : digitsOnly v = []
    · rw [if_pos h1] at hc
      exact absurd hc (List.not_mem_nil c)
    · rw [if_neg h1] at hc
      by_cases h2 : digitsOnly v = "0".toList
      · rw [if_pos h2] at hc
        simp at hc
        left
        rw [hc]
        decide
      · rw [if_neg h2] at hc
        rcases mem_intercalate " ".toList _ c hc with h | ⟨l, hl, hcl⟩
        · right
          simpa using h
        · left
          have h3 := Ly.mem_groupThrees (digitsOnly v) l hl c hcl
          unfold digitsOnly at h3
          exact List.of_mem_filter h3

/-- Counterexample to the unqualified claim: the If extractor stores an annual
mileage containing an internal thousands space. -/
theorem C3_numeric_fields_digits_counterexample :
    (IfSkade.extract_if_vehicles
        "Registreringsnummer: AB12345\nAB12345, Varebil, TOYOTA HIACE\nÅrsmodell: 2020\nKjørelengde: 20 000 km\n".toList).map
      (fun w => w.annual_mileage) = ["20 000".toList] ∧
    "20 000".toList.all PyStr.pyDigit = false := by
  constructor
  · decide
  · decide
